import Mathlib

/-!
Verification development for the `ksp_plugin` scheduler core (Principia).

The C++ sources under `src/ksp_plugin` (chiefly `plugin.cpp` / `plugin.hpp`)
are shallowly embedded here.  Components whose implementation files are not
part of the repository snapshot (`Vessel`, `PhysicsBubble`, `Trajectory`,
the geometry library, component serialization) are modelled from the
specification; each such definition carries a doc comment saying so.

Times are rationals (`Instant` as seconds since the epoch), vectors are
rational triples, and the numerical output of the symplectic integrator is
abstracted by an uninterpreted state-evolution function carried in `Params`:
the scheduler decides *which* trajectories receive points at *which* times,
and that bookkeeping — the subject of the claims — is independent of the
numeric values produced by the force model.
-/

namespace Principia

/-- An instant, in seconds (the source uses `Instant = Point<Time>`). -/
abbrev Instant := ℚ

/-- The fixed history time step `Δt_ = 10 * Second` of `Plugin` (plugin.hpp). -/
def Δt : ℚ := 10

/-- A coordinate triple.  Modelled from the spec: the geometry library
(`R3Element`/`Vector`/`Position`) is not part of the snapshot; claims only
need componentwise affine arithmetic. -/
structure Vec3 where
  x : ℚ
  y : ℚ
  z : ℚ
deriving DecidableEq, Repr

instance : Add Vec3 := ⟨fun a b => ⟨a.x + b.x, a.y + b.y, a.z + b.z⟩⟩
instance : Sub Vec3 := ⟨fun a b => ⟨a.x - b.x, a.y - b.y, a.z - b.z⟩⟩

def vec0 : Vec3 := ⟨0, 0, 0⟩

/-- Degrees of freedom: a position and a velocity (also used for
`RelativeDegreesOfFreedom`, which holds a displacement and a velocity).
Modelled from the spec's `DegreesOfFreedom<F> = (position, velocity)`. -/
structure Dof where
  pos : Vec3
  vel : Vec3
deriving DecidableEq, Repr

instance : Add Dof := ⟨fun a b => ⟨a.pos + b.pos, a.vel + b.vel⟩⟩
instance : Sub Dof := ⟨fun a b => ⟨a.pos - b.pos, a.vel - b.vel⟩⟩

def dof0 : Dof := ⟨vec0, vec0⟩

/-- The rotation `Rotation<Barycentric, WorldSun>` built by
`Plugin::PlanetariumRotation`: a rotation about the axis `{0, 1, 0}`,
represented by the cosine and sine of its angle.  Modelled from the spec:
the geometry library is not part of the snapshot. -/
structure Rot where
  c : ℚ
  s : ℚ
deriving DecidableEq, Repr

/-- Action of a rotation about the y axis on a coordinate triple. -/
def Rot.apply (r : Rot) (v : Vec3) : Vec3 :=
  ⟨r.c * v.x + r.s * v.z, v.y, -r.s * v.x + r.c * v.z⟩

/-- `Rotation::Inverse`: the rotation by the opposite angle. -/
def Rot.inv (r : Rot) : Rot := ⟨r.c, -r.s⟩

/-- Rotation applied to both components of a (relative) degrees of freedom. -/
def Rot.applyD (r : Rot) (d : Dof) : Dof := ⟨r.apply d.pos, r.apply d.vel⟩

/-- `kSunLookingGlass`, the `XZY` coordinate permutation between `WorldSun`
and `AliceSun` (plugin.cpp): it swaps the y and z coordinates, and is its
own inverse.  Modelled from the spec (geometry library not in snapshot). -/
def permXZY (v : Vec3) : Vec3 := ⟨v.x, v.z, v.y⟩

/-- `kSunLookingGlass` applied to both components. -/
def permXZYD (d : Dof) : Dof := ⟨permXZY d.pos, permXZY d.vel⟩

theorem permXZY_involutive (v : Vec3) : permXZY (permXZY v) = v := rfl

theorem Vec3.eq_of (a b : Vec3) (h1 : a.x = b.x) (h2 : a.y = b.y) (h3 : a.z = b.z) :
    a = b := by
  cases a; cases b
  cases h1; cases h2; cases h3
  rfl

theorem Rot.apply_inv_apply (r : Rot) (h : r.c ^ 2 + r.s ^ 2 = 1) (v : Vec3) :
    r.apply (r.inv.apply v) = v := by
  refine Vec3.eq_of _ _ ?_ rfl ?_ <;> simp only [Rot.apply, Rot.inv]
  · linear_combination v.x * h
  · linear_combination v.z * h

/-- Timed sample of a trajectory: `(time, degrees_of_freedom)`. -/
abbrev TimedDof := ℚ × Dof

/-- The time of the last sample of a trajectory (`trajectory.last().time()`).
The default is irrelevant: it is only taken on nonempty trajectories. -/
def lastTime (l : List TimedDof) : ℚ := ((l.getLast?).map Prod.fst).getD 0

/-- The degrees of freedom of the last sample
(`trajectory.last().degrees_of_freedom()`). -/
def lastDof (l : List TimedDof) : Dof := ((l.getLast?).map Prod.snd).getD dof0

theorem lastTime_append {a b : List TimedDof} (hb : b ≠ []) :
    lastTime (a ++ b) = lastTime b := by
  simp [lastTime, List.getLast?_append_of_ne_nil a hb]

theorem lastTime_singleton (t : ℚ) (d : Dof) : lastTime [(t, d)] = t := rfl

/-! ### Association lists (the embedding of `std::map`)

`std::map` keeps its entries sorted by key; we embed maps as key-sorted
association lists so that iteration order is the source's iteration order. -/

section AssocList

variable {K : Type} [LinearOrder K] {V : Type}

/-- Lookup by key (`map.find`). -/
def alookup (k : K) : List (K × V) → Option V
  | [] => none
  | p :: t => if p.1 = k then some p.2 else alookup k t

/-- Pointwise update of the value at a key (the embedding of mutating a
mapped value through an iterator or pointer). -/
def aupdate (k : K) (f : V → V) : List (K × V) → List (K × V)
  | [] => []
  | p :: t => (if p.1 = k then (p.1, f p.2) else p) :: aupdate k f t

/-- Sorted insertion of a fresh key (`map.emplace` on an absent key). -/
def insKey (k : K) (v : V) : List (K × V) → List (K × V)
  | [] => [(k, v)]
  | p :: t => if k < p.1 then (k, v) :: p :: t else p :: insKey k v t

/-- Sorted insertion into a set of keys (`std::set::insert`). -/
def insSet (k : K) : List K → List K
  | [] => [k]
  | a :: t => if k < a then k :: a :: t else if k = a then a :: t else a :: insSet k t

/-- Strictly ascending (hence duplicate-free) list of keys. -/
abbrev SortedKeys (l : List K) : Prop := l.Pairwise (· < ·)

theorem SortedKeys.nodup {l : List K} (h : SortedKeys l) : l.Nodup :=
  h.imp ne_of_lt

theorem sortedKeys_ext {l₁ l₂ : List K} (h₁ : SortedKeys l₁) (h₂ : SortedKeys l₂)
    (h : ∀ a, a ∈ l₁ ↔ a ∈ l₂) : l₁ = l₂ :=
  List.eq_of_perm_of_sorted
    ((List.perm_ext_iff_of_nodup h₁.nodup h₂.nodup).mpr h) h₁ h₂

theorem mem_insSet {k a : K} {l : List K} : a ∈ insSet k l ↔ a = k ∨ a ∈ l := by
  induction l with
  | nil => simp [insSet]
  | cons b t ih =>
    by_cases h1 : k < b
    · simp only [insSet, if_pos h1, List.mem_cons]
    · by_cases h2 : k = b
      · subst h2
        simp [insSet, h1]
      · simp only [insSet, if_neg h1, if_neg h2, List.mem_cons, ih]
        tauto

theorem sortedKeys_insSet {k : K} {l : List K} (h : SortedKeys l) :
    SortedKeys (insSet k l) := by
  induction l with
  | nil => simp [insSet]
  | cons b t ih =>
    rcases h with _ | ⟨hb, ht⟩
    by_cases h1 : k < b
    · simp only [insSet, if_pos h1]
      refine List.Pairwise.cons ?_ (List.Pairwise.cons hb ht)
      intro a ha
      rcases List.mem_cons.mp ha with rfl | ha
      · exact h1
      · exact lt_trans h1 (hb a ha)
    · by_cases h2 : k = b
      · simp only [insSet, if_neg h1, if_pos h2]
        exact List.Pairwise.cons hb ht
      · have hbk : b < k := lt_of_le_of_ne (not_lt.mp h1) (Ne.symm h2)
        simp only [insSet, if_neg h1, if_neg h2]
        refine List.Pairwise.cons ?_ (ih ht)
        intro a ha
        rcases mem_insSet.mp ha with rfl | ha
        · exact hbk
        · exact hb a ha

theorem mem_keys_insKey {k a : K} {v : V} {l : List (K × V)} :
    a ∈ (insKey k v l).map Prod.fst ↔ a = k ∨ a ∈ l.map Prod.fst := by
  induction l with
  | nil => simp [insKey]
  | cons p t ih =>
    by_cases h1 : k < p.1
    · simp [insKey, h1]
    · simp [insKey, h1, ih]
      tauto

theorem mem_insKey {q : K × V} {k : K} {v : V} {l : List (K × V)} :
    q ∈ insKey k v l ↔ q = (k, v) ∨ q ∈ l := by
  induction l with
  | nil => simp [insKey]
  | cons p t ih =>
    by_cases h1 : k < p.1
    · simp [insKey, h1]
    · simp [insKey, h1, ih]
      tauto

theorem sortedKeys_insKey {k : K} {v : V} {l : List (K × V)}
    (h : SortedKeys (l.map Prod.fst)) (hk : k ∉ l.map Prod.fst) :
    SortedKeys ((insKey k v l).map Prod.fst) := by
  induction l with
  | nil => simp [insKey]
  | cons p t ih =>
    rw [List.map_cons] at h
    rcases h with _ | ⟨hb, ht⟩
    have hk1 : k ≠ p.1 := by
      intro hcontra
      exact hk (by simp [hcontra])
    have hk2 : k ∉ t.map Prod.fst := fun hmem => hk (by simp [hmem])
    by_cases h1 : k < p.1
    · simp only [insKey, if_pos h1, List.map_cons]
      refine List.Pairwise.cons ?_ (List.Pairwise.cons hb ht)
      intro a ha
      rcases List.mem_cons.mp ha with rfl | ha
      · exact h1
      · exact lt_trans h1 (hb a ha)
    · have hpk : p.1 < k := lt_of_le_of_ne (not_lt.mp h1) (Ne.symm hk1)
      simp only [insKey, if_neg h1, List.map_cons]
      refine List.Pairwise.cons ?_ (ih ht hk2)
      intro a ha
      rcases mem_keys_insKey.mp ha with rfl | ha
      · exact hpk
      · exact hb a ha

theorem alookup_eq_none {k : K} {l : List (K × V)} :
    alookup k l = none ↔ k ∉ l.map Prod.fst := by
  induction l with
  | nil => simp [alookup]
  | cons p t ih =>
    by_cases h1 : p.1 = k
    · simp [alookup, h1]
    · simp [alookup, h1, ih, Ne.symm h1]

theorem alookup_isSome {k : K} {l : List (K × V)} :
    (alookup k l).isSome ↔ k ∈ l.map Prod.fst := by
  rcases h : alookup k l with _ | v
  · simpa [h] using (alookup_eq_none.mp h)
  · simp only [Option.isSome_some, true_iff]
    by_contra hmem
    rw [← alookup_eq_none] at hmem
    rw [h] at hmem
    cases hmem

theorem alookup_mem {k : K} {v : V} {l : List (K × V)} (h : alookup k l = some v) :
    (k, v) ∈ l := by
  induction l with
  | nil => cases h
  | cons p t ih =>
    by_cases h1 : p.1 = k
    · rw [alookup, if_pos h1] at h
      injection h with h
      subst h
      have hp : (k, p.2) = p := by rw [← h1]
      rw [hp]
      exact List.mem_cons_self p t
    · rw [alookup, if_neg h1] at h
      exact List.mem_cons_of_mem _ (ih h)

theorem alookup_of_mem {k : K} {v : V} {l : List (K × V)}
    (hn : (l.map Prod.fst).Nodup) (h : (k, v) ∈ l) : alookup k l = some v := by
  induction l with
  | nil => cases h
  | cons p t ih =>
    rcases List.mem_cons.mp h with rfl | h
    · simp [alookup]
    · have hfst : p.1 ≠ k := by
        intro hcontra
        have : k ∈ t.map Prod.fst := List.mem_map_of_mem Prod.fst h
        rw [List.map_cons] at hn
        exact (List.nodup_cons.mp hn).1 (hcontra ▸ this)
      rw [alookup, if_neg hfst]
      exact ih (List.nodup_cons.mp hn).2 h

theorem alookup_insKey_self {k : K} {v : V} {l : List (K × V)}
    (habs : k ∉ l.map Prod.fst) : alookup k (insKey k v l) = some v := by
  induction l with
  | nil => simp [insKey, alookup]
  | cons p t ih =>
    have h2 : p.1 ≠ k := by
      intro hcontra
      exact habs (by simp [hcontra])
    have habs2 : k ∉ t.map Prod.fst := fun hmem => habs (by simp [hmem])
    by_cases h1 : k < p.1
    · simp [insKey, h1, alookup]
    · simp [insKey, h1, alookup, h2, ih habs2]

theorem alookup_insKey_ne {k k₂ : K} {v : V} {l : List (K × V)} (h : k₂ ≠ k) :
    alookup k₂ (insKey k v l) = alookup k₂ l := by
  induction l with
  | nil => simp [insKey, alookup, Ne.symm h]
  | cons p t ih =>
    by_cases h1 : k < p.1
    · simp only [insKey, if_pos h1, alookup, if_neg (Ne.symm h)]
    · simp only [insKey, if_neg h1, alookup, ih]

theorem aupdate_cons {k : K} {f : V → V} {p : K × V} {t : List (K × V)} :
    aupdate k f (p :: t) =
      (if p.1 = k then (p.1, f p.2) else p) :: aupdate k f t := rfl

theorem keys_aupdate {k : K} {f : V → V} {l : List (K × V)} :
    (aupdate k f l).map Prod.fst = l.map Prod.fst := by
  induction l with
  | nil => rfl
  | cons p t ih =>
    by_cases h1 : p.1 = k <;> simp [aupdate_cons, h1, ih]

theorem alookup_aupdate_self {k : K} {f : V → V} {l : List (K × V)} :
    alookup k (aupdate k f l) = (alookup k l).map f := by
  induction l with
  | nil => rfl
  | cons p t ih =>
    by_cases h1 : p.1 = k
    · simp [aupdate_cons, h1, alookup]
    · simp [aupdate_cons, h1, alookup, ih]

theorem alookup_aupdate_ne {k k₂ : K} {f : V → V} {l : List (K × V)} (h : k₂ ≠ k) :
    alookup k₂ (aupdate k f l) = alookup k₂ l := by
  induction l with
  | nil => rfl
  | cons p t ih =>
    by_cases h1 : p.1 = k
    · have hne : p.1 ≠ k₂ := h1 ▸ Ne.symm h
      simp [aupdate_cons, h1, alookup, hne, Ne.symm h, ih]
    · by_cases h2 : p.1 = k₂ <;> simp [aupdate_cons, h1, h2, h, alookup, ih]

end AssocList

/-! ### Data model: vessels, celestials, the physics bubble, the plugin -/

/-- The GUID of a vessel (`GUID = std::string` in plugin.hpp). -/
abbrev GUID := String

/-- The index of a celestial body (`Index = int` in plugin.hpp). -/
abbrev Index := Int

/-- The trajectory state of a `Vessel`.  Modelled from the spec (vessel.hpp
is not in the snapshot): a vessel is *uninitialized* (no trajectory),
*unsynchronized* (prolongation only, no history), or *synchronized*
(history plus a prolongation forked at `history.last().time()`).  A
prolongation is stored as its effective timeline (the fork's logical
prefix followed by its own samples), so appending to the parent history
after the fork point does not alter it. -/
inductive VState where
  | uninit : VState
  | unsync (prolong : List TimedDof) : VState
  | sync (history : List TimedDof) (prolong : List TimedDof) : VState
deriving DecidableEq, Repr

/-- `Vessel::is_initialized`: true iff the vessel has a prolongation. -/
def VState.isInitialized : VState → Bool
  | .uninit => false
  | _ => true

/-- `Vessel::is_synchronized`: true iff the vessel has a history. -/
def VState.isSync : VState → Bool
  | .sync _ _ => true
  | _ => false

/-- The vessel's prolongation (`Vessel::prolongation`), as its effective
timeline; empty for an uninitialized vessel (never queried there). -/
def VState.prolong : VState → List TimedDof
  | .uninit => []
  | .unsync pr => pr
  | .sync _ pr => pr

/-- The vessel's history (`Vessel::history`); empty unless synchronized. -/
def VState.history : VState → List TimedDof
  | .sync h _ => h
  | _ => []

/-- Replace the prolongation (the embedding of appending through
`mutable_prolongation()`). -/
def VState.setProlong (tr : List TimedDof) : VState → VState
  | .uninit => .uninit
  | .unsync _ => .unsync tr
  | .sync h _ => .sync h tr

/-- Replace the history (the embedding of appending through
`mutable_history()`). -/
def VState.setHistory (tr : List TimedDof) : VState → VState
  | .sync _ pr => .sync tr pr
  | st => st

/-- `Vessel::ResetProlongation`: delete the prolongation and fork a new one
at the end of the history.  Modelled from the spec / celestial.hpp's
documented twin. -/
def VState.reset : VState → VState
  | .sync h _ => .sync h h
  | st => st

/-- A vessel: a parent-celestial index and a trajectory state.  Modelled
from the spec (vessel.hpp not in the snapshot); the parent pointer is
embedded as the parent's map index. -/
structure Vessel where
  parent : Index
  state : VState
deriving DecidableEq, Repr

/-- A celestial: gravitational parameter, optional parent index, history,
and prolongation (the prolongation as its effective timeline, as for
vessels).  From celestial.hpp. -/
structure Celestial where
  μ : ℚ
  parent : Option Index
  history : List TimedDof
  prolong : List TimedDof
deriving DecidableEq, Repr

/-- A part in the physics bubble: mass plus degrees of freedom in `World`.
Modelled from the spec (part.hpp not in the snapshot); the claims treat its
payload as opaque. -/
structure Part where
  mass : ℚ
  dof : Dof
deriving DecidableEq, Repr

/-- The `current` snapshot of the physics bubble: a centre-of-mass
trajectory and, per vessel, its `from_centre_of_mass` offset.  Modelled
from the spec, §3 `PhysicsBubble` and §4.5 step 2. -/
structure BubbleState where
  comTraj : List TimedDof
  vessels : List (GUID × Dof)
deriving DecidableEq, Repr

/-- The physics bubble: a `current` snapshot (consistent with the last
advance) and a `next` snapshot being assembled by host calls.  Modelled
from the spec (physics_bubble.hpp not in the snapshot). -/
structure Bubble where
  current : Option BubbleState
  next : Option (List (GUID × List Part))
deriving DecidableEq, Repr

/-- The full `Plugin` state (plugin.hpp, data members).  `std::map`s are
key-sorted association lists, `std::set`s sorted key lists; the `sun_`
pointer is the sun's map index; `Monostable initializing_` is a `Bool`;
the planetarium rotation is the stored angle. -/
structure Plugin where
  vessels : List (GUID × Vessel)
  celestials : List (Index × Celestial)
  unsync : List GUID
  dirty : List GUID
  kept : List GUID
  bubble : Bubble
  initializing : Bool
  planetariumRotation : ℚ
  currentTime : ℚ
  sunIndex : Index
deriving DecidableEq, Repr

/-- The sun's history (`sun_->history()`). -/
def sunHistory (s : Plugin) : List TimedDof :=
  match alookup s.sunIndex s.celestials with
  | some c => c.history
  | none => []

/-- `Plugin::HistoryTime`: the last time of the sun's history. -/
def historyTime (s : Plugin) : ℚ := lastTime (sunHistory s)

/-- `PhysicsBubble::empty`: no `current` snapshot. -/
def bubbleEmpty (s : Plugin) : Bool := s.bubble.current.isNone

/-- `PhysicsBubble::contains`: membership of a vessel in the `current`
snapshot. -/
def bubbleContains (s : Plugin) (g : GUID) : Bool :=
  match s.bubble.current with
  | some st => decide (g ∈ st.vessels.map Prod.fst)
  | none => false

/-- `is_dirty`/`is_synchronized` of the vessel with a given GUID. -/
def isSyncAt (s : Plugin) (g : GUID) : Bool :=
  match alookup g s.vessels with
  | some v => v.state.isSync
  | none => false

/-- The uninterpreted numeric parameters of the embedding: `flow` is the
joint state evolution computed by `NBodySystem::Integrate` for one
integrator step (from time, to time, states of the listed trajectories);
`comInit`/`partOffset` are the centre-of-mass point and per-vessel offsets
computed by `PhysicsBubble::Prepare` from the assembled `next` parts; and
`cosF`/`sinF` give the cosine and sine used by the geometry library's
rotation.  The claims are proved for every choice of these functions. -/
structure Params where
  flow : ℚ → ℚ → List Dof → List Dof
  comInit : ℚ → ℚ → ℚ → List (GUID × List Part) → Dof
  partOffset : ℚ → ℚ → ℚ → List (GUID × List Part) → GUID → Dof
  cosF : ℚ → ℚ
  sinF : ℚ → ℚ

/-- `Plugin::PlanetariumRotation`: the rotation about `{0, 1, 0}` by the
stored angle. -/
def planetariumRot (p : Params) (s : Plugin) : Rot :=
  ⟨p.cosF s.planetariumRotation, p.sinF s.planetariumRotation⟩

/-- `AliceSun → Barycentric` conversion (plugin.cpp:
`PlanetariumRotation().Inverse()(kSunLookingGlass.Inverse()(d))`). -/
def aliceToBary (r : Rot) (d : Dof) : Dof := r.inv.applyD (permXZYD d)

/-- `Barycentric → AliceSun` conversion (plugin.cpp:
`kSunLookingGlass(PlanetariumRotation()(d))`). -/
def baryToAlice (r : Rot) (d : Dof) : Dof := permXZYD (r.applyD d)

/-! ### Trajectory handles

C++ mutates trajectories through pointers collected in
`NBodySystem::Trajectories`; the embedding names each trajectory by its
owner and writes back through the state. -/

/-- A handle to one trajectory of the plugin state. -/
inductive Handle where
  | celHist (i : Index) : Handle
  | celProl (i : Index) : Handle
  | vesHist (g : GUID) : Handle
  | vesProl (g : GUID) : Handle
  | com : Handle
deriving DecidableEq, Repr

/-- Read the trajectory a handle points to. -/
def getTraj (s : Plugin) : Handle → List TimedDof
  | .celHist i =>
      match alookup i s.celestials with
      | some c => c.history
      | none => []
  | .celProl i =>
      match alookup i s.celestials with
      | some c => c.prolong
      | none => []
  | .vesHist g =>
      match alookup g s.vessels with
      | some v => v.state.history
      | none => []
  | .vesProl g =>
      match alookup g s.vessels with
      | some v => v.state.prolong
      | none => []
  | .com =>
      match s.bubble.current with
      | some st => st.comTraj
      | none => []

/-- Write the trajectory a handle points to. -/
def setTraj (s : Plugin) : Handle → List TimedDof → Plugin
  | .celHist i, tr =>
      { s with celestials := aupdate i (fun c => { c with history := tr }) s.celestials }
  | .celProl i, tr =>
      { s with celestials := aupdate i (fun c => { c with prolong := tr }) s.celestials }
  | .vesHist g, tr =>
      { s with vessels :=
          aupdate g (fun v => { v with state := v.state.setHistory tr }) s.vessels }
  | .vesProl g, tr =>
      { s with vessels :=
          aupdate g (fun v => { v with state := v.state.setProlong tr }) s.vessels }
  | .com, tr =>
      { s with bubble :=
          { s.bubble with current := s.bubble.current.map (fun st => { st with comTraj := tr }) } }

/-! ### The integrator embedding

`NBodySystem::Integrate` advances all listed trajectories jointly from
their common last time by steps of exactly `Δt` (spec §4.1): full steps
whose endpoints do not overshoot `tmax`, then — when `tmax_is_exact` — one
final step landing exactly on `tmax`.  Each produced step appends one
point to every listed trajectory at the same instant (spec §4.2). -/

/-- Number of full `Δt` steps from `t0` that do not overshoot `tmax`. -/
def stepCount (t0 tmax : ℚ) : ℕ := (Int.floor ((tmax - t0) / Δt)).toNat

/-- The instants at which the integrator produces steps. -/
def stepTimes (t0 tmax : ℚ) (exact : Bool) : List ℚ :=
  let k := stepCount t0 tmax
  let fulls := (List.range k).map (fun (i : ℕ) => t0 + ((i : ℚ) + 1) * Δt)
  if exact && decide (t0 + (k : ℚ) * Δt < tmax) then fulls ++ [tmax] else fulls

/-- Joint evolution of the listed trajectories' end states through the
step instants, by the uninterpreted right-hand side `f`. -/
def evolveAll (f : ℚ → ℚ → List Dof → List Dof) : ℚ → List Dof → List ℚ → List (List Dof)
  | _, _, [] => []
  | tp, st, t :: ts => (f tp t st) :: evolveAll f t (f tp t st) ts

/-- The points appended to the trajectory at position `i` of the handle
list: the step instants paired with that trajectory's component of the
jointly evolved states. -/
def attachPts (ts : List ℚ) (sts : List (List Dof)) (i : ℕ) : List TimedDof :=
  (ts.zip sts).map (fun q => (q.1, q.2.getD i dof0))

/-- Append each trajectory's produced points through its handle. -/
def integrateWrite (ts : List ℚ) (sts : List (List Dof)) :
    Plugin → List Handle → ℕ → Plugin
  | s, [], _ => s
  | s, h :: rest, i =>
      integrateWrite ts sts (setTraj s h (getTraj s h ++ attachPts ts sts i)) rest (i + 1)

/-- `NBodySystem::Integrate` over the trajectories named by `hs`. -/
def integrate (p : Params) (exact : Bool) (tmax : ℚ) (hs : List Handle)
    (s : Plugin) : Plugin :=
  match hs with
  | [] => s
  | h0 :: _ =>
    let t0 := lastTime (getTraj s h0)
    let ts := stepTimes t0 tmax exact
    let sts := evolveAll p.flow t0 (hs.map (fun h => lastDof (getTraj s h))) ts
    integrateWrite ts sts s hs 0

/-! ### Lemmas about the integrator's step instants -/

theorem Δt_pos : (0 : ℚ) < Δt := by norm_num [Δt]

theorem stepCount_cast_le {t0 tmax : ℚ} (h : t0 ≤ tmax) :
    t0 + (stepCount t0 tmax : ℚ) * Δt ≤ tmax := by
  have hx : (0 : ℚ) ≤ (tmax - t0) / Δt := by
    apply div_nonneg (by linarith) (le_of_lt Δt_pos)
  have hfl : (0 : ℤ) ≤ Int.floor ((tmax - t0) / Δt) := by
    exact_mod_cast Int.le_floor.mpr (by exact_mod_cast hx)
  have hcast : ((stepCount t0 tmax : ℚ)) = ((Int.floor ((tmax - t0) / Δt) : ℤ) : ℚ) := by
    unfold stepCount
    exact_mod_cast congrArg (fun z : ℤ => (z : ℚ)) (Int.toNat_of_nonneg hfl)
  rw [hcast]
  have hle : ((Int.floor ((tmax - t0) / Δt) : ℤ) : ℚ) ≤ (tmax - t0) / Δt :=
    Int.floor_le _
  have := (mul_le_mul_right Δt_pos).mpr hle
  rw [div_mul_cancel₀] at this
  · linarith
  · exact ne_of_gt Δt_pos

theorem stepCount_cast_gt {t0 tmax : ℚ} :
    tmax - Δt < t0 + (stepCount t0 tmax : ℚ) * Δt := by
  have hlt : (tmax - t0) / Δt < Int.floor ((tmax - t0) / Δt) + 1 :=
    Int.lt_floor_add_one _
  have hcast : ((Int.floor ((tmax - t0) / Δt) : ℤ) : ℚ) ≤ (stepCount t0 tmax : ℚ) := by
    unfold stepCount
    exact_mod_cast Int.self_le_toNat _
  have := (mul_lt_mul_right Δt_pos).mpr hlt
  rw [div_mul_cancel₀ _ (ne_of_gt Δt_pos)] at this
  have h2 : tmax - t0 < ((stepCount t0 tmax : ℚ) + 1) * Δt := by
    calc tmax - t0 < ((Int.floor ((tmax - t0) / Δt) : ℚ) + 1) * Δt := by
          exact_mod_cast this
      _ ≤ ((stepCount t0 tmax : ℚ) + 1) * Δt := by
          apply mul_le_mul_of_nonneg_right (by linarith) (le_of_lt Δt_pos)
  nlinarith [Δt_pos]

theorem stepCount_pos {t0 tmax : ℚ} (h : t0 + Δt < tmax) : 1 ≤ stepCount t0 tmax := by
  have hx : (1 : ℚ) ≤ (tmax - t0) / Δt := by
    rw [le_div_iff₀ Δt_pos]
    linarith
  have hfl : (1 : ℤ) ≤ Int.floor ((tmax - t0) / Δt) :=
    Int.le_floor.mpr (by exact_mod_cast hx)
  unfold stepCount
  omega

theorem fulls_getLast {k : ℕ} (f : ℕ → ℚ) (h : k ≠ 0) :
    ((List.range k).map f).getLast? = some (f (k - 1)) := by
  obtain ⟨m, rfl⟩ : ∃ m, k = m + 1 := ⟨k - 1, by omega⟩
  rw [List.range_succ, List.map_append]
  simp

/-- The last element of the list of full steps. -/
theorem fulls_getLast_eq {t0 tmax : ℚ} (hk : stepCount t0 tmax ≠ 0) :
    ((List.range (stepCount t0 tmax)).map
        (fun (i : ℕ) => t0 + ((i : ℚ) + 1) * Δt)).getLast? =
      some (t0 + (stepCount t0 tmax : ℚ) * Δt) := by
  rw [fulls_getLast _ hk]
  congr 2
  have h1 : (1 : ℕ) ≤ stepCount t0 tmax := by omega
  have hc : ((stepCount t0 tmax - 1 : ℕ) : ℚ) = (stepCount t0 tmax : ℚ) - 1 := by
    push_cast [Nat.cast_sub h1]
    ring
  rw [hc]
  ring

/-- Shape of the non-exact step instants when at least one step fits:
nonempty, ending at `t0 + k·Δt` with `k = stepCount t0 tmax ≥ 1`. -/
theorem stepTimes_nonexact {t0 tmax : ℚ} (h : t0 + Δt < tmax) :
    stepTimes t0 tmax false ≠ [] ∧
    (stepTimes t0 tmax false).getLast? =
      some (t0 + (stepCount t0 tmax : ℚ) * Δt) := by
  have hk := stepCount_pos h
  have hred : stepTimes t0 tmax false =
      (List.range (stepCount t0 tmax)).map
        (fun (i : ℕ) => t0 + ((i : ℚ) + 1) * Δt) := by
    simp [stepTimes]
  rw [hred]
  constructor
  · simp only [ne_eq, List.map_eq_nil_iff, List.range_eq_nil]
    omega
  · exact fulls_getLast_eq (by omega)

/-- Shape of the exact step instants: empty when `t0 = tmax`, otherwise
nonempty and ending exactly at `tmax`. -/
theorem stepTimes_exact {t0 tmax : ℚ} (h : t0 ≤ tmax) :
    (t0 = tmax → stepTimes t0 tmax true = []) ∧
    (t0 < tmax → stepTimes t0 tmax true ≠ [] ∧
      (stepTimes t0 tmax true).getLast? = some tmax) := by
  constructor
  · intro heq
    subst heq
    have hk : stepCount t0 t0 = 0 := by
      unfold stepCount
      simp
    simp [stepTimes, hk]
  · intro hlt
    have hle := stepCount_cast_le h
    by_cases hg : t0 + (stepCount t0 tmax : ℚ) * Δt < tmax
    · have hred : stepTimes t0 tmax true =
          (List.range (stepCount t0 tmax)).map
            (fun (i : ℕ) => t0 + ((i : ℚ) + 1) * Δt) ++ [tmax] := by
        simp [stepTimes, hg]
      rw [hred]
      constructor
      · simp
      · simp
    · have heq : t0 + (stepCount t0 tmax : ℚ) * Δt = tmax := le_antisymm hle (not_lt.mp hg)
      have hk : stepCount t0 tmax ≠ 0 := by
        intro h0
        rw [h0] at heq
        simp at heq
        exact absurd heq (ne_of_lt hlt)
      have hred : stepTimes t0 tmax true =
          (List.range (stepCount t0 tmax)).map
            (fun (i : ℕ) => t0 + ((i : ℚ) + 1) * Δt) := by
        simp [stepTimes, hg]
      rw [hred]
      constructor
      · simp only [ne_eq, List.map_eq_nil_iff, List.range_eq_nil]
        omega
      · rw [fulls_getLast_eq hk, heq]

theorem evolveAll_length {f : ℚ → ℚ → List Dof → List Dof} :
    ∀ {ts : List ℚ} {tp : ℚ} {st : List Dof}, (evolveAll f tp st ts).length = ts.length
  | [], _, _ => rfl
  | _ :: ts, tp, st => by
    simp only [evolveAll, List.length_cons]
    rw [evolveAll_length]

theorem attachPts_fst {ts : List ℚ} {sts : List (List Dof)} {i : ℕ}
    (h : ts.length ≤ sts.length) : (attachPts ts sts i).map Prod.fst = ts := by
  unfold attachPts
  rw [List.map_map]
  have : (Prod.fst ∘ fun q : ℚ × List Dof => (q.1, q.2.getD i dof0)) = Prod.fst := rfl
  rw [this]
  exact List.map_fst_zip ts sts h

/-! ### VState kind lemmas -/

@[simp] theorem isSync_setProlong (tr : List TimedDof) (st : VState) :
    (st.setProlong tr).isSync = st.isSync := by cases st <;> rfl

@[simp] theorem isInit_setProlong (tr : List TimedDof) (st : VState) :
    (st.setProlong tr).isInitialized = st.isInitialized := by cases st <;> rfl

@[simp] theorem isSync_setHistory (tr : List TimedDof) (st : VState) :
    (st.setHistory tr).isSync = st.isSync := by cases st <;> rfl

@[simp] theorem isInit_setHistory (tr : List TimedDof) (st : VState) :
    (st.setHistory tr).isInitialized = st.isInitialized := by cases st <;> rfl

@[simp] theorem prolong_setHistory (tr : List TimedDof) (st : VState) :
    (st.setHistory tr).prolong = st.prolong := by cases st <;> rfl

@[simp] theorem history_setProlong (tr : List TimedDof) (st : VState) :
    (st.setProlong tr).history = st.history := by cases st <;> rfl

theorem prolong_setProlong (tr : List TimedDof) {st : VState}
    (h : st.isInitialized = true) : (st.setProlong tr).prolong = tr := by
  cases st <;> first | rfl | cases h

theorem history_setHistory (tr : List TimedDof) {st : VState}
    (h : st.isSync = true) : (st.setHistory tr).history = tr := by
  cases st <;> first | rfl | cases h

theorem isInit_of_isSync {st : VState} (h : st.isSync = true) :
    st.isInitialized = true := by cases st <;> first | rfl | cases h

@[simp] theorem history_sync (h pr : List TimedDof) :
    (VState.sync h pr).history = h := rfl

@[simp] theorem prolong_sync (h pr : List TimedDof) :
    (VState.sync h pr).prolong = pr := rfl

@[simp] theorem isSync_sync (h pr : List TimedDof) :
    (VState.sync h pr).isSync = true := rfl

@[simp] theorem isInit_sync (h pr : List TimedDof) :
    (VState.sync h pr).isInitialized = true := rfl

@[simp] theorem prolong_unsync (pr : List TimedDof) :
    (VState.unsync pr).prolong = pr := rfl

/-! ### Laws of the trajectory heap -/

/-- A handle is valid when the trajectory it names exists and can be
written: the celestial is present, the vessel is initialized (prolongation)
or synchronized (history), the bubble has a `current` snapshot. -/
def ValidH (s : Plugin) : Handle → Prop
  | .celHist i => i ∈ s.celestials.map Prod.fst
  | .celProl i => i ∈ s.celestials.map Prod.fst
  | .vesHist g => ∃ v, alookup g s.vessels = some v ∧ v.state.isSync = true
  | .vesProl g => ∃ v, alookup g s.vessels = some v ∧ v.state.isInitialized = true
  | .com => s.bubble.current.isSome = true

theorem getTraj_setTraj_self {s : Plugin} {h : Handle} (hv : ValidH s h)
    (tr : List TimedDof) : getTraj (setTraj s h tr) h = tr := by
  cases h with
  | celHist i =>
    have hv2 : i ∈ s.celestials.map Prod.fst := hv
    rcases hl : alookup i s.celestials with _ | c
    · exact absurd hv2 (alookup_eq_none.mp hl)
    · simp [getTraj, setTraj, alookup_aupdate_self, hl]
  | celProl i =>
    have hv2 : i ∈ s.celestials.map Prod.fst := hv
    rcases hl : alookup i s.celestials with _ | c
    · exact absurd hv2 (alookup_eq_none.mp hl)
    · simp [getTraj, setTraj, alookup_aupdate_self, hl]
  | vesHist g =>
    rcases hv with ⟨v, hl, hsync⟩
    simp [getTraj, setTraj, alookup_aupdate_self, hl, history_setHistory tr hsync]
  | vesProl g =>
    rcases hv with ⟨v, hl, hinit⟩
    simp [getTraj, setTraj, alookup_aupdate_self, hl, prolong_setProlong tr hinit]
  | com =>
    have hv2 : s.bubble.current.isSome = true := hv
    rcases hc : s.bubble.current with _ | st
    · rw [hc] at hv2
      cases hv2
    · simp [getTraj, setTraj, hc]

theorem getTraj_setTraj_ne {s : Plugin} {h1 h2 : Handle} (hne : h1 ≠ h2)
    (tr : List TimedDof) : getTraj (setTraj s h1 tr) h2 = getTraj s h2 := by
  cases h1 with
  | celHist i =>
    cases h2 with
    | celHist j =>
      have hij : j ≠ i := fun hc => hne (by rw [hc])
      simp [getTraj, setTraj, alookup_aupdate_ne hij]
    | celProl j =>
      by_cases hij : j = i
      · subst hij
        simp only [getTraj, setTraj, alookup_aupdate_self]
        rcases alookup j s.celestials with _ | c <;> rfl
      · simp [getTraj, setTraj, alookup_aupdate_ne hij]
    | vesHist g => rfl
    | vesProl g => rfl
    | com => rfl
  | celProl i =>
    cases h2 with
    | celHist j =>
      by_cases hij : j = i
      · subst hij
        simp only [getTraj, setTraj, alookup_aupdate_self]
        rcases alookup j s.celestials with _ | c <;> rfl
      · simp [getTraj, setTraj, alookup_aupdate_ne hij]
    | celProl j =>
      have hij : j ≠ i := fun hc => hne (by rw [hc])
      simp [getTraj, setTraj, alookup_aupdate_ne hij]
    | vesHist g => rfl
    | vesProl g => rfl
    | com => rfl
  | vesHist g =>
    cases h2 with
    | celHist j => rfl
    | celProl j => rfl
    | vesHist g2 =>
      have hgg : g2 ≠ g := fun hc => hne (by rw [hc])
      simp [getTraj, setTraj, alookup_aupdate_ne hgg]
    | vesProl g2 =>
      by_cases hgg : g2 = g
      · subst hgg
        simp only [getTraj, setTraj, alookup_aupdate_self]
        rcases alookup g2 s.vessels with _ | v
        · rfl
        · simp
      · simp [getTraj, setTraj, alookup_aupdate_ne hgg]
    | com => rfl
  | vesProl g =>
    cases h2 with
    | celHist j => rfl
    | celProl j => rfl
    | vesHist g2 =>
      by_cases hgg : g2 = g
      · subst hgg
        simp only [getTraj, setTraj, alookup_aupdate_self]
        rcases alookup g2 s.vessels with _ | v
        · rfl
        · simp
      · simp [getTraj, setTraj, alookup_aupdate_ne hgg]
    | vesProl g2 =>
      have hgg : g2 ≠ g := fun hc => hne (by rw [hc])
      simp [getTraj, setTraj, alookup_aupdate_ne hgg]
    | com => rfl
  | com =>
    cases h2 with
    | celHist j => rfl
    | celProl j => rfl
    | vesHist g2 =>
      rcases hc : s.bubble.current with _ | st <;> simp [getTraj, setTraj, hc]
    | vesProl g2 =>
      rcases hc : s.bubble.current with _ | st <;> simp [getTraj, setTraj, hc]
    | com => exact absurd rfl hne

theorem validH_setTraj {s : Plugin} (h1 : Handle) (tr : List TimedDof)
    {h2 : Handle} (hv : ValidH s h2) : ValidH (setTraj s h1 tr) h2 := by
  cases h1 with
  | celHist i =>
    cases h2 with
    | celHist j => simpa [ValidH, setTraj, keys_aupdate] using hv
    | celProl j => simpa [ValidH, setTraj, keys_aupdate] using hv
    | vesHist g => exact hv
    | vesProl g => exact hv
    | com => exact hv
  | celProl i =>
    cases h2 with
    | celHist j => simpa [ValidH, setTraj, keys_aupdate] using hv
    | celProl j => simpa [ValidH, setTraj, keys_aupdate] using hv
    | vesHist g => exact hv
    | vesProl g => exact hv
    | com => exact hv
  | vesHist g =>
    cases h2 with
    | celHist j => exact hv
    | celProl j => exact hv
    | vesHist g2 =>
      rcases hv with ⟨v, hl, hs⟩
      by_cases hgg : g2 = g
      · subst hgg
        exact ⟨{ v with state := v.state.setHistory tr },
               by simp [setTraj, alookup_aupdate_self, hl],
               by simpa using hs⟩
      · exact ⟨v, by simp [setTraj, alookup_aupdate_ne hgg, hl], hs⟩
    | vesProl g2 =>
      rcases hv with ⟨v, hl, hs⟩
      by_cases hgg : g2 = g
      · subst hgg
        exact ⟨{ v with state := v.state.setHistory tr },
               by simp [setTraj, alookup_aupdate_self, hl],
               by simpa using hs⟩
      · exact ⟨v, by simp [setTraj, alookup_aupdate_ne hgg, hl], hs⟩
    | com => exact hv
  | vesProl g =>
    cases h2 with
    | celHist j => exact hv
    | celProl j => exact hv
    | vesHist g2 =>
      rcases hv with ⟨v, hl, hs⟩
      by_cases hgg : g2 = g
      · subst hgg
        exact ⟨{ v with state := v.state.setProlong tr },
               by simp [setTraj, alookup_aupdate_self, hl],
               by simpa using hs⟩
      · exact ⟨v, by simp [setTraj, alookup_aupdate_ne hgg, hl], hs⟩
    | vesProl g2 =>
      rcases hv with ⟨v, hl, hs⟩
      by_cases hgg : g2 = g
      · subst hgg
        exact ⟨{ v with state := v.state.setProlong tr },
               by simp [setTraj, alookup_aupdate_self, hl],
               by simpa using hs⟩
      · exact ⟨v, by simp [setTraj, alookup_aupdate_ne hgg, hl], hs⟩
    | com => exact hv
  | com =>
    cases h2 with
    | celHist j => exact hv
    | celProl j => exact hv
    | vesHist g2 => exact hv
    | vesProl g2 => exact hv
    | com => simpa [ValidH, setTraj, Option.isSome_map] using hv

/-! ### Frame lemmas: what `setTraj` and `integrateWrite` leave unchanged -/

theorem setTraj_unsync (s : Plugin) (h : Handle) (tr : List TimedDof) :
    (setTraj s h tr).unsync = s.unsync := by cases h <;> rfl

theorem setTraj_dirty (s : Plugin) (h : Handle) (tr : List TimedDof) :
    (setTraj s h tr).dirty = s.dirty := by cases h <;> rfl

theorem setTraj_kept (s : Plugin) (h : Handle) (tr : List TimedDof) :
    (setTraj s h tr).kept = s.kept := by cases h <;> rfl

theorem setTraj_initializing (s : Plugin) (h : Handle) (tr : List TimedDof) :
    (setTraj s h tr).initializing = s.initializing := by cases h <;> rfl

theorem setTraj_rotation (s : Plugin) (h : Handle) (tr : List TimedDof) :
    (setTraj s h tr).planetariumRotation = s.planetariumRotation := by cases h <;> rfl

theorem setTraj_currentTime (s : Plugin) (h : Handle) (tr : List TimedDof) :
    (setTraj s h tr).currentTime = s.currentTime := by cases h <;> rfl

theorem setTraj_sunIndex (s : Plugin) (h : Handle) (tr : List TimedDof) :
    (setTraj s h tr).sunIndex = s.sunIndex := by cases h <;> rfl

theorem setTraj_vesselKeys (s : Plugin) (h : Handle) (tr : List TimedDof) :
    (setTraj s h tr).vessels.map Prod.fst = s.vessels.map Prod.fst := by
  cases h <;> simp [setTraj, keys_aupdate]

theorem setTraj_celKeys (s : Plugin) (h : Handle) (tr : List TimedDof) :
    (setTraj s h tr).celestials.map Prod.fst = s.celestials.map Prod.fst := by
  cases h <;> simp [setTraj, keys_aupdate]

theorem setTraj_bubbleNext (s : Plugin) (h : Handle) (tr : List TimedDof) :
    (setTraj s h tr).bubble.next = s.bubble.next := by cases h <;> rfl

theorem setTraj_bubbleVessels (s : Plugin) (h : Handle) (tr : List TimedDof) :
    ((setTraj s h tr).bubble.current).map BubbleState.vessels =
      (s.bubble.current).map BubbleState.vessels := by
  cases h with
  | com =>
    rcases hc : s.bubble.current with _ | st <;> simp [setTraj, hc]
  | celHist i => rfl
  | celProl i => rfl
  | vesHist g => rfl
  | vesProl g => rfl

theorem setTraj_bubbleEmpty (s : Plugin) (h : Handle) (tr : List TimedDof) :
    bubbleEmpty (setTraj s h tr) = bubbleEmpty s := by
  cases h with
  | com =>
    rcases hc : s.bubble.current with _ | st <;> simp [bubbleEmpty, setTraj, hc]
  | celHist i => rfl
  | celProl i => rfl
  | vesHist g => rfl
  | vesProl g => rfl

theorem setTraj_bubbleContains (s : Plugin) (h : Handle) (tr : List TimedDof)
    (g : GUID) : bubbleContains (setTraj s h tr) g = bubbleContains s g := by
  cases h with
  | com =>
    rcases hc : s.bubble.current with _ | st <;>
      simp [bubbleContains, setTraj, hc]
  | celHist i => rfl
  | celProl i => rfl
  | vesHist g2 => rfl
  | vesProl g2 => rfl

/-- The parent/kind data of a vessel is untouched by trajectory writes. -/
theorem setTraj_vesselMeta (s : Plugin) (h : Handle) (tr : List TimedDof)
    (g : GUID) :
    (alookup g (setTraj s h tr).vessels).map
        (fun v => (v.parent, v.state.isSync, v.state.isInitialized)) =
      (alookup g s.vessels).map
        (fun v => (v.parent, v.state.isSync, v.state.isInitialized)) := by
  cases h with
  | celHist i => rfl
  | celProl i => rfl
  | com => rfl
  | vesHist g2 =>
    by_cases hgg : g = g2
    · subst hgg
      simp only [setTraj, alookup_aupdate_self]
      rcases alookup g s.vessels with _ | v <;> simp
    · simp [setTraj, alookup_aupdate_ne hgg]
  | vesProl g2 =>
    by_cases hgg : g = g2
    · subst hgg
      simp only [setTraj, alookup_aupdate_self]
      rcases alookup g s.vessels with _ | v <;> simp
    · simp [setTraj, alookup_aupdate_ne hgg]

/-- The body/parent data of a celestial is untouched by trajectory writes. -/
theorem setTraj_celMeta (s : Plugin) (h : Handle) (tr : List TimedDof)
    (i : Index) :
    (alookup i (setTraj s h tr).celestials).map (fun c => (c.μ, c.parent)) =
      (alookup i s.celestials).map (fun c => (c.μ, c.parent)) := by
  cases h with
  | vesHist g => rfl
  | vesProl g => rfl
  | com => rfl
  | celHist j =>
    by_cases hij : i = j
    · subst hij
      simp only [setTraj, alookup_aupdate_self]
      rcases alookup i s.celestials with _ | c <;> simp
    · simp [setTraj, alookup_aupdate_ne hij]
  | celProl j =>
    by_cases hij : i = j
    · subst hij
      simp only [setTraj, alookup_aupdate_self]
      rcases alookup i s.celestials with _ | c <;> simp
    · simp [setTraj, alookup_aupdate_ne hij]

/-- Any observation invariant under every `setTraj` is invariant under
`integrateWrite`. -/
theorem integrateWrite_congr {α : Type} {ts : List ℚ} {sts : List (List Dof)}
    (F : Plugin → α) (hF : ∀ s h tr, F (setTraj s h tr) = F s) :
    ∀ {hs : List Handle} {s : Plugin} {i : ℕ},
      F (integrateWrite ts sts s hs i) = F s
  | [], _, _ => rfl
  | h :: rest, s, i => by
    rw [integrateWrite, integrateWrite_congr F hF, hF]

theorem integrateWrite_get_notMem {ts : List ℚ} {sts : List (List Dof)}
    {h : Handle} :
    ∀ {hs : List Handle} {s : Plugin} {i : ℕ}, h ∉ hs →
      getTraj (integrateWrite ts sts s hs i) h = getTraj s h
  | [], _, _, _ => rfl
  | h0 :: rest, s, i, hmem => by
    have h1 : h ≠ h0 := fun hc => hmem (hc ▸ List.mem_cons_self h0 rest)
    have h2 : h ∉ rest := fun hc => hmem (List.mem_cons_of_mem h0 hc)
    rw [integrateWrite, integrateWrite_get_notMem h2,
        getTraj_setTraj_ne (Ne.symm h1)]

theorem integrateWrite_get_mem {ts : List ℚ} {sts : List (List Dof)}
    {h : Handle} :
    ∀ {hs : List Handle} {s : Plugin} {i : ℕ}, hs.Nodup →
      (∀ h2 ∈ hs, ValidH s h2) → h ∈ hs →
      ∃ j, getTraj (integrateWrite ts sts s hs i) h =
        getTraj s h ++ attachPts ts sts j
  | [], _, _, _, _, hmem => absurd hmem (List.not_mem_nil h)
  | h0 :: rest, s, i, hnd, hval, hmem => by
    rcases List.mem_cons.mp hmem with rfl | hmem2
    · have hnot : h ∉ rest := (List.nodup_cons.mp hnd).1
      refine ⟨i, ?_⟩
      rw [integrateWrite, integrateWrite_get_notMem hnot,
          getTraj_setTraj_self (hval h (List.mem_cons_self h rest))]
    · have hne : h0 ≠ h := by
        intro hc
        subst hc
        exact (List.nodup_cons.mp hnd).1 hmem2
      have hval2 : ∀ h2 ∈ rest,
          ValidH (setTraj s h0 (getTraj s h0 ++ attachPts ts sts i)) h2 :=
        fun h2 hh2 => validH_setTraj h0 _ (hval h2 (List.mem_cons_of_mem h0 hh2))
      obtain ⟨j, hj⟩ := integrateWrite_get_mem (List.nodup_cons.mp hnd).2 hval2 hmem2
      refine ⟨j, ?_⟩
      rw [integrateWrite, hj, getTraj_setTraj_ne hne]

/-- Characterization of `integrate`: every listed trajectory is extended by
points whose instants are exactly `stepTimes t0 tmax exact` (with `t0` the
last time of the head trajectory), every other trajectory is untouched. -/
theorem integrate_get_mem {p : Params} {exact : Bool} {tmax : ℚ}
    {hs : List Handle} {s : Plugin} {h : Handle} (hnd : hs.Nodup)
    (hval : ∀ h2 ∈ hs, ValidH s h2) (hmem : h ∈ hs) :
    ∃ pts, pts.map Prod.fst =
        stepTimes (lastTime (getTraj s (hs.headD Handle.com))) tmax exact ∧
      getTraj (integrate p exact tmax hs s) h = getTraj s h ++ pts := by
  match hs, hmem with
  | h0 :: rest, hmem =>
    obtain ⟨j, hj⟩ := @integrateWrite_get_mem
      (stepTimes (lastTime (getTraj s h0)) tmax exact)
      (evolveAll p.flow (lastTime (getTraj s h0))
        ((h0 :: rest).map (fun h2 => lastDof (getTraj s h2)))
        (stepTimes (lastTime (getTraj s h0)) tmax exact))
      h (h0 :: rest) s 0 hnd hval hmem
    refine ⟨_, ?_, hj⟩
    apply attachPts_fst
    rw [evolveAll_length]

theorem integrate_get_notMem {p : Params} {exact : Bool} {tmax : ℚ}
    {hs : List Handle} {s : Plugin} {h : Handle} (hmem : h ∉ hs) :
    getTraj (integrate p exact tmax hs s) h = getTraj s h := by
  match hs with
  | [] => rfl
  | h0 :: rest => exact integrateWrite_get_notMem hmem

theorem integrate_congr {α : Type} {p : Params} {exact : Bool} {tmax : ℚ}
    {hs : List Handle} {s : Plugin} (F : Plugin → α)
    (hF : ∀ s h tr, F (setTraj s h tr) = F s) :
    F (integrate p exact tmax hs s) = F s := by
  match hs with
  | [] => rfl
  | h0 :: rest => exact integrateWrite_congr F hF

/-! ### Plugin operations (plugin.cpp)

`CHECK`/`CHECK_GT`/… failures are fatal assertions; an operation that hits
one returns `none` and the state is unrecoverable (spec §7). -/

/-- The public constructor (plugin.cpp:314): an initializing plugin holding
only the sun at an arbitrary position, with `current_time = initial_time`. -/
def newPlugin (initialTime : ℚ) (sunIdx : Index) (sunμ : ℚ) (rot : ℚ) : Plugin :=
  { vessels := []
    celestials := [(sunIdx, ⟨sunμ, none, [(initialTime, dof0)], [(initialTime, dof0)]⟩)]
    unsync := []
    dirty := []
    kept := []
    bubble := ⟨none, none⟩
    initializing := true
    planetariumRotation := rot
    currentTime := initialTime
    sunIndex := sunIdx }

/-- `Plugin::InsertCelestial` (plugin.cpp:335). -/
def insertCelestial (p : Params) (idx : Index) (μ : ℚ) (parentIdx : Index)
    (fromParent : Dof) (s : Plugin) : Option Plugin :=
  if !s.initializing then none
  else
    match alookup parentIdx s.celestials with
    | none => none
    | some parentC =>
      if idx ∈ s.celestials.map Prod.fst then none
      else
        let rel := aliceToBary (planetariumRot p s) fromParent
        let dof := lastDof parentC.history + rel
        let c : Celestial := ⟨μ, some parentIdx, [(s.currentTime, dof)], [(s.currentTime, dof)]⟩
        some { s with celestials := insKey idx c s.celestials }

/-- `Plugin::EndInitialization` (plugin.cpp:363). -/
def endInitialization (s : Plugin) : Plugin := { s with initializing := false }

/-- `Plugin::UpdateCelestialHierarchy` (plugin.cpp:367). -/
def updateCelestialHierarchy (idx parentIdx : Index) (s : Plugin) : Option Plugin :=
  if s.initializing then none
  else
    match alookup idx s.celestials, alookup parentIdx s.celestials with
    | some _, some _ =>
        let cs := aupdate idx (fun c => { c with parent := some parentIdx }) s.celestials
        some { s with celestials := cs }
    | _, _ => none

/-- `Plugin::InsertOrKeepVessel` (plugin.cpp:379): emplaces the vessel if
absent, marks it kept, (re)sets its parent, and returns whether it was
newly inserted. -/
def insertOrKeepVessel (g : GUID) (parentIdx : Index) (s : Plugin) :
    Option (Plugin × Bool) :=
  if s.initializing then none
  else
    match alookup parentIdx s.celestials with
    | none => none
    | some _ =>
      match alookup g s.vessels with
      | some _ =>
          some ({ s with
                  vessels := aupdate g (fun v => { v with parent := parentIdx }) s.vessels,
                  kept := insSet g s.kept }, false)
      | none =>
          some ({ s with
                  vessels := insKey g ⟨parentIdx, .uninit⟩ s.vessels,
                  kept := insSet g s.kept }, true)

/-- `Plugin::SetVesselStateOffset` (plugin.cpp:399): creates the vessel's
prolongation at `current_time` from the parent's prolongation plus the
converted offset, and records the vessel as unsynchronized. -/
def setVesselStateOffset (p : Params) (g : GUID) (fromParent : Dof) (s : Plugin) :
    Option Plugin :=
  if s.initializing then none
  else
    match alookup g s.vessels with
    | none => none
    | some v =>
      if v.state.isInitialized then none
      else
        match alookup v.parent s.celestials with
        | none => none
        | some parentC =>
          if g ∈ s.unsync then none
          else
            let rel := aliceToBary (planetariumRot p s) fromParent
            some { s with
              vessels := aupdate g
                  (fun v0 => { v0 with
                    state := .unsync [(s.currentTime, lastDof parentC.prolong + rel)] })
                  s.vessels
              unsync := insSet g s.unsync }

/-- `Plugin::AddVesselToNextPhysicsBubble` (plugin.cpp:620): marks the
vessel dirty and adds it with its parts to the bubble's `next` snapshot
(whose construction is `PhysicsBubble::AddVesselToNext`, modelled from the
spec; the vessel must not already be in `next`). -/
def addVesselToNextPhysicsBubble (g : GUID) (parts : List Part) (s : Plugin) :
    Option Plugin :=
  match alookup g s.vessels with
  | none => none
  | some _ =>
    let nx := s.bubble.next.getD []
    if g ∈ nx.map Prod.fst then none
    else
      some { s with
        dirty := insSet g s.dirty
        bubble := { s.bubble with next := some (nx ++ [(g, parts)]) } }

/-- `Plugin::CheckVesselInvariants` (plugin.cpp:106) as a boolean: the
vessel is initialized, its prolongation does not lag `HistoryTime()`, it
is in `unsynchronized_vessels_` exactly when it has no history, and a
synchronized vessel's history ends exactly at `HistoryTime()`. -/
def checkVesselB (s : Plugin) (gv : GUID × Vessel) : Bool :=
  gv.2.state.isInitialized &&
  decide (historyTime s ≤ lastTime gv.2.state.prolong) &&
  (if gv.1 ∈ s.unsync then !gv.2.state.isSync
   else gv.2.state.isSync && decide (lastTime gv.2.state.history = historyTime s))

/-- `Plugin::CleanUpVessels` (plugin.cpp:124): check the vessel invariants,
remove every vessel not in `kept_vessels_` (purging it from the
unsynchronized and dirty sets), and erase the kept vessels from
`kept_vessels_`. -/
def cleanUpVessels (s : Plugin) : Option Plugin :=
  if s.vessels.all (checkVesselB s) then
    let keys := s.vessels.map Prod.fst
    some { s with
      vessels := s.vessels.filter (fun gv => decide (gv.1 ∈ s.kept))
      unsync := s.unsync.filter (fun g => decide (¬(g ∈ keys ∧ g ∉ s.kept)))
      dirty := s.dirty.filter (fun g => decide (¬(g ∈ keys ∧ g ∉ s.kept)))
      kept := s.kept.filter (fun g => decide (g ∉ keys)) }
  else none

/-- `PhysicsBubble::Prepare` (modelled from the spec, §4.5 step 2): swap
`next` into `current`; when `next` is present, build the centre-of-mass
trajectory with its aggregate point at `current_time` and the per-vessel
`from_centre_of_mass` offsets, through the uninterpreted `comInit` and
`partOffset`. -/
def bubblePrepare (p : Params) (t : ℚ) (s : Plugin) : Plugin :=
  match s.bubble.next with
  | none => { s with bubble := ⟨none, none⟩ }
  | some nx =>
    { s with bubble :=
        ⟨some ⟨[(s.currentTime, p.comInit s.planetariumRotation s.currentTime t nx)],
               nx.map (fun gp =>
                 (gp.1, p.partOffset s.planetariumRotation s.currentTime t nx gp.1))⟩,
         none⟩ }

/-- `Plugin::EvolveHistories` (plugin.cpp:150): constant-step integration
of every celestial's history and of every synchronized, non-bubble,
non-dirty vessel's history, not overshooting `t`. -/
def evolveHistories (p : Params) (t : ℚ) (s : Plugin) : Plugin :=
  let eligible := s.vessels.filter
    (fun gv => gv.2.state.isSync && !bubbleContains s gv.1 && !decide (gv.1 ∈ s.dirty))
  let hs := s.celestials.map (fun ic => Handle.celHist ic.1) ++
            eligible.map (fun gv => Handle.vesHist gv.1)
  integrate p false t hs s

/-- One vessel of `Plugin::SynchronizeBubbleHistories` (plugin.cpp:235):
append `centre_of_mass + from_centre_of_mass` to the history of a
synchronized bubble vessel, or create the history of an unsynchronized one
(erasing it from `unsynchronized_vessels_`); either way erase it from
`dirty_vessels_` (both erasures are `CHECK`ed). -/
def syncBubbleOne (hT : ℚ) (comDof : Dof) (s : Plugin) (gp : GUID × Dof) :
    Option Plugin :=
  match alookup gp.1 s.vessels with
  | none => none
  | some v =>
    match v.state with
    | .sync h pr =>
        if gp.1 ∈ s.dirty then
          some { s with
            vessels := aupdate gp.1
                (fun v0 => { v0 with state := .sync (h ++ [(hT, comDof + gp.2)]) pr })
                s.vessels
            dirty := s.dirty.erase gp.1 }
        else none
    | _ =>
        if gp.1 ∈ s.unsync then
          if gp.1 ∈ s.dirty then
            some { s with
              vessels := aupdate gp.1
                  (fun v0 => { v0 with
                    state := .sync [(hT, comDof + gp.2)] [(hT, comDof + gp.2)] })
                  s.vessels
              unsync := s.unsync.erase gp.1
              dirty := s.dirty.erase gp.1 }
          else none
        else none

/-- Fold of `syncBubbleOne` over the bubble's vessels. -/
def syncBubbleFold (hT : ℚ) (comDof : Dof) :
    Plugin → List (GUID × Dof) → Option Plugin
  | s, [] => some s
  | s, gp :: rest =>
    match syncBubbleOne hT comDof s gp with
    | none => none
    | some s2 => syncBubbleFold hT comDof s2 rest

/-- `Plugin::SynchronizeBubbleHistories` (plugin.cpp:235). -/
def syncBubbleHistories (hT : ℚ) (s : Plugin) : Option Plugin :=
  match s.bubble.current with
  | none => none
  | some st => syncBubbleFold hT (lastDof st.comTraj) s st.vessels

/-- One vessel of the unsynchronized loop (plugin.cpp:216): `CHECK` it is
not in the bubble, create its history from its prolongation's last point
and fork the prolongation there, and erase it from `dirty_vessels_`. -/
def syncUnsyncOne (hT : ℚ) (s : Plugin) (g : GUID) : Option Plugin :=
  if bubbleContains s g then none
  else
    match alookup g s.vessels with
    | none => none
    | some v =>
      let d := lastDof v.state.prolong
      some { s with
        vessels := aupdate g (fun v0 => { v0 with state := .sync [(hT, d)] [(hT, d)] })
            s.vessels
        dirty := s.dirty.erase g }

/-- Fold of `syncUnsyncOne` over `unsynchronized_vessels_`. -/
def syncUnsyncFold (hT : ℚ) : Plugin → List GUID → Option Plugin
  | s, [] => some s
  | s, g :: rest =>
    match syncUnsyncOne hT s g with
    | none => none
    | some s2 => syncUnsyncFold hT s2 rest

/-- One vessel of the dirty loop (plugin.cpp:224): `CHECK` it is not in
the bubble and append its prolongation's last point to its history (which
must exist). -/
def cleanDirtyOne (hT : ℚ) (s : Plugin) (g : GUID) : Option Plugin :=
  if bubbleContains s g then none
  else
    match alookup g s.vessels with
    | none => none
    | some v =>
      match v.state with
      | .sync h pr =>
          some { s with
            vessels := aupdate g
                (fun v0 => { v0 with state := .sync (h ++ [(hT, lastDof pr)]) pr })
                s.vessels }
      | _ => none

/-- Fold of `cleanDirtyOne` over `dirty_vessels_`. -/
def cleanDirtyFold (hT : ℚ) : Plugin → List GUID → Option Plugin
  | s, [] => some s
  | s, g :: rest =>
    match cleanDirtyOne hT s g with
    | none => none
    | some s2 => cleanDirtyFold hT s2 rest

/-- `Plugin::SynchronizeNewVesselsAndCleanDirtyVessels` (plugin.cpp:183):
integrate the celestials' prolongations, the non-bubble unsynchronized and
dirty-synchronized vessels' prolongations, and (if the bubble is nonempty)
its centre-of-mass trajectory exactly to `HistoryTime()`; then synchronize
the bubble histories, the remaining unsynchronized vessels, and the
remaining dirty vessels, clearing both sets. -/
def synchronizeNewVesselsAndCleanDirtyVessels (p : Params) (s : Plugin) :
    Option Plugin :=
  let hT := historyTime s
  let hs := s.celestials.map (fun ic => Handle.celProl ic.1) ++
            (s.unsync.filter (fun g => !bubbleContains s g)).map Handle.vesProl ++
            (s.dirty.filter (fun g => !bubbleContains s g && isSyncAt s g)).map
              Handle.vesProl ++
            (if bubbleEmpty s then [] else [Handle.com])
  let s1 := integrate p true hT hs s
  let afterBubble : Option Plugin :=
    if bubbleEmpty s1 then some s1 else syncBubbleHistories hT s1
  match afterBubble with
  | none => none
  | some s2 =>
    match syncUnsyncFold hT s2 s2.unsync with
    | none => none
    | some s3 =>
      let s4 := { s3 with unsync := [] }
      match cleanDirtyFold hT s4 s4.dirty with
      | none => none
      | some s5 => some { s5 with dirty := [] }

/-- `Plugin::ResetProlongations` (plugin.cpp:256): every vessel's and
celestial's prolongation is deleted and re-forked at `HistoryTime()` (the
end of its history). -/
def resetProlongations (s : Plugin) : Plugin :=
  { s with
    vessels := s.vessels.map (fun gv => (gv.1, { gv.2 with state := gv.2.state.reset }))
    celestials := s.celestials.map (fun ic => (ic.1, { ic.2 with prolong := ic.2.history })) }

/-- One bubble vessel of `Plugin::EvolveProlongationsAndBubble`
(plugin.cpp:297): append `centre_of_mass + from_centre_of_mass` at `t` to
the vessel's prolongation. -/
def bubbleAppendOne (t : ℚ) (comDof : Dof) (s : Plugin) (gp : GUID × Dof) :
    Option Plugin :=
  match alookup gp.1 s.vessels with
  | none => none
  | some _ =>
    some { s with
      vessels := aupdate gp.1
          (fun v0 => { v0 with
            state := v0.state.setProlong (v0.state.prolong ++ [(t, comDof + gp.2)]) })
          s.vessels }

/-- Fold of `bubbleAppendOne` over the bubble's vessels. -/
def bubbleAppendFold (t : ℚ) (comDof : Dof) :
    Plugin → List (GUID × Dof) → Option Plugin
  | s, [] => some s
  | s, gp :: rest =>
    match bubbleAppendOne t comDof s gp with
    | none => none
    | some s2 => bubbleAppendFold t comDof s2 rest

/-- `Plugin::EvolveProlongationsAndBubble` (plugin.cpp:269): integrate the
celestials' prolongations, the non-bubble vessels' prolongations, and (if
the bubble is nonempty) its centre-of-mass trajectory exactly to `t`; then
append the centre-of-mass offset point at `t` to each bubble vessel's
prolongation. -/
def evolveProlongationsAndBubble (p : Params) (t : ℚ) (s : Plugin) : Option Plugin :=
  let hs := s.celestials.map (fun ic => Handle.celProl ic.1) ++
            (s.vessels.filter (fun gv => !bubbleContains s gv.1)).map
              (fun gv => Handle.vesProl gv.1) ++
            (if bubbleEmpty s then [] else [Handle.com])
  let s1 := integrate p true t hs s
  match s1.bubble.current with
  | none => some s1
  | some st => bubbleAppendFold t (lastDof st.comTraj) s1 st.vessels

/-- `Plugin::AdvanceTime` (plugin.cpp:422). -/
def advanceTime (p : Params) (t : ℚ) (rot : ℚ) (s : Plugin) : Option Plugin :=
  if s.initializing then none
  else if s.currentTime < t then
    match cleanUpVessels s with
    | none => none
    | some s1 =>
      let s2 := bubblePrepare p t s1
      let afterHist : Option Plugin :=
        if historyTime s2 + Δt < t then
          let s3 := evolveHistories p t s2
          let s4 : Option Plugin :=
            if s3.unsync ≠ [] ∨ s3.dirty ≠ [] ∨ bubbleEmpty s3 = false then
              synchronizeNewVesselsAndCleanDirtyVessels p s3
            else some s3
          match s4 with
          | none => none
          | some s5 => some (resetProlongations s5)
        else some s2
      match afterHist with
      | none => none
      | some s6 =>
        match evolveProlongationsAndBubble p t s6 with
        | none => none
        | some s7 => some { s7 with currentTime := t, planetariumRotation := rot }
  else none

/-- `Plugin::VesselFromParent` (plugin.cpp:449). -/
def vesselFromParent (p : Params) (g : GUID) (s : Plugin) : Option Dof :=
  if s.initializing then none
  else
    match alookup g s.vessels with
    | none => none
    | some v =>
      if v.state.isInitialized then
        match alookup v.parent s.celestials with
        | none => none
        | some c =>
          some (baryToAlice (planetariumRot p s)
            (lastDof v.state.prolong - lastDof c.prolong))
      else none

/-- `Plugin::CelestialFromParent` (plugin.cpp:467). -/
def celestialFromParent (p : Params) (idx : Index) (s : Plugin) : Option Dof :=
  if s.initializing then none
  else
    match alookup idx s.celestials with
    | none => none
    | some c =>
      match c.parent with
      | none => none
      | some parentIdx =>
        match alookup parentIdx s.celestials with
        | none => none
        | some pc =>
          some (baryToAlice (planetariumRot p s)
            (lastDof c.prolong - lastDof pc.prolong))

/-- `Plugin::RenderedVesselTrajectory` (plugin.cpp:486).  The `Transforms`
pair is passed as the two per-sample maps `f1` (first transform) and `f2`
(second transform), the twice-transformed history is materialized, and
each consecutive pair of apparent points becomes a `LineSegment` through
the affine map grounding the sun's barycentric position at
`sun_world_position` with rotation
`Rotation<WorldSun, World>::Identity() * PlanetariumRotation()`. -/
def renderedVesselTrajectory (p : Params) (f1 f2 : ℚ → Dof → Dof)
    (sunWorldPos : Vec3) (g : GUID) (s : Plugin) : Option (List (Vec3 × Vec3)) :=
  if s.initializing then none
  else
    match alookup s.sunIndex s.celestials with
    | none => none
    | some sun =>
      match alookup g s.vessels with
      | none => none
      | some v =>
        if v.state.isInitialized then
          match v.state with
          | .sync hist _ =>
            let toWorld := fun (q : Vec3) =>
              sunWorldPos + (planetariumRot p s).apply (q - (lastDof sun.prolong).pos)
            let intermediate := hist.map (fun td => (td.1, f1 td.1 td.2))
            let apparent := intermediate.map (fun td => (td.1, f2 td.1 td.2))
            some (List.zipWith (fun a b => (toWorld (a : TimedDof).2.pos, toWorld b.2.pos))
              apparent apparent.tail)
          | _ => some []
        else none

/-! ### Serialization (plugin.cpp:653 and 705)

Component serialization (`Celestial::WriteToMessage`,
`Vessel::WriteToMessage`, `PhysicsBubble::WriteToMessage`) is modelled from
the spec: the snapshot captures the full celestial/vessel/bubble state; a
vessel must be initialized to be serialized.  `Plugin::WriteToMessage`
additionally records each vessel's parent index and dirty bit, the
planetarium rotation, the current time and the sun's index —
`kept_vessels_` and `unsynchronized_vessels_` are not serialized; the
deserialization constructor (plugin.cpp:46) recomputes
`unsynchronized_vessels_` from `is_synchronized` and leaves
`kept_vessels_` empty. -/

/-- One vessel entry of the serialized plugin. -/
structure VesselMsg where
  guid : GUID
  vessel : Vessel
  dirty : Bool
deriving DecidableEq, Repr

/-- The serialized plugin message. -/
structure PluginMsg where
  celestial : List (Index × Celestial)
  vessel : List VesselMsg
  bubble : Bubble
  planetariumRotation : ℚ
  currentTime : ℚ
  sunIndex : Index
deriving DecidableEq, Repr

/-- `Plugin::WriteToMessage` (plugin.cpp:653). -/
def writeToMessage (s : Plugin) : Option PluginMsg :=
  if s.initializing then none
  else if s.vessels.all (fun gv => gv.2.state.isInitialized) then
    some ⟨s.celestials,
          s.vessels.map (fun gv => ⟨gv.1, gv.2, decide (gv.1 ∈ s.dirty)⟩),
          s.bubble, s.planetariumRotation, s.currentTime, s.sunIndex⟩
  else none

/-- The vessel pass of `Plugin::ReadFromMessage`: each vessel's parent must
exist among the read celestials and its GUID must be fresh (`CHECK`ed). -/
def vesselsRead (cs : List (Index × Celestial)) :
    List VesselMsg → List (GUID × Vessel) → Option (List (GUID × Vessel))
  | [], acc => some acc
  | vm :: rest, acc =>
    if vm.vessel.parent ∈ cs.map Prod.fst then
      if vm.guid ∈ acc.map Prod.fst then none
      else vesselsRead cs rest (insKey vm.guid vm.vessel acc)
    else none

/-- The GUID resolution of `PhysicsBubble::ReadFromMessage`: every vessel
referenced by the bubble must exist (`CHECK`ed). -/
def bubbleGuidsOk (b : Bubble) (vs : List (GUID × Vessel)) : Bool :=
  (match b.current with
   | some st => st.vessels.all (fun gp => decide (gp.1 ∈ vs.map Prod.fst))
   | none => true) &&
  (match b.next with
   | some nx => nx.all (fun gp => decide (gp.1 ∈ vs.map Prod.fst))
   | none => true)

/-- `Plugin::ReadFromMessage` (plugin.cpp:705), ending in the
deserialization constructor (plugin.cpp:46). -/
def readFromMessage (m : PluginMsg) : Option Plugin :=
  let cs := m.celestial.foldl
    (fun acc ic => if ic.1 ∈ acc.map Prod.fst then acc else insKey ic.1 ic.2 acc) []
  if m.celestial.all (fun ic =>
      match ic.2.parent with
      | some parentIdx => decide (parentIdx ∈ cs.map Prod.fst)
      | none => true) then
    match vesselsRead cs m.vessel [] with
    | none => none
    | some vs =>
      if bubbleGuidsOk m.bubble vs then
        match alookup m.sunIndex cs with
        | none => none
        | some _ =>
          some { vessels := vs
                 celestials := cs
                 unsync := (vs.filter (fun gv => !gv.2.state.isSync)).map Prod.fst
                 dirty := (m.vessel.filter (fun vm => vm.dirty)).map (fun vm => vm.guid)
                 kept := []
                 bubble := m.bubble
                 initializing := false
                 planetariumRotation := m.planetariumRotation
                 currentTime := m.currentTime
                 sunIndex := m.sunIndex }
      else none
  else none

/-! ### The plugin invariant

`Inv` collects the well-formedness facts that hold of every plugin state
between two public calls; spec §4.5 "Invariants always held between
calls" is the `vesProl`/`unsyncMem`/`unsyncComplete`/`vesHist` part. -/

theorem alookup_some_mem_keys {K : Type} [LinearOrder K] {V : Type} {k : K}
    {v : V} {l : List (K × V)} (h : alookup k l = some v) :
    k ∈ l.map Prod.fst := by
  have := alookup_mem h
  exact List.mem_map_of_mem Prod.fst this

theorem mem_aupdate {K : Type} [LinearOrder K] {V : Type} {k : K} {f : V → V} :
    ∀ {l : List (K × V)} {q : K × V}, q ∈ aupdate k f l →
      q ∈ l ∨ ∃ q0, q0 ∈ l ∧ q0.1 = k ∧ q = (q0.1, f q0.2)
  | p :: t, q, hq => by
    rw [aupdate_cons] at hq
    rcases List.mem_cons.mp hq with rfl | hq2
    · by_cases hp : p.1 = k
      · right
        exact ⟨p, List.mem_cons_self p t, hp, by rw [if_pos hp]⟩
      · left
        rw [if_neg hp]
        exact List.mem_cons_self p t
    · rcases mem_aupdate hq2 with h1 | ⟨q0, hq0, hk, he⟩
      · exact Or.inl (List.mem_cons_of_mem p h1)
      · exact Or.inr ⟨q0, List.mem_cons_of_mem p hq0, hk, he⟩

theorem mem_insKey_elim {K : Type} [LinearOrder K] {V : Type} {k : K} {v : V}
    {l : List (K × V)} {q : K × V} (hq : q ∈ insKey k v l) :
    q = (k, v) ∨ q ∈ l := mem_insKey.mp hq

/-- The plugin invariant (see spec §4.5). -/
structure Inv (s : Plugin) : Prop where
  vKeys : SortedKeys (s.vessels.map Prod.fst)
  cKeys : SortedKeys (s.celestials.map Prod.fst)
  uKeys : SortedKeys s.unsync
  dKeys : SortedKeys s.dirty
  kKeys : SortedKeys s.kept
  sunMem : s.sunIndex ∈ s.celestials.map Prod.fst
  celH : ∀ ic ∈ s.celestials, ic.2.history ≠ [] ∧ lastTime ic.2.history = historyTime s
  celP : ∀ ic ∈ s.celestials, ic.2.prolong ≠ [] ∧ lastTime ic.2.prolong = s.currentTime
  vesP : ∀ gv ∈ s.vessels, gv.2.state.isInitialized = true →
    gv.2.state.prolong ≠ [] ∧ lastTime gv.2.state.prolong = s.currentTime
  vesH : ∀ gv ∈ s.vessels, gv.2.state.isSync = true →
    gv.2.state.history ≠ [] ∧ lastTime gv.2.state.history = historyTime s
  unsyncMem : ∀ g ∈ s.unsync, ∃ v, alookup g s.vessels = some v ∧
    v.state.isInitialized = true ∧ v.state.isSync = false
  unsyncComplete : ∀ gv ∈ s.vessels, gv.2.state.isInitialized = true →
    gv.2.state.isSync = false → gv.1 ∈ s.unsync
  dirtySub : ∀ g ∈ s.dirty, g ∈ s.vessels.map Prod.fst
  keptSub : ∀ g ∈ s.kept, g ∈ s.vessels.map Prod.fst
  timeLB : historyTime s ≤ s.currentTime
  timeUB : s.currentTime ≤ historyTime s + Δt
  initState : s.initializing = true →
    s.vessels = [] ∧ s.currentTime = historyTime s ∧ s.bubble = ⟨none, none⟩
  nextInv : ∀ nx, s.bubble.next = some nx →
    (nx.map Prod.fst).Nodup ∧ ∀ g ∈ nx.map Prod.fst, g ∈ s.dirty
  curInv : ∀ st, s.bubble.current = some st →
    ∀ g ∈ st.vessels.map Prod.fst, g ∈ s.vessels.map Prod.fst

theorem inv_newPlugin (t0 : ℚ) (sunIdx : Index) (μ : ℚ) (rot : ℚ) :
    Inv (newPlugin t0 sunIdx μ rot) := by
  have hHT : historyTime (newPlugin t0 sunIdx μ rot) = t0 := by
    simp [newPlugin, historyTime, sunHistory, alookup, lastTime]
  refine ⟨?_, ?_, ?_, ?_, ?_, ?_, ?_, ?_, ?_, ?_, ?_, ?_, ?_, ?_, ?_, ?_, ?_, ?_, ?_⟩
  · simp [newPlugin, SortedKeys]
  · simp [newPlugin, SortedKeys]
  · simp [newPlugin, SortedKeys]
  · simp [newPlugin, SortedKeys]
  · simp [newPlugin, SortedKeys]
  · simp [newPlugin, alookup]
  · intro ic hic
    simp only [newPlugin, List.mem_singleton] at hic
    subst hic
    simp [hHT, lastTime]
  · intro ic hic
    simp only [newPlugin, List.mem_singleton] at hic
    subst hic
    simp [newPlugin, lastTime]
  · intro gv hgv
    simp [newPlugin] at hgv
  · intro gv hgv
    simp [newPlugin] at hgv
  · intro g hg
    simp [newPlugin] at hg
  · intro gv hgv
    simp [newPlugin] at hgv
  · intro g hg
    simp [newPlugin] at hg
  · intro g hg
    simp [newPlugin] at hg
  · rw [hHT]
    simp [newPlugin]
  · rw [hHT]
    simp only [newPlugin]
    linarith [Δt_pos]
  · intro _
    refine ⟨rfl, ?_, rfl⟩
    rw [hHT]
    rfl
  · intro nx hnx
    simp [newPlugin] at hnx
  · intro st hst
    simp [newPlugin] at hst

theorem historyTime_insKey {s : Plugin} {idx : Index} {c : Celestial}
    (hne : s.sunIndex ≠ idx) :
    historyTime { s with celestials := insKey idx c s.celestials } = historyTime s := by
  simp [historyTime, sunHistory, alookup_insKey_ne hne]

theorem inv_insKey_celestial {s : Plugin} (hinv : Inv s)
    (hini : s.initializing = true) {idx : Index} {c : Celestial} {dc : Dof}
    (hidx : idx ∉ s.celestials.map Prod.fst)
    (hch : c.history = [(s.currentTime, dc)])
    (hcp : c.prolong = [(s.currentTime, dc)]) :
    Inv { s with celestials := insKey idx c s.celestials } := by
  obtain ⟨hves, hct, hbub⟩ := hinv.initState hini
  have hsun : s.sunIndex ≠ idx := fun hc => hidx (hc ▸ hinv.sunMem)
  have hHT : historyTime { s with celestials := insKey idx c s.celestials }
      = historyTime s := historyTime_insKey hsun
  refine ⟨?_, ?_, ?_, ?_, ?_, ?_, ?_, ?_, ?_, ?_, ?_, ?_, ?_, ?_, ?_, ?_, ?_, ?_, ?_⟩
  · exact hinv.vKeys
  · exact sortedKeys_insKey hinv.cKeys hidx
  · exact hinv.uKeys
  · exact hinv.dKeys
  · exact hinv.kKeys
  · exact mem_keys_insKey.mpr (Or.inr hinv.sunMem)
  · intro ic hic
    rw [hHT]
    rcases mem_insKey_elim hic with rfl | hic2
    · rw [hch]
      constructor
      · simp
      · rw [lastTime_singleton, ← hct]
    · exact hinv.celH ic hic2
  · intro ic hic
    rcases mem_insKey_elim hic with rfl | hic2
    · rw [hcp]
      constructor
      · simp
      · rw [lastTime_singleton]
    · exact hinv.celP ic hic2
  · intro gv hgv
    have hgv2 : gv ∈ s.vessels := hgv
    rw [hves] at hgv2
    cases hgv2
  · intro gv hgv
    have hgv2 : gv ∈ s.vessels := hgv
    rw [hves] at hgv2
    cases hgv2
  · intro g hg
    obtain ⟨v, hv, _⟩ := hinv.unsyncMem g hg
    rw [hves] at hv
    cases hv
  · intro gv hgv
    have hgv2 : gv ∈ s.vessels := hgv
    rw [hves] at hgv2
    cases hgv2
  · intro g hg
    have := hinv.dirtySub g hg
    rw [hves] at this
    simp at this
  · intro g hg
    have := hinv.keptSub g hg
    rw [hves] at this
    simp at this
  · rw [hHT]
    exact hinv.timeLB
  · rw [hHT]
    exact hinv.timeUB
  · intro _
    exact ⟨hves, by rw [hHT]; exact hct, hbub⟩
  · intro nx hnx
    have hnx2 : s.bubble.next = some nx := hnx
    rw [hbub] at hnx2
    cases hnx2
  · intro st hst
    have hst2 : s.bubble.current = some st := hst
    rw [hbub] at hst2
    cases hst2

theorem inv_insertCelestial {p : Params} {idx : Index} {μ : ℚ}
    {parentIdx : Index} {d : Dof} {s s2 : Plugin} (hinv : Inv s)
    (h : insertCelestial p idx μ parentIdx d s = some s2) : Inv s2 := by
  unfold insertCelestial at h
  by_cases hini : s.initializing = true
  · rw [if_neg (by simp [hini])] at h
    split at h
    · cases h
    · split at h
      · cases h
      · rename_i parentC hp hidx
        injection h with h
        subst h
        exact inv_insKey_celestial hinv hini hidx rfl rfl
  · have hb : s.initializing = false := by
      cases hx : s.initializing
      · rfl
      · exact absurd hx hini
    rw [if_pos (by rw [hb]; rfl)] at h
    cases h

theorem inv_endInitialization {s : Plugin} (hinv : Inv s) :
    Inv (endInitialization s) := by
  have hHT : historyTime (endInitialization s) = historyTime s := rfl
  refine ⟨hinv.vKeys, hinv.cKeys, hinv.uKeys, hinv.dKeys, hinv.kKeys, hinv.sunMem,
          ?_, hinv.celP, hinv.vesP, ?_, hinv.unsyncMem, hinv.unsyncComplete,
          hinv.dirtySub, hinv.keptSub, ?_, ?_, ?_, hinv.nextInv, hinv.curInv⟩
  · intro ic hic
    rw [hHT]
    exact hinv.celH ic hic
  · intro gv hgv hs
    rw [hHT]
    exact hinv.vesH gv hgv hs
  · rw [hHT]
    exact hinv.timeLB
  · rw [hHT]
    exact hinv.timeUB
  · intro hc
    cases hc

theorem historyTime_aupdate {s : Plugin} {idx : Index} {f : Celestial → Celestial}
    (hf : ∀ c, (f c).history = c.history) :
    historyTime { s with celestials := aupdate idx f s.celestials } = historyTime s := by
  unfold historyTime sunHistory
  by_cases hsi : s.sunIndex = idx
  · rw [show ({ s with celestials := aupdate idx f s.celestials } : Plugin).sunIndex
        = s.sunIndex from rfl]
    rw [show ({ s with celestials := aupdate idx f s.celestials } : Plugin).celestials
        = aupdate idx f s.celestials from rfl]
    rw [hsi, alookup_aupdate_self]
    rcases alookup idx s.celestials with _ | c
    · rfl
    · simp [hf]
  · rw [show ({ s with celestials := aupdate idx f s.celestials } : Plugin).celestials
        = aupdate idx f s.celestials from rfl]
    rw [alookup_aupdate_ne hsi]

theorem inv_updateCelestialHierarchy {idx parentIdx : Index} {s s2 : Plugin}
    (hinv : Inv s) (h : updateCelestialHierarchy idx parentIdx s = some s2) :
    Inv s2 := by
  unfold updateCelestialHierarchy at h
  by_cases hini : s.initializing = true
  · rw [if_pos hini] at h
    cases h
  · rw [if_neg hini] at h
    split at h
    · injection h with h
      subst h
      have hf : ∀ c : Celestial,
          ({ c with parent := some parentIdx } : Celestial).history = c.history :=
        fun c => rfl
      have hHT := @historyTime_aupdate s idx
        (fun c => { c with parent := some parentIdx }) hf
      refine ⟨hinv.vKeys, ?_, hinv.uKeys, hinv.dKeys, hinv.kKeys, ?_, ?_, ?_,
              hinv.vesP, ?_, hinv.unsyncMem, hinv.unsyncComplete, hinv.dirtySub,
              hinv.keptSub, ?_, ?_, ?_, hinv.nextInv, hinv.curInv⟩
      · rw [show ({ s with celestials := aupdate idx _ s.celestials } : Plugin).celestials
            = aupdate idx (fun c => { c with parent := some parentIdx }) s.celestials
            from rfl, keys_aupdate]
        exact hinv.cKeys
      · rw [show ({ s with celestials := aupdate idx _ s.celestials } : Plugin).celestials
            = aupdate idx (fun c => { c with parent := some parentIdx }) s.celestials
            from rfl, keys_aupdate]
        exact hinv.sunMem
      · intro ic hic
        rw [hHT]
        rcases mem_aupdate hic with h1 | ⟨q0, hq0, _, he⟩
        · exact hinv.celH ic h1
        · rw [he]
          exact hinv.celH q0 hq0
      · intro ic hic
        rcases mem_aupdate hic with h1 | ⟨q0, hq0, _, he⟩
        · exact hinv.celP ic h1
        · rw [he]
          exact hinv.celP q0 hq0
      · intro gv hgv hs
        rw [hHT]
        exact hinv.vesH gv hgv hs
      · rw [hHT]
        exact hinv.timeLB
      · rw [hHT]
        exact hinv.timeUB
      · intro hc
        exact absurd hc hini
    · cases h

theorem inv_insertOrKeepVessel {g : GUID} {parentIdx : Index} {s s2 : Plugin}
    {b : Bool} (hinv : Inv s)
    (h : insertOrKeepVessel g parentIdx s = some (s2, b)) : Inv s2 := by
  unfold insertOrKeepVessel at h
  by_cases hini : s.initializing = true
  · rw [if_pos hini] at h
    cases h
  · rw [if_neg hini] at h
    split at h
    · cases h
    · split at h
      · rename_i v hv
        injection h with h
        injection h with h hb
        subst h
        have hgk : g ∈ s.vessels.map Prod.fst := alookup_some_mem_keys hv
        refine ⟨?_, hinv.cKeys, hinv.uKeys, hinv.dKeys, ?_, hinv.sunMem,
                hinv.celH, hinv.celP, ?_, ?_, ?_, ?_, ?_, ?_, hinv.timeLB,
                hinv.timeUB, ?_, hinv.nextInv, ?_⟩
        · simpa only [keys_aupdate] using hinv.vKeys
        · exact sortedKeys_insSet hinv.kKeys
        · intro gv hgv
          rcases mem_aupdate hgv with h1 | ⟨q0, hq0, _, he⟩
          · exact hinv.vesP gv h1
          · rw [he]
            exact hinv.vesP q0 hq0
        · intro gv hgv
          rcases mem_aupdate hgv with h1 | ⟨q0, hq0, _, he⟩
          · exact hinv.vesH gv h1
          · rw [he]
            exact hinv.vesH q0 hq0
        · intro g2 hg2
          obtain ⟨v2, hv2, hi2, hs2⟩ := hinv.unsyncMem g2 hg2
          by_cases hgg : g2 = g
          · subst hgg
            refine ⟨{ v2 with parent := parentIdx }, ?_, hi2, hs2⟩
            show alookup g2 (aupdate g2 (fun v => { v with parent := parentIdx })
              s.vessels) = _
            rw [alookup_aupdate_self, hv2]
            rfl
          · refine ⟨v2, ?_, hi2, hs2⟩
            show alookup g2 (aupdate g (fun v => { v with parent := parentIdx })
              s.vessels) = _
            rw [alookup_aupdate_ne hgg]
            exact hv2
        · intro gv hgv hvi hvs
          rcases mem_aupdate hgv with h1 | ⟨q0, hq0, hk, he⟩
          · exact hinv.unsyncComplete gv h1 hvi hvs
          · rw [he] at hvi hvs ⊢
            exact hinv.unsyncComplete q0 hq0 hvi hvs
        · intro g2 hg2
          simpa only [keys_aupdate] using hinv.dirtySub g2 hg2
        · intro g2 hg2
          rcases mem_insSet.mp hg2 with rfl | hg3
          · simpa only [keys_aupdate] using hgk
          · simpa only [keys_aupdate] using hinv.keptSub g2 hg3
        · intro hc
          exact absurd hc hini
        · intro st hst g2 hg2
          simpa only [keys_aupdate] using hinv.curInv st hst g2 hg2
      · rename_i hv
        injection h with h
        injection h with h hb
        subst h
        have hgk : g ∉ s.vessels.map Prod.fst := by
          rcases hl : alookup g s.vessels with _ | v2
          · exact alookup_eq_none.mp hl
          · rw [hl] at hv
            cases hv
        refine ⟨?_, hinv.cKeys, hinv.uKeys, hinv.dKeys, ?_, hinv.sunMem,
                hinv.celH, hinv.celP, ?_, ?_, ?_, ?_, ?_, ?_, hinv.timeLB,
                hinv.timeUB, ?_, hinv.nextInv, ?_⟩
        · exact sortedKeys_insKey hinv.vKeys hgk
        · exact sortedKeys_insSet hinv.kKeys
        · intro gv hgv
          rcases mem_insKey_elim hgv with rfl | h1
          · intro hc
            cases hc
          · exact hinv.vesP gv h1
        · intro gv hgv
          rcases mem_insKey_elim hgv with rfl | h1
          · intro hc
            cases hc
          · exact hinv.vesH gv h1
        · intro g2 hg2
          obtain ⟨v2, hv2, hi2, hs2⟩ := hinv.unsyncMem g2 hg2
          have hgg : g2 ≠ g := by
            intro hc
            subst hc
            exact hgk (alookup_some_mem_keys hv2)
          refine ⟨v2, ?_, hi2, hs2⟩
          show alookup g2 (insKey g ⟨parentIdx, .uninit⟩ s.vessels) = _
          rw [alookup_insKey_ne hgg]
          exact hv2
        · intro gv hgv hvi hvs
          rcases mem_insKey_elim hgv with rfl | h1
          · cases hvi
          · exact hinv.unsyncComplete gv h1 hvi hvs
        · intro g2 hg2
          exact mem_keys_insKey.mpr (Or.inr (hinv.dirtySub g2 hg2))
        · intro g2 hg2
          rcases mem_insSet.mp hg2 with rfl | hg3
          · exact mem_keys_insKey.mpr (Or.inl rfl)
          · exact mem_keys_insKey.mpr (Or.inr (hinv.keptSub g2 hg3))
        · intro hc
          exact absurd hc hini
        · intro st hst g2 hg2
          exact mem_keys_insKey.mpr (Or.inr (hinv.curInv st hst g2 hg2))

theorem inv_setVesselStateOffset {p : Params} {g : GUID} {d : Dof} {s s2 : Plugin}
    (hinv : Inv s) (h : setVesselStateOffset p g d s = some s2) : Inv s2 := by
  unfold setVesselStateOffset at h
  by_cases hini : s.initializing = true
  · rw [if_pos hini] at h
    cases h
  · rw [if_neg hini] at h
    split at h
    · cases h
    · rename_i v hv
      split at h
      · cases h
      · rename_i hvinit
        split at h
        · cases h
        · split at h
          · cases h
          · rename_i parentC hpc hguns
            injection h with h
            subst h
            have hnewTime : lastTime [(s.currentTime,
                lastDof parentC.prolong + aliceToBary (planetariumRot p s) d)]
                = s.currentTime := lastTime_singleton _ _
            refine ⟨?_, hinv.cKeys, ?_, hinv.dKeys, hinv.kKeys, hinv.sunMem,
                    hinv.celH, hinv.celP, ?_, ?_, ?_, ?_, ?_, ?_, hinv.timeLB,
                    hinv.timeUB, ?_, hinv.nextInv, ?_⟩
            · simpa only [keys_aupdate] using hinv.vKeys
            · exact sortedKeys_insSet hinv.uKeys
            · intro gv hgv
              rcases mem_aupdate hgv with h1 | ⟨q0, hq0, _, he⟩
              · exact hinv.vesP gv h1
              · rw [he]
                intro _
                refine ⟨by simp [VState.prolong], ?_⟩
                show lastTime (VState.prolong (.unsync _)) = _
                rw [show VState.prolong (.unsync [(s.currentTime,
                    lastDof parentC.prolong + aliceToBary (planetariumRot p s) d)])
                  = [(s.currentTime,
                    lastDof parentC.prolong + aliceToBary (planetariumRot p s) d)]
                  from rfl]
                exact hnewTime
            · intro gv hgv hs2
              rcases mem_aupdate hgv with h1 | ⟨q0, hq0, _, he⟩
              · exact hinv.vesH gv h1 hs2
              · rw [he] at hs2
                cases hs2
            · intro g2 hg2
              rcases mem_insSet.mp hg2 with rfl | hg3
              · refine ⟨{ v with state := .unsync [(s.currentTime,
                    lastDof parentC.prolong + aliceToBary (planetariumRot p s) d)] },
                  ?_, rfl, rfl⟩
                show alookup g2 (aupdate g2 _ s.vessels) = _
                rw [alookup_aupdate_self, hv]
                rfl
              · have hgg : g2 ≠ g := by
                  intro hc
                  subst hc
                  exact hguns hg3
                obtain ⟨v2, hv2, hi2, hs2⟩ := hinv.unsyncMem g2 hg3
                refine ⟨v2, ?_, hi2, hs2⟩
                show alookup g2 (aupdate g _ s.vessels) = _
                rw [alookup_aupdate_ne hgg]
                exact hv2
            · intro gv hgv hvi hvs
              rcases mem_aupdate hgv with h1 | ⟨q0, hq0, hk, he⟩
              · exact mem_insSet.mpr (Or.inr (hinv.unsyncComplete gv h1 hvi hvs))
              · rw [he]
                exact mem_insSet.mpr (Or.inl hk)
            · intro g2 hg2
              simpa only [keys_aupdate] using hinv.dirtySub g2 hg2
            · intro g2 hg2
              simpa only [keys_aupdate] using hinv.keptSub g2 hg2
            · intro hc
              exact absurd hc hini
            · intro st hst g2 hg2
              simpa only [keys_aupdate] using hinv.curInv st hst g2 hg2

theorem inv_addVesselToNextPhysicsBubble {g : GUID} {parts : List Part}
    {s s2 : Plugin} (hinv : Inv s)
    (h : addVesselToNextPhysicsBubble g parts s = some s2) : Inv s2 := by
  unfold addVesselToNextPhysicsBubble at h
  split at h
  · cases h
  · rename_i v hv
    simp only [] at h
    split at h
    · cases h
    · rename_i hnew
      injection h with h
      subst h
      have hgk : g ∈ s.vessels.map Prod.fst := alookup_some_mem_keys hv
      have hnx0 : (((s.bubble.next.getD []).map Prod.fst).Nodup) ∧
          ∀ g2 ∈ (s.bubble.next.getD []).map Prod.fst, g2 ∈ s.dirty := by
        rcases hn : s.bubble.next with _ | nx
        · simp
        · simpa using hinv.nextInv nx hn
      refine ⟨hinv.vKeys, hinv.cKeys, hinv.uKeys, ?_, hinv.kKeys, hinv.sunMem,
              hinv.celH, hinv.celP, hinv.vesP, hinv.vesH, hinv.unsyncMem, ?_,
              ?_, hinv.keptSub, hinv.timeLB, hinv.timeUB, ?_, ?_, ?_⟩
      · exact sortedKeys_insSet hinv.dKeys
      · intro gv hgv hvi hvs
        exact hinv.unsyncComplete gv hgv hvi hvs
      · intro g2 hg2
        rcases mem_insSet.mp hg2 with rfl | hg3
        · exact hgk
        · exact hinv.dirtySub g2 hg3
      · intro hc
        obtain ⟨hves, _, _⟩ := hinv.initState hc
        rw [hves] at hv
        cases hv
      · intro nx hnx
        have hnx2 : some (s.bubble.next.getD [] ++ [(g, parts)]) = some nx := hnx
        injection hnx2 with hnx2
        subst hnx2
        constructor
        · rw [List.map_append]
          rw [List.nodup_append]
          refine ⟨hnx0.1, by simp, ?_⟩
          intro a ha hb
          have ha2 : a = g := by simpa using hb
          subst ha2
          exact hnew ha
        · intro g2 hg2
          rw [List.map_append] at hg2
          rcases List.mem_append.mp hg2 with hg3 | hg3
          · exact mem_insSet.mpr (Or.inr (hnx0.2 g2 hg3))
          · rcases List.mem_singleton.mp (by simpa using hg3) with rfl
            exact mem_insSet.mpr (Or.inl rfl)
      · intro st hst g2 hg2
        exact hinv.curInv st hst g2 hg2

/-! ### Characterization of the synchronization folds -/

/-- All plugin fields except `vessels`, `unsync` and `dirty` agree. -/
structure SameExceptVUD (s s2 : Plugin) : Prop where
  cel : s2.celestials = s.celestials
  kept : s2.kept = s.kept
  bubble : s2.bubble = s.bubble
  ini : s2.initializing = s.initializing
  rot : s2.planetariumRotation = s.planetariumRotation
  ct : s2.currentTime = s.currentTime
  sun : s2.sunIndex = s.sunIndex

theorem SameExceptVUD.refl (s : Plugin) : SameExceptVUD s s :=
  ⟨rfl, rfl, rfl, rfl, rfl, rfl, rfl⟩

theorem SameExceptVUD.trans {s1 s2 s3 : Plugin} (h1 : SameExceptVUD s1 s2)
    (h2 : SameExceptVUD s2 s3) : SameExceptVUD s1 s3 :=
  ⟨h2.cel.trans h1.cel, h2.kept.trans h1.kept, h2.bubble.trans h1.bubble,
   h2.ini.trans h1.ini, h2.rot.trans h1.rot, h2.ct.trans h1.ct,
   h2.sun.trans h1.sun⟩

theorem historyTime_sameExcept {s s2 : Plugin} (h : SameExceptVUD s s2) :
    historyTime s2 = historyTime s := by
  unfold historyTime sunHistory
  rw [h.sun, h.cel]

theorem sortedKeys_erase {l : List GUID} (h : SortedKeys l) (a : GUID) :
    SortedKeys (l.erase a) :=
  List.Pairwise.sublist (List.erase_sublist a l) h

theorem mem_erase_iff_of_sorted {l : List GUID} (h : SortedKeys l) {a b : GUID} :
    a ∈ l.erase b ↔ a ≠ b ∧ a ∈ l := List.Nodup.mem_erase_iff h.nodup

/-- What one step of `SynchronizeBubbleHistories` guarantees and preserves. -/
theorem syncBubbleOne_char {hT : ℚ} {comDof : Dof} {s s2 : Plugin}
    {gp : GUID × Dof} (h : syncBubbleOne hT comDof s gp = some s2)
    (hU : SortedKeys s.unsync) (hD : SortedKeys s.dirty)
    (hUM : ∀ g ∈ s.unsync, ∃ v, alookup g s.vessels = some v ∧
      v.state.isSync = false) :
    SameExceptVUD s s2 ∧
    s2.vessels.map Prod.fst = s.vessels.map Prod.fst ∧
    (∃ v2, alookup gp.1 s2.vessels = some v2 ∧ v2.state.isSync = true ∧
      v2.state.history ≠ [] ∧ lastTime v2.state.history = hT) ∧
    (∀ g2, g2 ≠ gp.1 → alookup g2 s2.vessels = alookup g2 s.vessels) ∧
    (∀ x, x ∈ s2.unsync ↔ x ∈ s.unsync ∧ x ≠ gp.1) ∧
    (∀ x, x ∈ s2.dirty ↔ x ∈ s.dirty ∧ x ≠ gp.1) ∧
    SortedKeys s2.unsync ∧ SortedKeys s2.dirty := by
  unfold syncBubbleOne at h
  split at h
  · cases h
  · rename_i v hv
    split at h
    · rename_i hhist hprol heq
      split at h
      · rename_i hdirty
        injection h with h
        subst h
        have hnotun : gp.1 ∉ s.unsync := by
          intro hmem
          obtain ⟨v2, hv2, hns⟩ := hUM gp.1 hmem
          rw [hv] at hv2
          injection hv2 with hv2
          subst hv2
          rw [heq] at hns
          cases hns
        refine ⟨⟨rfl, rfl, rfl, rfl, rfl, rfl, rfl⟩, by simp [keys_aupdate], ?_, ?_,
                ?_, ?_, hU, sortedKeys_erase hD _⟩
        · refine ⟨{ v with state := .sync (hhist ++ [(hT, comDof + gp.2)]) hprol },
                  ?_, rfl, by simp, ?_⟩
          · show alookup gp.1 (aupdate gp.1 _ s.vessels) = _
            rw [alookup_aupdate_self, hv]
            rfl
          · show lastTime (hhist ++ [(hT, comDof + gp.2)]) = hT
            rw [lastTime_append (by simp), lastTime_singleton]
        · intro g2 hg2
          show alookup g2 (aupdate gp.1 _ s.vessels) = _
          rw [alookup_aupdate_ne hg2]
        · intro x
          constructor
          · intro hx
            refine ⟨hx, ?_⟩
            rintro rfl
            exact hnotun hx
          · intro hx
            exact hx.1
        · intro x
          exact (mem_erase_iff_of_sorted hD).trans and_comm
      · cases h
    · rename_i hnotsync
      split at h
      · rename_i hunsync
        split at h
        · rename_i hdirty
          injection h with h
          subst h
          refine ⟨⟨rfl, rfl, rfl, rfl, rfl, rfl, rfl⟩, by simp [keys_aupdate], ?_, ?_,
                  ?_, ?_, sortedKeys_erase hU _, sortedKeys_erase hD _⟩
          · refine ⟨{ v with state := VState.sync [(hT, comDof + gp.2)] [(hT, comDof + gp.2)] }, ?_, rfl, by simp, ?_⟩
            · show alookup gp.1 (aupdate gp.1 _ s.vessels) = _
              rw [alookup_aupdate_self, hv]
              rfl
            · show lastTime [(hT, comDof + gp.2)] = hT
              exact lastTime_singleton _ _
          · intro g2 hg2
            show alookup g2 (aupdate gp.1 _ s.vessels) = _
            rw [alookup_aupdate_ne hg2]
          · intro x
            exact (mem_erase_iff_of_sorted hU).trans and_comm
          · intro x
            exact (mem_erase_iff_of_sorted hD).trans and_comm
        · cases h
      · cases h

/-- Characterization of `syncBubbleFold`. -/
theorem syncBubbleFold_char {hT : ℚ} {comDof : Dof} :
    ∀ {L : List (GUID × Dof)} {s s2 : Plugin},
      syncBubbleFold hT comDof s L = some s2 →
      SortedKeys s.unsync → SortedKeys s.dirty →
      (L.map Prod.fst).Nodup →
      (∀ g ∈ s.unsync, ∃ v, alookup g s.vessels = some v ∧
        v.state.isSync = false) →
      SameExceptVUD s s2 ∧
      s2.vessels.map Prod.fst = s.vessels.map Prod.fst ∧
      (∀ gp ∈ L, ∃ v2, alookup gp.1 s2.vessels = some v2 ∧
        v2.state.isSync = true ∧ v2.state.history ≠ [] ∧
        lastTime v2.state.history = hT) ∧
      (∀ g2, g2 ∉ L.map Prod.fst → alookup g2 s2.vessels = alookup g2 s.vessels) ∧
      (∀ x, x ∈ s2.unsync ↔ x ∈ s.unsync ∧ x ∉ L.map Prod.fst) ∧
      (∀ x, x ∈ s2.dirty ↔ x ∈ s.dirty ∧ x ∉ L.map Prod.fst) ∧
      SortedKeys s2.unsync ∧ SortedKeys s2.dirty
  | [], s, s2, h, hU, hD, _, _ => by
    injection h with h
    subst h
    exact ⟨SameExceptVUD.refl s, rfl, by simp, fun _ _ => rfl,
           by simp, by simp, hU, hD⟩
  | gp :: rest, s, s2, h, hU, hD, hnd, hUM => by
    unfold syncBubbleFold at h
    split at h
    · cases h
    · rename_i s1 hstep
      obtain ⟨hse1, hkeys1, ⟨v1, hv1, hv1s, hv1h, hv1t⟩, hother1, hun1, hdi1,
              hU1, hD1⟩ := syncBubbleOne_char hstep hU hD hUM
      have hUM1 : ∀ g ∈ s1.unsync, ∃ v, alookup g s1.vessels = some v ∧
          v.state.isSync = false := by
        intro g hg
        obtain ⟨hg2, hgne⟩ := (hun1 g).mp hg
        obtain ⟨v, hvv, hvs⟩ := hUM g hg2
        exact ⟨v, (hother1 g hgne).trans hvv, hvs⟩
      have hnd2 := (List.nodup_cons.mp hnd).2
      have hgprest : gp.1 ∉ rest.map Prod.fst := (List.nodup_cons.mp hnd).1
      obtain ⟨hse2, hkeys2, hmem2, hother2, hun2, hdi2, hU2, hD2⟩ :=
        syncBubbleFold_char h hU1 hD1 hnd2 hUM1
      refine ⟨hse1.trans hse2, hkeys2.trans hkeys1, ?_, ?_, ?_, ?_, hU2, hD2⟩
      · intro gp2 hgp2
        rcases List.mem_cons.mp hgp2 with rfl | hgp3
        · exact ⟨v1, (hother2 gp2.1 hgprest).trans hv1, hv1s, hv1h, hv1t⟩
        · exact hmem2 gp2 hgp3
      · intro g2 hg2
        have hg2a : g2 ∉ rest.map Prod.fst := fun hc =>
          hg2 (by simp [List.mem_cons, hc])
        have hg2b : g2 ≠ gp.1 := fun hc => hg2 (by simp [hc])
        exact (hother2 g2 hg2a).trans (hother1 g2 hg2b)
      · intro x
        rw [hun2 x, hun1 x]
        simp only [List.map_cons, List.mem_cons]
        tauto
      · intro x
        rw [hdi2 x, hdi1 x]
        simp only [List.map_cons, List.mem_cons]
        tauto

/-- What one step of the unsynchronized-vessel loop guarantees. -/
theorem syncUnsyncOne_char {hT : ℚ} {s s2 : Plugin} {g : GUID}
    (h : syncUnsyncOne hT s g = some s2) (hD : SortedKeys s.dirty) :
    SameExceptVUD s s2 ∧
    s2.vessels.map Prod.fst = s.vessels.map Prod.fst ∧
    (∃ v2, alookup g s2.vessels = some v2 ∧ v2.state.isSync = true ∧
      v2.state.history ≠ [] ∧ lastTime v2.state.history = hT ∧
      v2.state.prolong ≠ [] ∧ lastTime v2.state.prolong = hT) ∧
    (∀ g2, g2 ≠ g → alookup g2 s2.vessels = alookup g2 s.vessels) ∧
    s2.unsync = s.unsync ∧
    (∀ x, x ∈ s2.dirty ↔ x ∈ s.dirty ∧ x ≠ g) ∧
    SortedKeys s2.dirty := by
  unfold syncUnsyncOne at h
  split at h
  · cases h
  · split at h
    · cases h
    · rename_i v hv
      injection h with h
      subst h
      refine ⟨⟨rfl, rfl, rfl, rfl, rfl, rfl, rfl⟩, by simp [keys_aupdate], ?_, ?_,
              rfl, ?_, sortedKeys_erase hD _⟩
      · refine ⟨{ v with state := VState.sync [(hT, lastDof v.state.prolong)] [(hT, lastDof v.state.prolong)] }, ?_, rfl, by simp, ?_, by simp, ?_⟩
        · show alookup g (aupdate g _ s.vessels) = _
          rw [alookup_aupdate_self, hv]
          rfl
        · show lastTime [(hT, lastDof v.state.prolong)] = hT
          exact lastTime_singleton _ _
        · show lastTime [(hT, lastDof v.state.prolong)] = hT
          exact lastTime_singleton _ _
      · intro g2 hg2
        show alookup g2 (aupdate g _ s.vessels) = _
        rw [alookup_aupdate_ne hg2]
      · intro x
        exact (mem_erase_iff_of_sorted hD).trans and_comm

/-- Characterization of `syncUnsyncFold`. -/
theorem syncUnsyncFold_char {hT : ℚ} :
    ∀ {L : List GUID} {s s2 : Plugin},
      syncUnsyncFold hT s L = some s2 → SortedKeys s.dirty → L.Nodup →
      SameExceptVUD s s2 ∧
      s2.vessels.map Prod.fst = s.vessels.map Prod.fst ∧
      (∀ g ∈ L, ∃ v2, alookup g s2.vessels = some v2 ∧
        v2.state.isSync = true ∧ v2.state.history ≠ [] ∧
        lastTime v2.state.history = hT ∧ v2.state.prolong ≠ [] ∧
        lastTime v2.state.prolong = hT) ∧
      (∀ g2, g2 ∉ L → alookup g2 s2.vessels = alookup g2 s.vessels) ∧
      s2.unsync = s.unsync ∧
      (∀ x, x ∈ s2.dirty ↔ x ∈ s.dirty ∧ x ∉ L) ∧
      SortedKeys s2.dirty
  | [], s, s2, h, hD, _ => by
    injection h with h
    subst h
    exact ⟨SameExceptVUD.refl s, rfl, by simp, fun _ _ => rfl, rfl, by simp, hD⟩
  | g :: rest, s, s2, h, hD, hnd => by
    unfold syncUnsyncFold at h
    split at h
    · cases h
    · rename_i s1 hstep
      obtain ⟨hse1, hkeys1, ⟨v1, hv1, hv1s, hv1h, hv1t, hv1p, hv1pt⟩, hother1,
              hun1, hdi1, hD1⟩ := syncUnsyncOne_char hstep hD
      have hgrest : g ∉ rest := (List.nodup_cons.mp hnd).1
      obtain ⟨hse2, hkeys2, hmem2, hother2, hun2, hdi2, hD2⟩ :=
        syncUnsyncFold_char h hD1 (List.nodup_cons.mp hnd).2
      refine ⟨hse1.trans hse2, hkeys2.trans hkeys1, ?_, ?_, hun2.trans hun1, ?_, hD2⟩
      · intro g2 hg2
        rcases List.mem_cons.mp hg2 with rfl | hg3
        · exact ⟨v1, (hother2 g2 hgrest).trans hv1, hv1s, hv1h, hv1t, hv1p, hv1pt⟩
        · exact hmem2 g2 hg3
      · intro g2 hg2
        have hg2a : g2 ∉ rest := fun hc => hg2 (List.mem_cons_of_mem g hc)
        have hg2b : g2 ≠ g := fun hc => hg2 (hc ▸ List.mem_cons_self g rest)
        exact (hother2 g2 hg2a).trans (hother1 g2 hg2b)
      · intro x
        rw [hdi2 x, hdi1 x]
        simp only [List.mem_cons]
        tauto

/-- What one step of the dirty-vessel loop guarantees. -/
theorem cleanDirtyOne_char {hT : ℚ} {s s2 : Plugin} {g : GUID}
    (h : cleanDirtyOne hT s g = some s2) :
    SameExceptVUD s s2 ∧
    s2.vessels.map Prod.fst = s.vessels.map Prod.fst ∧
    (∃ v2, alookup g s2.vessels = some v2 ∧ v2.state.isSync = true ∧
      v2.state.history ≠ [] ∧ lastTime v2.state.history = hT) ∧
    (∀ g2, g2 ≠ g → alookup g2 s2.vessels = alookup g2 s.vessels) ∧
    s2.unsync = s.unsync ∧ s2.dirty = s.dirty := by
  unfold cleanDirtyOne at h
  split at h
  · cases h
  · split at h
    · cases h
    · rename_i v hv
      split at h
      · rename_i hhist hprol heq
        injection h with h
        subst h
        refine ⟨⟨rfl, rfl, rfl, rfl, rfl, rfl, rfl⟩, by simp [keys_aupdate], ?_, ?_,
                rfl, rfl⟩
        · refine ⟨{ v with state := .sync (hhist ++ [(hT, lastDof hprol)]) hprol },
                  ?_, rfl, by simp, ?_⟩
          · show alookup g (aupdate g _ s.vessels) = _
            rw [alookup_aupdate_self, hv]
            rfl
          · show lastTime (hhist ++ [(hT, lastDof hprol)]) = hT
            rw [lastTime_append (by simp), lastTime_singleton]
        · intro g2 hg2
          show alookup g2 (aupdate g _ s.vessels) = _
          rw [alookup_aupdate_ne hg2]
      · cases h

/-- Characterization of `cleanDirtyFold`. -/
theorem cleanDirtyFold_char {hT : ℚ} :
    ∀ {L : List GUID} {s s2 : Plugin},
      cleanDirtyFold hT s L = some s2 → L.Nodup →
      SameExceptVUD s s2 ∧
      s2.vessels.map Prod.fst = s.vessels.map Prod.fst ∧
      (∀ g ∈ L, ∃ v2, alookup g s2.vessels = some v2 ∧
        v2.state.isSync = true ∧ v2.state.history ≠ [] ∧
        lastTime v2.state.history = hT) ∧
      (∀ g2, g2 ∉ L → alookup g2 s2.vessels = alookup g2 s.vessels) ∧
      s2.unsync = s.unsync ∧ s2.dirty = s.dirty
  | [], s, s2, h, _ => by
    injection h with h
    subst h
    exact ⟨SameExceptVUD.refl s, rfl, by simp, fun _ _ => rfl, rfl, rfl⟩
  | g :: rest, s, s2, h, hnd => by
    unfold cleanDirtyFold at h
    split at h
    · cases h
    · rename_i s1 hstep
      obtain ⟨hse1, hkeys1, ⟨v1, hv1, hv1s, hv1h, hv1t⟩, hother1, hun1, hdi1⟩ :=
        cleanDirtyOne_char hstep
      have hgrest : g ∉ rest := (List.nodup_cons.mp hnd).1
      obtain ⟨hse2, hkeys2, hmem2, hother2, hun2, hdi2⟩ :=
        cleanDirtyFold_char h (List.nodup_cons.mp hnd).2
      refine ⟨hse1.trans hse2, hkeys2.trans hkeys1, ?_, ?_, hun2.trans hun1,
              hdi2.trans hdi1⟩
      · intro g2 hg2
        rcases List.mem_cons.mp hg2 with rfl | hg3
        · exact ⟨v1, (hother2 g2 hgrest).trans hv1, hv1s, hv1h, hv1t⟩
        · exact hmem2 g2 hg3
      · intro g2 hg2
        have hg2a : g2 ∉ rest := fun hc => hg2 (List.mem_cons_of_mem g hc)
        have hg2b : g2 ≠ g := fun hc => hg2 (hc ▸ List.mem_cons_self g rest)
        exact (hother2 g2 hg2a).trans (hother1 g2 hg2b)

/-- What one bubble-vessel prolongation append guarantees. -/
theorem bubbleAppendOne_char {t : ℚ} {comDof : Dof} {s s2 : Plugin}
    {gp : GUID × Dof} (h : bubbleAppendOne t comDof s gp = some s2) :
    SameExceptVUD s s2 ∧
    s2.vessels.map Prod.fst = s.vessels.map Prod.fst ∧
    gp.1 ∈ s.vessels.map Prod.fst ∧
    (∀ v, alookup gp.1 s.vessels = some v → v.state.isInitialized = true →
      ∃ v2, alookup gp.1 s2.vessels = some v2 ∧
        v2.state.isSync = v.state.isSync ∧
        v2.state.isInitialized = true ∧
        v2.state.history = v.state.history ∧
        v2.state.prolong ≠ [] ∧ lastTime v2.state.prolong = t) ∧
    (∀ g2, g2 ≠ gp.1 → alookup g2 s2.vessels = alookup g2 s.vessels) ∧
    s2.unsync = s.unsync ∧ s2.dirty = s.dirty := by
  unfold bubbleAppendOne at h
  split at h
  · cases h
  · rename_i v0 hv0
    injection h with h
    subst h
    refine ⟨⟨rfl, rfl, rfl, rfl, rfl, rfl, rfl⟩, by simp [keys_aupdate],
            alookup_some_mem_keys hv0, ?_, ?_, rfl, rfl⟩
    · intro v hv hvinit
      rw [hv0] at hv
      injection hv with hv
      subst hv
      refine ⟨{ v0 with state := v0.state.setProlong (v0.state.prolong ++ [(t, comDof + gp.2)]) }, ?_, by simp, by simp [hvinit], by simp, ?_, ?_⟩
      · show alookup gp.1 (aupdate gp.1 _ s.vessels) = _
        rw [alookup_aupdate_self, hv0]
        rfl
      · show (v0.state.setProlong (v0.state.prolong ++ [(t, comDof + gp.2)])).prolong ≠ []
        rw [prolong_setProlong _ hvinit]
        simp
      · show lastTime ((v0.state.setProlong
            (v0.state.prolong ++ [(t, comDof + gp.2)])).prolong) = t
        rw [prolong_setProlong _ hvinit, lastTime_append (by simp),
            lastTime_singleton]
    · intro g2 hg2
      show alookup g2 (aupdate gp.1 _ s.vessels) = _
      rw [alookup_aupdate_ne hg2]

/-- Characterization of `bubbleAppendFold`. -/
theorem bubbleAppendFold_char {t : ℚ} {comDof : Dof} :
    ∀ {L : List (GUID × Dof)} {s s2 : Plugin},
      bubbleAppendFold t comDof s L = some s2 → (L.map Prod.fst).Nodup →
      (∀ g v, alookup g s.vessels = some v → v.state.isInitialized = true) →
      SameExceptVUD s s2 ∧
      s2.vessels.map Prod.fst = s.vessels.map Prod.fst ∧
      (∀ gp ∈ L, gp.1 ∈ s.vessels.map Prod.fst ∧
        ∀ v, alookup gp.1 s.vessels = some v →
        ∃ v2, alookup gp.1 s2.vessels = some v2 ∧
          v2.state.isSync = v.state.isSync ∧
          v2.state.isInitialized = true ∧
          v2.state.history = v.state.history ∧
          v2.state.prolong ≠ [] ∧ lastTime v2.state.prolong = t) ∧
      (∀ g2, g2 ∉ L.map Prod.fst →
        alookup g2 s2.vessels = alookup g2 s.vessels) ∧
      s2.unsync = s.unsync ∧ s2.dirty = s.dirty
  | [], s, s2, h, _, _ => by
    injection h with h
    subst h
    exact ⟨SameExceptVUD.refl s, rfl, by simp, fun _ _ => rfl, rfl, rfl⟩
  | gp :: rest, s, s2, h, hnd, hall => by
    unfold bubbleAppendFold at h
    split at h
    · cases h
    · rename_i s1 hstep
      obtain ⟨hse1, hkeys1, hmem1, hupd1, hother1, hun1, hdi1⟩ :=
        bubbleAppendOne_char hstep
      have hgprest : gp.1 ∉ rest.map Prod.fst := (List.nodup_cons.mp hnd).1
      have hall1 : ∀ g v, alookup g s1.vessels = some v →
          v.state.isInitialized = true := by
        intro g v hg
        by_cases hgg : g = gp.1
        · rcases hv0 : alookup gp.1 s.vessels with _ | v0
          · exact absurd hmem1 (alookup_eq_none.mp hv0)
          · obtain ⟨v2, hv2, _, hv2i, _, _, _⟩ :=
              hupd1 v0 hv0 (hall gp.1 v0 hv0)
            rw [hgg, hv2] at hg
            injection hg with hg
            subst hg
            exact hv2i
        · rw [hother1 g hgg] at hg
          exact hall g v hg
      obtain ⟨hse2, hkeys2, hmem2, hother2, hun2, hdi2⟩ :=
        bubbleAppendFold_char h (List.nodup_cons.mp hnd).2 hall1
      refine ⟨hse1.trans hse2, hkeys2.trans hkeys1, ?_, ?_, hun2.trans hun1,
              hdi2.trans hdi1⟩
      · intro gp2 hgp2
        rcases List.mem_cons.mp hgp2 with rfl | hgp3
        · refine ⟨hmem1, ?_⟩
          intro v hv
          obtain ⟨v2, hv2, hs2, hi2, hh2, hp2, hpt2⟩ :=
            hupd1 v hv (hall gp2.1 v hv)
          exact ⟨v2, (hother2 gp2.1 hgprest).trans hv2, hs2, hi2, hh2, hp2, hpt2⟩
        · obtain ⟨hm, hupd⟩ := hmem2 gp2 hgp3
          have hne : gp2.1 ≠ gp.1 := fun hc =>
            hgprest (hc ▸ List.mem_map_of_mem Prod.fst hgp3)
          rw [hkeys1] at hm
          refine ⟨hm, ?_⟩
          intro v hv
          have hv1 : alookup gp2.1 s1.vessels = some v := by
            rw [hother1 gp2.1 hne]
            exact hv
          exact hupd v hv1
      · intro g2 hg2
        have hg2a : g2 ∉ rest.map Prod.fst := fun hc => hg2 (by simp [hc])
        have hg2b : g2 ≠ gp.1 := fun hc => hg2 (by simp [hc])
        exact (hother2 g2 hg2a).trans (hother1 g2 hg2b)

/-! ### Characterization of cleanup, bubble preparation and prolongation
reset -/

theorem alookup_mapVal {K : Type} [LinearOrder K] {V : Type} {f : V → V}
    {k : K} : ∀ {l : List (K × V)},
      alookup k (l.map (fun q => (q.1, f q.2))) = (alookup k l).map f
  | [] => rfl
  | p :: t => by
    by_cases hp : p.1 = k <;> simp [alookup, hp, alookup_mapVal]

theorem keys_mapVal {K : Type} [LinearOrder K] {V : Type} {f : K × V → V}
    {l : List (K × V)} :
    (l.map (fun q => (q.1, f q))).map Prod.fst = l.map Prod.fst := by
  rw [List.map_map]
  rfl

theorem keys_filter_keyPred {K : Type} [LinearOrder K] {V : Type}
    {P : K → Prop} [DecidablePred P] {l : List (K × V)} :
    (l.filter (fun gv => decide (P gv.1))).map Prod.fst =
      (l.map Prod.fst).filter (fun g => decide (P g)) := by
  induction l with
  | nil => rfl
  | cons p t ih =>
    by_cases hp : P p.1 <;> simp [hp, ih]

theorem alookup_filter_keyPred {K : Type} [LinearOrder K] {V : Type}
    {P : K → Prop} [DecidablePred P] {l : List (K × V)} {k : K} (hk : P k) :
    alookup k (l.filter (fun gv => decide (P gv.1))) = alookup k l := by
  induction l with
  | nil => rfl
  | cons p t ih =>
    by_cases hp : P p.1
    · rw [List.filter_cons_of_pos (by simp [hp])]
      by_cases hpk : p.1 = k <;> simp [alookup, hpk, ih]
    · rw [List.filter_cons_of_neg (by simp [hp])]
      have hpk : p.1 ≠ k := fun hc => hp (hc ▸ hk)
      rw [ih]
      simp [alookup, hpk]

@[simp] theorem reset_isSync (st : VState) : st.reset.isSync = st.isSync := by
  cases st <;> rfl

@[simp] theorem reset_isInit (st : VState) :
    st.reset.isInitialized = st.isInitialized := by cases st <;> rfl

@[simp] theorem reset_history (st : VState) : st.reset.history = st.history := by
  cases st <;> rfl

theorem reset_prolong_of_sync {st : VState} (h : st.isSync = true) :
    st.reset.prolong = st.history := by
  cases st <;> first | rfl | cases h

/-- `Plugin::CleanUpVessels` succeeds exactly when every vessel passes
`CheckVesselInvariants`, and then performs the removals described in the
spec. -/
theorem cleanUpVessels_char {s s2 : Plugin} (h : cleanUpVessels s = some s2) :
    (∀ gv ∈ s.vessels, checkVesselB s gv = true) ∧
    s2 = { s with
      vessels := s.vessels.filter (fun gv => decide (gv.1 ∈ s.kept)),
      unsync := s.unsync.filter
        (fun g => decide (¬(g ∈ s.vessels.map Prod.fst ∧ g ∉ s.kept))),
      dirty := s.dirty.filter
        (fun g => decide (¬(g ∈ s.vessels.map Prod.fst ∧ g ∉ s.kept))),
      kept := s.kept.filter (fun g => decide (g ∉ s.vessels.map Prod.fst)) } := by
  unfold cleanUpVessels at h
  split at h
  · rename_i hall
    injection h with h
    subst h
    refine ⟨?_, rfl⟩
    intro gv hgv
    rw [List.all_eq_true] at hall
    exact hall gv hgv
  · cases h

/-- `CleckVesselInvariants` holds under the plugin invariant for every
initialized vessel, so `CleanUpVessels` succeeds when all vessels have
been given an initial state. -/
theorem cleanUpVessels_some {s : Plugin} (hinv : Inv s)
    (hall : ∀ gv ∈ s.vessels, gv.2.state.isInitialized = true) :
    ∃ s2, cleanUpVessels s = some s2 := by
  unfold cleanUpVessels
  rw [if_pos]
  · exact ⟨_, rfl⟩
  · rw [List.all_eq_true]
    intro gv hgv
    unfold checkVesselB
    rw [hall gv hgv]
    have hlook : alookup gv.1 s.vessels = some gv.2 :=
      alookup_of_mem hinv.vKeys.nodup hgv
    by_cases hu : gv.1 ∈ s.unsync
    · obtain ⟨v2, hv2, _, hns⟩ := hinv.unsyncMem gv.1 hu
      rw [hlook] at hv2
      injection hv2 with hv2
      subst hv2
      have hp := hinv.vesP gv hgv (hall gv hgv)
      simp [hu, hns, hp.2, hinv.timeLB]
    · have hsync : gv.2.state.isSync = true := by
        by_cases hs : gv.2.state.isSync = true
        · exact hs
        · have := hinv.unsyncComplete gv hgv (hall gv hgv)
            (by cases hx : gv.2.state.isSync
                · rfl
                · exact absurd hx hs)
          exact absurd this hu
      have hp := hinv.vesP gv hgv (hall gv hgv)
      have hh := hinv.vesH gv hgv hsync
      simp [hu, hsync, hp.2, hh.2, hinv.timeLB]

/-- `PhysicsBubble::Prepare` swaps `next` into `current`: afterwards `next`
is cleared, and `current` (when built) has its centre-of-mass trajectory
grounded at `current_time` and one entry per `next` vessel. -/
theorem bubblePrepare_char (p : Params) (t : ℚ) (s : Plugin) :
    (bubblePrepare p t s).bubble.next = none ∧
    (s.bubble.next = none → (bubblePrepare p t s).bubble.current = none) ∧
    (∀ nx, s.bubble.next = some nx → ∃ st,
      (bubblePrepare p t s).bubble.current = some st ∧
      st.vessels.map Prod.fst = nx.map Prod.fst ∧
      st.comTraj ≠ [] ∧ lastTime st.comTraj = s.currentTime) ∧
    (bubblePrepare p t s).vessels = s.vessels ∧
    (bubblePrepare p t s).celestials = s.celestials ∧
    (bubblePrepare p t s).unsync = s.unsync ∧
    (bubblePrepare p t s).dirty = s.dirty ∧
    (bubblePrepare p t s).kept = s.kept ∧
    (bubblePrepare p t s).initializing = s.initializing ∧
    (bubblePrepare p t s).planetariumRotation = s.planetariumRotation ∧
    (bubblePrepare p t s).currentTime = s.currentTime ∧
    (bubblePrepare p t s).sunIndex = s.sunIndex := by
  unfold bubblePrepare
  rcases hn : s.bubble.next with _ | nx
  · refine ⟨?_, ?_, ?_, ?_, ?_, ?_, ?_, ?_, ?_, ?_, ?_, ?_⟩
    · rfl
    · intro _
      rfl
    · intro nx hnx
      exact Option.noConfusion hnx
    · rfl
    · rfl
    · rfl
    · rfl
    · rfl
    · rfl
    · rfl
    · rfl
    · rfl
  · refine ⟨?_, ?_, ?_, ?_, ?_, ?_, ?_, ?_, ?_, ?_, ?_, ?_⟩
    · rfl
    · intro hc
      exact Option.noConfusion hc
    · intro nx2 hnx2
      injection hnx2 with hnx2
      subst hnx2
      refine ⟨_, rfl, ?_, by simp, lastTime_singleton _ _⟩
      rw [List.map_map]
      rfl
    · rfl
    · rfl
    · rfl
    · rfl
    · rfl
    · rfl
    · rfl
    · rfl
    · rfl

theorem historyTime_bubblePrepare (p : Params) (t : ℚ) (s : Plugin) :
    historyTime (bubblePrepare p t s) = historyTime s := by
  unfold historyTime sunHistory
  obtain ⟨_, _, _, _, hcel, _, _, _, _, _, _, hsun⟩ := bubblePrepare_char p t s
  rw [hcel, hsun]

/-- `Plugin::ResetProlongations` re-forks every prolongation at the end of
its history and changes nothing else. -/
theorem resetProlongations_char (s : Plugin) :
    (resetProlongations s).vessels.map Prod.fst = s.vessels.map Prod.fst ∧
    (∀ g, alookup g (resetProlongations s).vessels =
      (alookup g s.vessels).map (fun v => { v with state := v.state.reset })) ∧
    (∀ i, alookup i (resetProlongations s).celestials =
      (alookup i s.celestials).map (fun c => { c with prolong := c.history })) ∧
    (resetProlongations s).celestials.map Prod.fst = s.celestials.map Prod.fst ∧
    (resetProlongations s).unsync = s.unsync ∧
    (resetProlongations s).dirty = s.dirty ∧
    (resetProlongations s).kept = s.kept ∧
    (resetProlongations s).bubble = s.bubble ∧
    (resetProlongations s).initializing = s.initializing ∧
    (resetProlongations s).planetariumRotation = s.planetariumRotation ∧
    (resetProlongations s).currentTime = s.currentTime ∧
    (resetProlongations s).sunIndex = s.sunIndex ∧
    historyTime (resetProlongations s) = historyTime s := by
  have hves : (resetProlongations s).vessels
      = s.vessels.map (fun gv => (gv.1, { gv.2 with state := gv.2.state.reset })) := rfl
  have hcel : (resetProlongations s).celestials
      = s.celestials.map (fun ic => (ic.1, { ic.2 with prolong := ic.2.history })) := rfl
  have hsun : alookup s.sunIndex (resetProlongations s).celestials
      = (alookup s.sunIndex s.celestials).map (fun c => { c with prolong := c.history }) := by
    rw [hcel]
    exact @alookup_mapVal Index _ Celestial (fun c => { c with prolong := c.history })
      s.sunIndex s.celestials
  refine ⟨by rw [hves]; exact keys_mapVal,
          fun g => by
            rw [hves]
            exact @alookup_mapVal GUID _ Vessel
              (fun v => { v with state := v.state.reset }) g s.vessels,
          fun i => by
            rw [hcel]
            exact @alookup_mapVal Index _ Celestial
              (fun c => { c with prolong := c.history }) i s.celestials,
          by rw [hcel]; exact keys_mapVal, rfl, rfl, rfl, rfl, rfl, rfl, rfl, rfl, ?_⟩
  unfold historyTime sunHistory
  rw [show (resetProlongations s).sunIndex = s.sunIndex from rfl, hsun]
  rcases alookup s.sunIndex s.celestials with _ | c <;> rfl

/-! ### Helpers for trajectory extension by integrator output -/

theorem lastTime_of_fst_getLast {l : List TimedDof} {a : ℚ}
    (h : (l.map Prod.fst).getLast? = some a) : l ≠ [] ∧ lastTime l = a := by
  rw [List.getLast?_map] at h
  rcases hq : l.getLast? with _ | q
  · rw [hq] at h
    cases h
  · rw [hq] at h
    injection h with h
    constructor
    · intro hc
      subst hc
      cases hq
    · unfold lastTime
      rw [hq, ← h]
      rfl

/-- Appending the instants of a non-exact integration that performs at
least one step lands the trajectory at `t0 + stepCount·Δt`. -/
theorem lastTime_extend_nonexact {tr pts : List TimedDof} {t0 tmax : ℚ}
    (hpts : pts.map Prod.fst = stepTimes t0 tmax false) (hlt : t0 + Δt < tmax) :
    tr ++ pts ≠ [] ∧
    lastTime (tr ++ pts) = t0 + (stepCount t0 tmax : ℚ) * Δt := by
  obtain ⟨hne, hlast⟩ := stepTimes_nonexact hlt
  obtain ⟨hpne, hplast⟩ := lastTime_of_fst_getLast (hpts ▸ hlast)
  exact ⟨by simp [hpne], (lastTime_append hpne).trans hplast⟩

/-- Appending the instants of an exact integration lands the trajectory at
`tmax` (also when no step was needed because it is already there). -/
theorem lastTime_extend_exact {tr pts : List TimedDof} {t0 tmax : ℚ}
    (htr : tr ≠ []) (hlast : lastTime tr = t0)
    (hpts : pts.map Prod.fst = stepTimes t0 tmax true) (hle : t0 ≤ tmax) :
    tr ++ pts ≠ [] ∧ lastTime (tr ++ pts) = tmax := by
  rcases eq_or_lt_of_le hle with heq | hlt
  · rw [(stepTimes_exact hle).1 heq] at hpts
    have hpe : pts = [] := by simpa using hpts
    subst hpe
    rw [List.append_nil]
    exact ⟨htr, hlast.trans heq⟩
  · obtain ⟨hne, hlastp⟩ := (stepTimes_exact hle).2 hlt
    obtain ⟨hpne, hplast⟩ := lastTime_of_fst_getLast (hpts ▸ hlastp)
    exact ⟨by simp [hpne], (lastTime_append hpne).trans hplast⟩

theorem setTraj_bubble_ne_com {s : Plugin} {h : Handle} (hne : h ≠ Handle.com)
    (tr : List TimedDof) : (setTraj s h tr).bubble = s.bubble := by
  cases h with
  | celHist i => rfl
  | celProl i => rfl
  | vesHist g => rfl
  | vesProl g => rfl
  | com => exact absurd rfl hne

theorem integrateWrite_bubble {ts : List ℚ} {sts : List (List Dof)} :
    ∀ {hs : List Handle} {s : Plugin} {i : ℕ}, Handle.com ∉ hs →
      (integrateWrite ts sts s hs i).bubble = s.bubble
  | [], _, _, _ => rfl
  | h0 :: rest, s, i, hmem => by
    rw [integrateWrite,
        integrateWrite_bubble (fun hc => hmem (List.mem_cons_of_mem _ hc)),
        setTraj_bubble_ne_com (fun hc => hmem (hc ▸ List.mem_cons_self _ _)) _]

theorem integrate_bubble {p : Params} {exact : Bool} {tmax : ℚ}
    {hs : List Handle} {s : Plugin} (hmem : Handle.com ∉ hs) :
    (integrate p exact tmax hs s).bubble = s.bubble := by
  match hs with
  | [] => rfl
  | h0 :: rest => exact integrateWrite_bubble hmem

/-! ### The post-cleanup state (plugin.cpp:124) -/

/-- Everything `AdvanceTime` relies on about the state `CleanUpVessels`
leaves behind, given the plugin invariant: the snapshot keeps only the
kept vessels (all of them initialized), clears `kept_vessels_`, purges the
removed vessels from the two scheduler sets, and touches nothing else. -/
theorem cleanUp_post {s s1 : Plugin} (hinv : Inv s)
    (h : cleanUpVessels s = some s1) :
    SortedKeys (s1.vessels.map Prod.fst) ∧
    s1.celestials = s.celestials ∧
    s1.bubble = s.bubble ∧
    s1.initializing = s.initializing ∧
    s1.planetariumRotation = s.planetariumRotation ∧
    s1.currentTime = s.currentTime ∧
    s1.sunIndex = s.sunIndex ∧
    historyTime s1 = historyTime s ∧
    s1.kept = [] ∧
    SortedKeys s1.unsync ∧ SortedKeys s1.dirty ∧
    (∀ gv ∈ s1.vessels, gv ∈ s.vessels) ∧
    (∀ gv ∈ s1.vessels, gv.2.state.isInitialized = true) ∧
    (∀ g ∈ s1.unsync, ∃ v, alookup g s1.vessels = some v ∧
      v.state.isInitialized = true ∧ v.state.isSync = false) ∧
    (∀ gv ∈ s1.vessels, gv.2.state.isSync = false → gv.1 ∈ s1.unsync) ∧
    (∀ g ∈ s1.dirty, g ∈ s1.vessels.map Prod.fst) := by
  obtain ⟨hchk, hs1⟩ := cleanUpVessels_char h
  have hvmem : ∀ gv, gv ∈ s1.vessels ↔ gv ∈ s.vessels ∧ gv.1 ∈ s.kept := by
    intro gv
    rw [hs1]
    simp only [List.mem_filter, decide_eq_true_eq]
  have humem : ∀ x, x ∈ s1.unsync ↔
      x ∈ s.unsync ∧ ¬(x ∈ s.vessels.map Prod.fst ∧ x ∉ s.kept) := by
    intro x
    rw [hs1]
    simp only [List.mem_filter, decide_eq_true_eq]
  have hdmem : ∀ x, x ∈ s1.dirty ↔
      x ∈ s.dirty ∧ ¬(x ∈ s.vessels.map Prod.fst ∧ x ∉ s.kept) := by
    intro x
    rw [hs1]
    simp only [List.mem_filter, decide_eq_true_eq]
  have hinit : ∀ gv ∈ s.vessels, gv.2.state.isInitialized = true := by
    intro gv hgv
    have hc := hchk gv hgv
    simp only [checkVesselB, Bool.and_eq_true] at hc
    exact hc.1.1
  have hves1 : s1.vessels = s.vessels.filter (fun gv => decide (gv.1 ∈ s.kept)) := by
    rw [hs1]
  have hkeys1 : s1.vessels.map Prod.fst =
      (s.vessels.map Prod.fst).filter (fun g => decide (g ∈ s.kept)) := by
    rw [hves1]
    exact keys_filter_keyPred
  have hcel1 : s1.celestials = s.celestials := by rw [hs1]
  have hsun1 : s1.sunIndex = s.sunIndex := by rw [hs1]
  have hht : historyTime s1 = historyTime s := by
    unfold historyTime sunHistory
    rw [hcel1, hsun1]
  refine ⟨?_, hcel1, by rw [hs1], by rw [hs1], by rw [hs1], by rw [hs1], hsun1,
          hht, ?_, ?_, ?_, ?_, ?_, ?_, ?_, ?_⟩
  · rw [hkeys1]
    exact List.Pairwise.sublist (List.filter_sublist _) hinv.vKeys
  · rw [hs1]
    simp only []
    rw [List.filter_eq_nil_iff]
    intro g hg
    simp [hinv.keptSub g hg]
  · rw [hs1]
    exact List.Pairwise.sublist (List.filter_sublist _) hinv.uKeys
  · rw [hs1]
    exact List.Pairwise.sublist (List.filter_sublist _) hinv.dKeys
  · intro gv hgv
    exact ((hvmem gv).mp hgv).1
  · intro gv hgv
    exact hinit gv ((hvmem gv).mp hgv).1
  · intro g hg
    obtain ⟨hgu, hgk⟩ := (humem g).mp hg
    obtain ⟨v, hv, hvi, hvs⟩ := hinv.unsyncMem g hgu
    have hmem : g ∈ s.vessels.map Prod.fst := alookup_some_mem_keys hv
    have hkept : g ∈ s.kept := by
      by_contra hnk
      exact hgk ⟨hmem, hnk⟩
    refine ⟨v, ?_, hvi, hvs⟩
    rw [hves1, alookup_filter_keyPred hkept]
    exact hv
  · intro gv hgv hns
    obtain ⟨hgv0, hgk⟩ := (hvmem gv).mp hgv
    have hgu : gv.1 ∈ s.unsync :=
      hinv.unsyncComplete gv hgv0 (hinit gv hgv0) hns
    rw [humem]
    exact ⟨hgu, fun hc => hc.2 hgk⟩
  · intro g hg
    obtain ⟨hgd, hgk⟩ := (hdmem g).mp hg
    have hmem : g ∈ s.vessels.map Prod.fst := hinv.dirtySub g hgd
    have hkept : g ∈ s.kept := by
      by_contra hnk
      exact hgk ⟨hmem, hnk⟩
    rw [hkeys1, List.mem_filter]
    simp [hmem, hkept]

/-! ### The history step of `AdvanceTime` (plugin.cpp:150) -/

/-- Characterization of `EvolveHistories` when at least one `Δt` step fits:
all histories (of celestials and of eligible vessels) are advanced in lock
step to the new `HistoryTime() = old + stepCount·Δt`; prolongations, the
bubble and scheduler sets are untouched. -/
theorem evolveHistories_post {p : Params} {t : ℚ} {s2 s3 : Plugin} {h1 : ℚ}
    (hs3 : s3 = evolveHistories p t s2)
    (hh1 : h1 = historyTime s2 + (stepCount (historyTime s2) t : ℚ) * Δt)
    (hcK : SortedKeys (s2.celestials.map Prod.fst))
    (hvK : SortedKeys (s2.vessels.map Prod.fst))
    (hsun : s2.sunIndex ∈ s2.celestials.map Prod.fst)
    (hcelH : ∀ ic ∈ s2.celestials, ic.2.history ≠ [] ∧
      lastTime ic.2.history = historyTime s2)
    (hlt : historyTime s2 + Δt < t) :
    s3.unsync = s2.unsync ∧ s3.dirty = s2.dirty ∧ s3.kept = s2.kept ∧
    s3.initializing = s2.initializing ∧
    s3.planetariumRotation = s2.planetariumRotation ∧
    s3.currentTime = s2.currentTime ∧ s3.sunIndex = s2.sunIndex ∧
    s3.bubble = s2.bubble ∧
    s3.vessels.map Prod.fst = s2.vessels.map Prod.fst ∧
    s3.celestials.map Prod.fst = s2.celestials.map Prod.fst ∧
    historyTime s3 = h1 ∧
    historyTime s2 < h1 ∧ h1 ≤ t ∧ t < h1 + Δt ∧
    (∀ i c, alookup i s2.celestials = some c → ∃ c',
      alookup i s3.celestials = some c' ∧ c'.prolong = c.prolong ∧
      c'.history ≠ [] ∧ lastTime c'.history = h1) ∧
    (∀ g v, alookup g s2.vessels = some v → ∃ v',
      alookup g s3.vessels = some v' ∧
      v'.state.isSync = v.state.isSync ∧
      v'.state.isInitialized = v.state.isInitialized ∧
      v'.state.prolong = v.state.prolong ∧
      (¬(v.state.isSync = true ∧ bubbleContains s2 g = false ∧ g ∉ s2.dirty) →
        v'.state.history = v.state.history) ∧
      ((v.state.isSync = true ∧ bubbleContains s2 g = false ∧ g ∉ s2.dirty) →
        v'.state.history ≠ [] ∧ lastTime v'.state.history = h1)) := by
  subst hs3 hh1
  have hEq : evolveHistories p t s2 =
      integrate p false t
        (s2.celestials.map (fun ic => Handle.celHist ic.1) ++
         (s2.vessels.filter (fun gv => gv.2.state.isSync &&
            !bubbleContains s2 gv.1 && !decide (gv.1 ∈ s2.dirty))).map
           (fun gv => Handle.vesHist gv.1)) s2 := rfl
  rw [hEq]
  set E := s2.vessels.filter (fun gv => gv.2.state.isSync &&
    !bubbleContains s2 gv.1 && !decide (gv.1 ∈ s2.dirty)) with hE
  set A := s2.celestials.map (fun ic => Handle.celHist ic.1) with hA
  set B := E.map (fun gv => Handle.vesHist gv.1) with hB
  have hndA : A.Nodup := by
    rw [hA, show (fun ic : Index × Celestial => Handle.celHist ic.1) =
        (Handle.celHist ∘ Prod.fst) from rfl, ← List.map_map]
    exact List.Nodup.map (fun a b hab => by injection hab) hcK.nodup
  have hndB : B.Nodup := by
    rw [hB, show (fun gv : GUID × Vessel => Handle.vesHist gv.1) =
        (Handle.vesHist ∘ Prod.fst) from rfl, ← List.map_map]
    refine List.Nodup.map (fun a b hab => by injection hab) ?_
    exact List.Nodup.sublist (List.Sublist.map Prod.fst (List.filter_sublist _))
      hvK.nodup
  have hnd : (A ++ B).Nodup := by
    rw [List.nodup_append]
    refine ⟨hndA, hndB, ?_⟩
    intro a ha hb
    rw [hA] at ha
    rw [hB] at hb
    rcases List.mem_map.mp ha with ⟨ic, _, rfl⟩
    rcases List.mem_map.mp hb with ⟨gv, _, heq⟩
    cases heq
  have hval : ∀ h ∈ A ++ B, ValidH s2 h := by
    intro h hh
    rcases List.mem_append.mp hh with hh | hh
    · rw [hA] at hh
      rcases List.mem_map.mp hh with ⟨ic, hic, rfl⟩
      show ic.1 ∈ s2.celestials.map Prod.fst
      exact List.mem_map_of_mem Prod.fst hic
    · rw [hB] at hh
      rcases List.mem_map.mp hh with ⟨gv, hgv, rfl⟩
      rw [hE] at hgv
      obtain ⟨hgv2, hpred⟩ := List.mem_filter.mp hgv
      simp only [Bool.and_eq_true] at hpred
      exact ⟨gv.2, alookup_of_mem hvK.nodup hgv2, hpred.1.1⟩
  have hmemB : ∀ g v, alookup g s2.vessels = some v →
      (Handle.vesHist g ∈ A ++ B ↔
        (v.state.isSync = true ∧ bubbleContains s2 g = false ∧ g ∉ s2.dirty)) := by
    intro g v hv
    constructor
    · intro hm
      rcases List.mem_append.mp hm with hm | hm
      · rw [hA] at hm
        rcases List.mem_map.mp hm with ⟨ic, _, heq⟩
        cases heq
      · rw [hB] at hm
        rcases List.mem_map.mp hm with ⟨gv, hgv, heq⟩
        injection heq with heq
        subst heq
        rw [hE] at hgv
        obtain ⟨hgv2, hpred⟩ := List.mem_filter.mp hgv
        rw [alookup_of_mem hvK.nodup hgv2] at hv
        injection hv with hv
        subst hv
        simp only [Bool.and_eq_true, Bool.not_eq_true',
          decide_eq_false_iff_not] at hpred
        exact ⟨hpred.1.1, hpred.1.2, hpred.2⟩
    · rintro ⟨hs, hb, hd⟩
      apply List.mem_append_right
      rw [hB]
      refine List.mem_map.mpr ⟨(g, v), ?_, rfl⟩
      rw [hE]
      refine List.mem_filter.mpr ⟨alookup_mem hv, ?_⟩
      simp [hs, hb, hd]
  have hheadT : lastTime (getTraj s2 ((A ++ B).headD Handle.com)) =
      historyTime s2 := by
    rcases hc : s2.celestials with _ | ⟨c0, cs⟩
    · rw [hc] at hsun
      cases hsun
    · have hc0mem : c0 ∈ s2.celestials := by
        rw [hc]
        exact List.mem_cons_self _ _
      have hA0 : A = Handle.celHist c0.1 ::
          cs.map (fun ic => Handle.celHist ic.1) := by
        rw [hA, hc, List.map_cons]
      rw [hA0]
      show lastTime (getTraj s2 (Handle.celHist c0.1)) = _
      have hl : alookup c0.1 s2.celestials = some c0.2 :=
        alookup_of_mem hcK.nodup hc0mem
      show lastTime (match alookup c0.1 s2.celestials with
        | some c => c.history
        | none => []) = _
      rw [hl]
      exact (hcelH c0 hc0mem).2
  have hget : ∀ h ∈ A ++ B, ∃ pts : List TimedDof,
      pts.map Prod.fst = stepTimes (historyTime s2) t false ∧
      getTraj (integrate p false t (A ++ B) s2) h = getTraj s2 h ++ pts := by
    intro h hh
    obtain ⟨pts, hfst, hgt⟩ := integrate_get_mem hnd hval hh
    rw [hheadT] at hfst
    exact ⟨pts, hfst, hgt⟩
  have hvkeys : (integrate p false t (A ++ B) s2).vessels.map Prod.fst =
      s2.vessels.map Prod.fst := integrate_congr (fun s => s.vessels.map Prod.fst) setTraj_vesselKeys
  have hckeys : (integrate p false t (A ++ B) s2).celestials.map Prod.fst =
      s2.celestials.map Prod.fst := integrate_congr (fun s => s.celestials.map Prod.fst) setTraj_celKeys
  have hcomNot : Handle.com ∉ A ++ B := by
    intro hm
    rcases List.mem_append.mp hm with hm | hm
    · rw [hA] at hm
      rcases List.mem_map.mp hm with ⟨ic, _, heq⟩
      cases heq
    · rw [hB] at hm
      rcases List.mem_map.mp hm with ⟨gv, _, heq⟩
      cases heq
  have hcelfact : ∀ i c, alookup i s2.celestials = some c → ∃ c',
      alookup i (integrate p false t (A ++ B) s2).celestials = some c' ∧
      c'.prolong = c.prolong ∧ c'.history ≠ [] ∧
      lastTime c'.history = historyTime s2 +
        (stepCount (historyTime s2) t : ℚ) * Δt := by
    intro i c hc
    have hmemA : Handle.celHist i ∈ A ++ B := by
      apply List.mem_append_left
      rw [hA]
      exact List.mem_map.mpr ⟨(i, c), alookup_mem hc, rfl⟩
    rcases hc' : alookup i (integrate p false t (A ++ B) s2).celestials
      with _ | c'
    · exfalso
      refine (alookup_eq_none.mp hc') ?_
      rw [hckeys]
      exact alookup_some_mem_keys hc
    · obtain ⟨pts, hfst, hgt⟩ := hget _ hmemA
      have hhist : c'.history = c.history ++ pts := by
        simp only [getTraj] at hgt
        rw [hc', hc] at hgt
        exact hgt
      have hpnot : Handle.celProl i ∉ A ++ B := by
        intro hm
        rcases List.mem_append.mp hm with hm | hm
        · rw [hA] at hm
          rcases List.mem_map.mp hm with ⟨ic, _, heq⟩
          cases heq
        · rw [hB] at hm
          rcases List.mem_map.mp hm with ⟨gv, _, heq⟩
          cases heq
      have hprol : c'.prolong = c.prolong := by
        have hp : getTraj (integrate p false t (A ++ B) s2) (Handle.celProl i) =
            getTraj s2 (Handle.celProl i) := integrate_get_notMem hpnot
        simp only [getTraj] at hp
        rw [hc', hc] at hp
        exact hp
      obtain ⟨hne, hlast⟩ :=
        @lastTime_extend_nonexact c.history pts (historyTime s2) t hfst hlt
      rw [← hhist] at hne hlast
      exact ⟨c', rfl, hprol, hne, hlast⟩
  have hvesfact : ∀ g v, alookup g s2.vessels = some v → ∃ v',
      alookup g (integrate p false t (A ++ B) s2).vessels = some v' ∧
      v'.state.isSync = v.state.isSync ∧
      v'.state.isInitialized = v.state.isInitialized ∧
      v'.state.prolong = v.state.prolong ∧
      (¬(v.state.isSync = true ∧ bubbleContains s2 g = false ∧ g ∉ s2.dirty) →
        v'.state.history = v.state.history) ∧
      ((v.state.isSync = true ∧ bubbleContains s2 g = false ∧ g ∉ s2.dirty) →
        v'.state.history ≠ [] ∧ lastTime v'.state.history =
          historyTime s2 + (stepCount (historyTime s2) t : ℚ) * Δt) := by
    intro g v hv
    rcases hv' : alookup g (integrate p false t (A ++ B) s2).vessels with _ | v'
    · exfalso
      refine (alookup_eq_none.mp hv') ?_
      rw [hvkeys]
      exact alookup_some_mem_keys hv
    · have hmeta : (v'.parent, v'.state.isSync, v'.state.isInitialized) =
          (v.parent, v.state.isSync, v.state.isInitialized) := by
        have hm : (alookup g (integrate p false t (A ++ B) s2).vessels).map
              (fun v => (v.parent, v.state.isSync, v.state.isInitialized)) =
            (alookup g s2.vessels).map
              (fun v => (v.parent, v.state.isSync, v.state.isInitialized)) :=
          integrate_congr (fun s => (alookup g s.vessels).map (fun v => (v.parent, v.state.isSync, v.state.isInitialized))) (fun s h tr => setTraj_vesselMeta s h tr g)
        rw [hv', hv] at hm
        simpa using hm
      have hsynceq : v'.state.isSync = v.state.isSync := by
        have := congrArg (fun q => q.2.1) hmeta
        simpa using this
      have hiniteq : v'.state.isInitialized = v.state.isInitialized := by
        have := congrArg (fun q => q.2.2) hmeta
        simpa using this
      have hpnot : Handle.vesProl g ∉ A ++ B := by
        intro hm
        rcases List.mem_append.mp hm with hm | hm
        · rw [hA] at hm
          rcases List.mem_map.mp hm with ⟨ic, _, heq⟩
          cases heq
        · rw [hB] at hm
          rcases List.mem_map.mp hm with ⟨gv, _, heq⟩
          cases heq
      have hprol : v'.state.prolong = v.state.prolong := by
        have hp : getTraj (integrate p false t (A ++ B) s2) (Handle.vesProl g) =
            getTraj s2 (Handle.vesProl g) := integrate_get_notMem hpnot
        simp only [getTraj] at hp
        rw [hv', hv] at hp
        exact hp
      by_cases hel : Handle.vesHist g ∈ A ++ B
      · obtain ⟨pts, hfst, hgt⟩ := hget _ hel
        have hhist : v'.state.history = v.state.history ++ pts := by
          simp only [getTraj] at hgt
          rw [hv', hv] at hgt
          exact hgt
        obtain ⟨hne, hlast⟩ :=
          @lastTime_extend_nonexact v.state.history pts (historyTime s2) t hfst hlt
        rw [← hhist] at hne hlast
        refine ⟨v', rfl, hsynceq, hiniteq, hprol, ?_, fun _ => ⟨hne, hlast⟩⟩
        intro hcon
        exact absurd ((hmemB g v hv).mp hel) hcon
      · have hhist : v'.state.history = v.state.history := by
          have hp : getTraj (integrate p false t (A ++ B) s2)
              (Handle.vesHist g) = getTraj s2 (Handle.vesHist g) :=
            integrate_get_notMem hel
          simp only [getTraj] at hp
          rw [hv', hv] at hp
          exact hp
        refine ⟨v', rfl, hsynceq, hiniteq, hprol, fun _ => hhist, ?_⟩
        intro helig
        exact absurd ((hmemB g v hv).mpr helig) hel
  have hsunpres : (integrate p false t (A ++ B) s2).sunIndex = s2.sunIndex :=
    integrate_congr Plugin.sunIndex setTraj_sunIndex
  have hht3 : historyTime (integrate p false t (A ++ B) s2) =
      historyTime s2 + (stepCount (historyTime s2) t : ℚ) * Δt := by
    rcases hcs : alookup s2.sunIndex s2.celestials with _ | csun
    · exact absurd hsun (alookup_eq_none.mp hcs)
    · obtain ⟨c', hc', _, _, hlast⟩ := hcelfact _ _ hcs
      unfold historyTime sunHistory
      rw [hsunpres, hc']
      exact hlast
  have hk1 : 1 ≤ stepCount (historyTime s2) t := stepCount_pos hlt
  have hk1q : (1 : ℚ) ≤ (stepCount (historyTime s2) t : ℚ) := by
    exact_mod_cast hk1
  refine ⟨integrate_congr Plugin.unsync setTraj_unsync, integrate_congr Plugin.dirty setTraj_dirty,
    integrate_congr Plugin.kept setTraj_kept, integrate_congr Plugin.initializing setTraj_initializing,
    integrate_congr Plugin.planetariumRotation setTraj_rotation, integrate_congr Plugin.currentTime setTraj_currentTime,
    hsunpres, integrate_bubble hcomNot, hvkeys, hckeys, hht3, ?_, ?_, ?_,
    hcelfact, hvesfact⟩
  · nlinarith [Δt_pos]
  · exact stepCount_cast_le (by nlinarith [Δt_pos])
  · have := @stepCount_cast_gt (historyTime s2) t
    linarith

theorem bubbleContains_of_empty {s : Plugin} (h : bubbleEmpty s = true)
    (g : GUID) : bubbleContains s g = false := by
  unfold bubbleEmpty at h
  unfold bubbleContains
  rcases hc : s.bubble.current with _ | st
  · rfl
  · rw [hc] at h
    cases h

/-- Characterization of `SynchronizeNewVesselsAndCleanDirtyVessels`
(plugin.cpp:183): it empties both scheduler sets and leaves every vessel
synchronized with its history ending at `HistoryTime()`; celestial
histories — and hence `HistoryTime()` itself — are untouched. -/
theorem synchronize_post {p : Params} {s3 s5 : Plugin}
    (h : synchronizeNewVesselsAndCleanDirtyVessels p s3 = some s5)
    (hvK : SortedKeys (s3.vessels.map Prod.fst))
    (hcK : SortedKeys (s3.celestials.map Prod.fst))
    (huK : SortedKeys s3.unsync) (hdK : SortedKeys s3.dirty)
    (hUM : ∀ g ∈ s3.unsync, ∃ v, alookup g s3.vessels = some v ∧
      v.state.isSync = false)
    (hUC : ∀ gv ∈ s3.vessels, gv.2.state.isSync = false → gv.1 ∈ s3.unsync)
    (hcurN : ∀ st, s3.bubble.current = some st → (st.vessels.map Prod.fst).Nodup)
    (hvesH3 : ∀ gv ∈ s3.vessels, gv.2.state.isSync = true →
      bubbleContains s3 gv.1 = false → gv.1 ∉ s3.dirty →
      gv.2.state.history ≠ [] ∧ lastTime gv.2.state.history = historyTime s3) :
    s5.unsync = [] ∧ s5.dirty = [] ∧
    s5.kept = s3.kept ∧ s5.initializing = s3.initializing ∧
    s5.planetariumRotation = s3.planetariumRotation ∧
    s5.currentTime = s3.currentTime ∧ s5.sunIndex = s3.sunIndex ∧
    s5.bubble.next = s3.bubble.next ∧
    (s5.bubble.current).map BubbleState.vessels =
      (s3.bubble.current).map BubbleState.vessels ∧
    s5.vessels.map Prod.fst = s3.vessels.map Prod.fst ∧
    s5.celestials.map Prod.fst = s3.celestials.map Prod.fst ∧
    historyTime s5 = historyTime s3 ∧
    (∀ i c, alookup i s3.celestials = some c → ∃ c',
      alookup i s5.celestials = some c' ∧ c'.history = c.history) ∧
    (∀ g v0, alookup g s3.vessels = some v0 → ∃ v5,
      alookup g s5.vessels = some v5 ∧ v5.state.isSync = true ∧
      v5.state.history ≠ [] ∧ lastTime v5.state.history = historyTime s3) := by
  unfold synchronizeNewVesselsAndCleanDirtyVessels at h
  simp only [] at h
  set HS := s3.celestials.map (fun ic => Handle.celProl ic.1) ++
      (s3.unsync.filter (fun g => !bubbleContains s3 g)).map Handle.vesProl ++
      (s3.dirty.filter (fun g => !bubbleContains s3 g && isSyncAt s3 g)).map
        Handle.vesProl ++
      (if bubbleEmpty s3 then [] else [Handle.com]) with hHS
  set S1 := integrate p true (historyTime s3) HS s3 with hS1M
  have hifmem : ∀ h2 : Handle,
      h2 ∈ (if bubbleEmpty s3 then ([] : List Handle) else [Handle.com]) →
      h2 = Handle.com := by
    intro h2 hm
    split at hm
    · cases hm
    · simpa using hm
  have hvesHistNot : ∀ g, Handle.vesHist g ∉ HS := by
    intro g hm
    rw [hHS] at hm
    rcases List.mem_append.mp hm with hm | hm
    · rcases List.mem_append.mp hm with hm | hm
      · rcases List.mem_append.mp hm with hm | hm
        · rcases List.mem_map.mp hm with ⟨ic, _, heq⟩
          cases heq
        · rcases List.mem_map.mp hm with ⟨g2, _, heq⟩
          cases heq
      · rcases List.mem_map.mp hm with ⟨g2, _, heq⟩
        cases heq
    · cases hifmem _ hm
  have hcelHistNot : ∀ i, Handle.celHist i ∉ HS := by
    intro i hm
    rw [hHS] at hm
    rcases List.mem_append.mp hm with hm | hm
    · rcases List.mem_append.mp hm with hm | hm
      · rcases List.mem_append.mp hm with hm | hm
        · rcases List.mem_map.mp hm with ⟨ic, _, heq⟩
          cases heq
        · rcases List.mem_map.mp hm with ⟨g2, _, heq⟩
          cases heq
      · rcases List.mem_map.mp hm with ⟨g2, _, heq⟩
        cases heq
    · cases hifmem _ hm
  have hvk1 : S1.vessels.map Prod.fst = s3.vessels.map Prod.fst :=
    integrate_congr (fun s => s.vessels.map Prod.fst) setTraj_vesselKeys
  have hck1 : S1.celestials.map Prod.fst = s3.celestials.map Prod.fst :=
    integrate_congr (fun s => s.celestials.map Prod.fst) setTraj_celKeys
  have hu1 : S1.unsync = s3.unsync :=
    integrate_congr Plugin.unsync setTraj_unsync
  have hd1 : S1.dirty = s3.dirty :=
    integrate_congr Plugin.dirty setTraj_dirty
  have hk1f : S1.kept = s3.kept :=
    integrate_congr Plugin.kept setTraj_kept
  have hi1 : S1.initializing = s3.initializing :=
    integrate_congr Plugin.initializing setTraj_initializing
  have hr1 : S1.planetariumRotation = s3.planetariumRotation :=
    integrate_congr Plugin.planetariumRotation setTraj_rotation
  have hc1t : S1.currentTime = s3.currentTime :=
    integrate_congr Plugin.currentTime setTraj_currentTime
  have hs1i : S1.sunIndex = s3.sunIndex :=
    integrate_congr Plugin.sunIndex setTraj_sunIndex
  have hbn1 : S1.bubble.next = s3.bubble.next :=
    integrate_congr (fun s => s.bubble.next) setTraj_bubbleNext
  have hbv1 : (S1.bubble.current).map BubbleState.vessels =
      (s3.bubble.current).map BubbleState.vessels :=
    integrate_congr (fun s => (s.bubble.current).map BubbleState.vessels)
      setTraj_bubbleVessels
  have hbe1 : bubbleEmpty S1 = bubbleEmpty s3 :=
    integrate_congr (fun s => bubbleEmpty s) setTraj_bubbleEmpty
  have hves1 : ∀ g v, alookup g s3.vessels = some v → ∃ v1,
      alookup g S1.vessels = some v1 ∧ v1.state.isSync = v.state.isSync ∧
      v1.state.isInitialized = v.state.isInitialized ∧
      v1.state.history = v.state.history := by
    intro g v hv
    rcases hv1 : alookup g S1.vessels with _ | v1
    · exfalso
      refine (alookup_eq_none.mp hv1) ?_
      rw [hvk1]
      exact alookup_some_mem_keys hv
    · have hm : (alookup g S1.vessels).map
            (fun v => (v.parent, v.state.isSync, v.state.isInitialized)) =
          (alookup g s3.vessels).map
            (fun v => (v.parent, v.state.isSync, v.state.isInitialized)) :=
        integrate_congr (fun s => (alookup g s.vessels).map (fun v => (v.parent, v.state.isSync, v.state.isInitialized))) (fun s h tr => setTraj_vesselMeta s h tr g)
      rw [hv1, hv] at hm
      have hmeta : (v1.parent, v1.state.isSync, v1.state.isInitialized) =
          (v.parent, v.state.isSync, v.state.isInitialized) := by
        simpa using hm
      have hsynceq : v1.state.isSync = v.state.isSync := by
        have := congrArg (fun q => q.2.1) hmeta
        simpa using this
      have hiniteq : v1.state.isInitialized = v.state.isInitialized := by
        have := congrArg (fun q => q.2.2) hmeta
        simpa using this
      have hhist : v1.state.history = v.state.history := by
        have hp : getTraj S1 (Handle.vesHist g) = getTraj s3 (Handle.vesHist g) :=
          integrate_get_notMem (hvesHistNot g)
        simp only [getTraj] at hp
        rw [hv1, hv] at hp
        exact hp
      exact ⟨v1, rfl, hsynceq, hiniteq, hhist⟩
  have hcel1 : ∀ i c, alookup i s3.celestials = some c → ∃ c1,
      alookup i S1.celestials = some c1 ∧ c1.history = c.history := by
    intro i c hc
    rcases hc1 : alookup i S1.celestials with _ | c1
    · exfalso
      refine (alookup_eq_none.mp hc1) ?_
      rw [hck1]
      exact alookup_some_mem_keys hc
    · have hp : getTraj S1 (Handle.celHist i) = getTraj s3 (Handle.celHist i) :=
        integrate_get_notMem (hcelHistNot i)
      simp only [getTraj] at hp
      rw [hc1, hc] at hp
      exact ⟨c1, rfl, hp⟩
  have hUM1 : ∀ g ∈ S1.unsync, ∃ v, alookup g S1.vessels = some v ∧
      v.state.isSync = false := by
    intro g hg
    rw [hu1] at hg
    obtain ⟨v, hv, hvs⟩ := hUM g hg
    obtain ⟨v1, hv1, hsy, _, _⟩ := hves1 g v hv
    exact ⟨v1, hv1, hsy.trans hvs⟩
  have huK1 : SortedKeys S1.unsync := hu1 ▸ huK
  have hdK1 : SortedKeys S1.dirty := hd1 ▸ hdK
  -- A uniform description of the state after the (possibly skipped) bubble
  -- synchronization, parameterized by the keys that were handled there.
  have hmain : ∀ stK : List GUID, ∀ s2' : Plugin,
      SameExceptVUD S1 s2' →
      s2'.vessels.map Prod.fst = S1.vessels.map Prod.fst →
      (∀ g ∈ stK, ∃ v2, alookup g s2'.vessels = some v2 ∧
        v2.state.isSync = true ∧ v2.state.history ≠ [] ∧
        lastTime v2.state.history = historyTime s3) →
      (∀ g2, g2 ∉ stK → alookup g2 s2'.vessels = alookup g2 S1.vessels) →
      (∀ x, x ∈ s2'.unsync ↔ x ∈ s3.unsync ∧ x ∉ stK) →
      (∀ x, x ∈ s2'.dirty ↔ x ∈ s3.dirty ∧ x ∉ stK) →
      SortedKeys s2'.unsync → SortedKeys s2'.dirty →
      (∀ g, bubbleContains s3 g = true → g ∈ stK) →
      (match syncUnsyncFold (historyTime s3) s2' s2'.unsync with
        | none => none
        | some s3x =>
          match cleanDirtyFold (historyTime s3)
              ({ s3x with unsync := [] } : Plugin)
              ({ s3x with unsync := [] } : Plugin).dirty with
          | none => none
          | some s5x => some { s5x with dirty := [] }) = some s5 →
      s5.unsync = [] ∧ s5.dirty = [] ∧
      s5.kept = s3.kept ∧ s5.initializing = s3.initializing ∧
      s5.planetariumRotation = s3.planetariumRotation ∧
      s5.currentTime = s3.currentTime ∧ s5.sunIndex = s3.sunIndex ∧
      s5.bubble.next = s3.bubble.next ∧
      (s5.bubble.current).map BubbleState.vessels =
        (s3.bubble.current).map BubbleState.vessels ∧
      s5.vessels.map Prod.fst = s3.vessels.map Prod.fst ∧
      s5.celestials.map Prod.fst = s3.celestials.map Prod.fst ∧
      historyTime s5 = historyTime s3 ∧
      (∀ i c, alookup i s3.celestials = some c → ∃ c',
        alookup i s5.celestials = some c' ∧ c'.history = c.history) ∧
      (∀ g v0, alookup g s3.vessels = some v0 → ∃ v5,
        alookup g s5.vessels = some v5 ∧ v5.state.isSync = true ∧
        v5.state.history ≠ [] ∧ lastTime v5.state.history = historyTime s3) := by
    intro stK s2' hse2 hvk2 hstF hoth2 hun2 hdi2 huK2 hdK2 hbc2 hrest
    rcases hsu : syncUnsyncFold (historyTime s3) s2' s2'.unsync with _ | sA
    · rw [hsu] at hrest
      exact Option.noConfusion hrest
    · rw [hsu] at hrest
      obtain ⟨hseA, hvkA, hmemA, hothA, hunA, hdiA, hdKA⟩ :=
        syncUnsyncFold_char hsu hdK2 huK2.nodup
      have hrest2 : (match cleanDirtyFold (historyTime s3)
            ({ sA with unsync := [] } : Plugin) sA.dirty with
          | none => none
          | some s5x => some { s5x with dirty := [] }) = some s5 := hrest
      rcases hcd : cleanDirtyFold (historyTime s3)
          ({ sA with unsync := [] } : Plugin) sA.dirty with _ | sB
      · rw [hcd] at hrest2
        exact Option.noConfusion hrest2
      · rw [hcd] at hrest2
        injection hrest2 with hrest2
        subst hrest2
        have hdndA : sA.dirty.Nodup := hdKA.nodup
        obtain ⟨hseB, hvkB, hmemB, hothB, hunB, hdiB⟩ :=
          cleanDirtyFold_char hcd hdndA
        have hseS4 : SameExceptVUD sA ({ sA with unsync := [] } : Plugin) :=
          ⟨rfl, rfl, rfl, rfl, rfl, rfl, rfl⟩
        have hseF : SameExceptVUD S1 sB :=
          ((hse2.trans hseA).trans hseS4).trans hseB
        have hbubF : sB.bubble = S1.bubble := hseF.bubble
        have hhtS1 : historyTime S1 = historyTime s3 := by
          unfold historyTime sunHistory
          rw [hs1i]
          rcases hsc : alookup s3.sunIndex s3.celestials with _ | csun
          · have : alookup s3.sunIndex S1.celestials = none := by
              rw [alookup_eq_none, hck1]
              exact alookup_eq_none.mp hsc
            rw [this]
          · obtain ⟨c1, hc1, hh⟩ := hcel1 _ _ hsc
            rw [hc1]
            show lastTime c1.history = lastTime csun.history
            rw [hh]
        have hhtB : historyTime sB = historyTime s3 := by
          have h1 : historyTime sB = historyTime S1 :=
            historyTime_sameExcept hseF
          rw [h1, hhtS1]
        refine ⟨?_, rfl, hseF.kept.trans hk1f, hseF.ini.trans hi1,
                hseF.rot.trans hr1, hseF.ct.trans hc1t, hseF.sun.trans hs1i,
                ?_, ?_, ?_, ?_, ?_, ?_, ?_⟩
        · show sB.unsync = []
          rw [hunB]
        · show sB.bubble.next = s3.bubble.next
          rw [hbubF, hbn1]
        · show (sB.bubble.current).map BubbleState.vessels = _
          rw [hbubF]
          exact hbv1
        · show sB.vessels.map Prod.fst = s3.vessels.map Prod.fst
          rw [hvkB]
          exact (hvkA.trans hvk2).trans hvk1
        · show sB.celestials.map Prod.fst = s3.celestials.map Prod.fst
          rw [hseF.cel]
          exact hck1
        · show historyTime ({ sB with dirty := [] } : Plugin) = historyTime s3
          have : historyTime ({ sB with dirty := [] } : Plugin) =
              historyTime sB :=
            historyTime_sameExcept ⟨rfl, rfl, rfl, rfl, rfl, rfl, rfl⟩
          rw [this, hhtB]
        · intro i c hc
          obtain ⟨c1, hc1, hh⟩ := hcel1 i c hc
          refine ⟨c1, ?_, hh⟩
          show alookup i sB.celestials = some c1
          rw [hseF.cel]
          exact hc1
        · intro g v0 hv0
          by_cases hg1 : g ∈ stK
          · obtain ⟨v2, hv2, hsy, hne, hlt⟩ := hstF g hg1
            have hgnu : g ∉ s2'.unsync := fun hc => ((hun2 g).mp hc).2 hg1
            have hA : alookup g sA.vessels = some v2 := by
              rw [hothA g hgnu]
              exact hv2
            have hgnd : g ∉ sA.dirty := fun hc =>
              ((hdi2 g).mp ((hdiA g).mp hc).1).2 hg1
            have hB : alookup g sB.vessels = some v2 := by
              rw [hothB g hgnd]
              exact hA
            exact ⟨v2, hB, hsy, hne, hlt⟩
          · by_cases hg2 : g ∈ s2'.unsync
            · obtain ⟨v2, hv2, hsy, hne, hlt, _, _⟩ := hmemA g hg2
              have hgnd : g ∉ sA.dirty := fun hc => ((hdiA g).mp hc).2 hg2
              have hB : alookup g sB.vessels = some v2 := by
                rw [hothB g hgnd]
                exact hv2
              exact ⟨v2, hB, hsy, hne, hlt⟩
            · by_cases hg3 : g ∈ sA.dirty
              · obtain ⟨v2, hv2, hsy, hne, hlt⟩ := hmemB g hg3
                exact ⟨v2, hv2, hsy, hne, hlt⟩
              · have hgnd3 : g ∉ s3.dirty := by
                  intro hc
                  exact hg3 ((hdiA g).mpr ⟨(hdi2 g).mpr ⟨hc, hg1⟩, hg2⟩)
                have hgnu3 : g ∉ s3.unsync := by
                  intro hc
                  exact hg2 ((hun2 g).mpr ⟨hc, hg1⟩)
                have hsync0 : v0.state.isSync = true := by
                  by_contra hns
                  have hfa : v0.state.isSync = false := by
                    cases hx : v0.state.isSync
                    · rfl
                    · exact absurd hx hns
                  exact hgnu3 (hUC (g, v0) (alookup_mem hv0) hfa)
                have hbc0 : bubbleContains s3 g = false := by
                  cases hx : bubbleContains s3 g
                  · rfl
                  · exact absurd (hbc2 g hx) hg1
                obtain ⟨hne0, hlt0⟩ :=
                  hvesH3 (g, v0) (alookup_mem hv0) hsync0 hbc0 hgnd3
                obtain ⟨v1, hv1, hsy1, _, hh1⟩ := hves1 g v0 hv0
                have h2v : alookup g s2'.vessels = some v1 := by
                  rw [hoth2 g hg1]
                  exact hv1
                have hAv : alookup g sA.vessels = some v1 := by
                  rw [hothA g hg2]
                  exact h2v
                have hBv : alookup g sB.vessels = some v1 := by
                  rw [hothB g hg3]
                  exact hAv
                refine ⟨v1, hBv, hsy1.trans hsync0, ?_, ?_⟩
                · rw [hh1]
                  exact hne0
                · rw [hh1]
                  exact hlt0
  by_cases hbe : bubbleEmpty S1 = true
  · rw [if_pos hbe] at h
    have h2 : (match syncUnsyncFold (historyTime s3) S1 S1.unsync with
        | none => none
        | some s3x =>
          match cleanDirtyFold (historyTime s3)
              ({ s3x with unsync := [] } : Plugin)
              ({ s3x with unsync := [] } : Plugin).dirty with
          | none => none
          | some s5x => some { s5x with dirty := [] }) = some s5 := h
    have hbe3 : bubbleEmpty s3 = true := hbe1 ▸ hbe
    refine hmain [] S1 (SameExceptVUD.refl S1) rfl
      (fun g hg => absurd hg (List.not_mem_nil g))
      (fun g2 _ => rfl) ?_ ?_ huK1 hdK1 ?_ h2
    · intro x
      rw [hu1]
      simp
    · intro x
      rw [hd1]
      simp
    · intro g hg
      rw [bubbleContains_of_empty hbe3 g] at hg
      cases hg
  · rw [if_neg hbe] at h
    rcases hsb : syncBubbleHistories (historyTime s3) S1 with _ | s2'
    · rw [hsb] at h
      exact Option.noConfusion h
    · rw [hsb] at h
      have h2 : (match syncUnsyncFold (historyTime s3) s2' s2'.unsync with
          | none => none
          | some s3x =>
            match cleanDirtyFold (historyTime s3)
                ({ s3x with unsync := [] } : Plugin)
                ({ s3x with unsync := [] } : Plugin).dirty with
            | none => none
            | some s5x => some { s5x with dirty := [] }) = some s5 := h
      unfold syncBubbleHistories at hsb
      rcases hcur : S1.bubble.current with _ | st1
      · rw [hcur] at hsb
        exact Option.noConfusion hsb
      · rw [hcur] at hsb
        have hkeyseq : st1.vessels.map Prod.fst =
            (match s3.bubble.current with
              | some st3 => st3.vessels.map Prod.fst
              | none => []) := by
          rcases hc3 : s3.bubble.current with _ | st3
          · exfalso
            rw [hcur, hc3] at hbv1
            simp at hbv1
          · rw [hcur, hc3] at hbv1
            simp only [Option.map_some'] at hbv1
            injection hbv1 with hbv1e
            rw [hbv1e]
        have hndst : (st1.vessels.map Prod.fst).Nodup := by
          rcases hc3 : s3.bubble.current with _ | st3
          · exfalso
            rw [hcur, hc3] at hbv1
            simp at hbv1
          · rw [hc3] at hkeyseq
            rw [hkeyseq]
            exact hcurN st3 hc3
        obtain ⟨hse2, hvk2, hstF0, hoth2, hun2iff, hdi2iff, huK2, hdK2⟩ :=
          syncBubbleFold_char hsb huK1 hdK1 hndst hUM1
        refine hmain (st1.vessels.map Prod.fst) s2' hse2 hvk2 ?_ hoth2 ?_ ?_
          huK2 hdK2 ?_ h2
        · intro g hg
          rcases List.mem_map.mp hg with ⟨gp, hgp, hgpe⟩
          obtain ⟨v2, hv2, hsy, hne, hlt⟩ := hstF0 gp hgp
          rw [← hgpe]
          exact ⟨v2, hv2, hsy, hne, hlt⟩
        · intro x
          rw [hun2iff x, hu1]
        · intro x
          rw [hdi2iff x, hd1]
        · intro g hg
          unfold bubbleContains at hg
          rcases hc3 : s3.bubble.current with _ | st3
          · rw [hc3] at hg
            cases hg
          · rw [hc3] at hg
            rw [hc3] at hkeyseq
            rw [hkeyseq]
            exact of_decide_eq_true hg

/-- Characterization of `EvolveProlongationsAndBubble` (plugin.cpp:269):
every prolongation (celestial or vessel) ends exactly at `t` afterwards —
by exact integration for the non-bubble trajectories, by the appended
centre-of-mass offset point for the bubble vessels — and nothing else
(histories, scheduler sets, `HistoryTime()`) changes. -/
theorem evolveProl_post {p : Params} {t t0 : ℚ} {s6 s7 : Plugin}
    (h : evolveProlongationsAndBubble p t s6 = some s7)
    (hvK : SortedKeys (s6.vessels.map Prod.fst))
    (hcK : SortedKeys (s6.celestials.map Prod.fst))
    (hallInit : ∀ gv ∈ s6.vessels, gv.2.state.isInitialized = true)
    (hcelP : ∀ ic ∈ s6.celestials, ic.2.prolong ≠ [] ∧
      lastTime ic.2.prolong = t0)
    (hvesP : ∀ gv ∈ s6.vessels, gv.2.state.prolong ≠ [] ∧
      lastTime gv.2.state.prolong = t0)
    (hsun : s6.sunIndex ∈ s6.celestials.map Prod.fst)
    (hcurN : ∀ st, s6.bubble.current = some st →
      (st.vessels.map Prod.fst).Nodup)
    (hle : t0 ≤ t) :
    s7.unsync = s6.unsync ∧ s7.dirty = s6.dirty ∧ s7.kept = s6.kept ∧
    s7.initializing = s6.initializing ∧
    s7.planetariumRotation = s6.planetariumRotation ∧
    s7.currentTime = s6.currentTime ∧ s7.sunIndex = s6.sunIndex ∧
    s7.bubble.next = s6.bubble.next ∧
    s7.vessels.map Prod.fst = s6.vessels.map Prod.fst ∧
    s7.celestials.map Prod.fst = s6.celestials.map Prod.fst ∧
    historyTime s7 = historyTime s6 ∧
    (∀ st, s7.bubble.current = some st → ∀ g ∈ st.vessels.map Prod.fst,
      g ∈ s7.vessels.map Prod.fst) ∧
    (∀ i c, alookup i s6.celestials = some c → ∃ c',
      alookup i s7.celestials = some c' ∧ c'.history = c.history ∧
      c'.prolong ≠ [] ∧ lastTime c'.prolong = t) ∧
    (∀ g v, alookup g s6.vessels = some v → ∃ v',
      alookup g s7.vessels = some v' ∧
      v'.state.isSync = v.state.isSync ∧
      v'.state.isInitialized = true ∧
      v'.state.history = v.state.history ∧
      v'.state.prolong ≠ [] ∧ lastTime v'.state.prolong = t) := by
  unfold evolveProlongationsAndBubble at h
  simp only [] at h
  set HS := s6.celestials.map (fun ic => Handle.celProl ic.1) ++
      (s6.vessels.filter (fun gv => !bubbleContains s6 gv.1)).map
        (fun gv => Handle.vesProl gv.1) ++
      (if bubbleEmpty s6 then [] else [Handle.com]) with hHS
  set S1 := integrate p true t HS s6 with hS1M
  have hifmem : ∀ h2 : Handle,
      h2 ∈ (if bubbleEmpty s6 then ([] : List Handle) else [Handle.com]) →
      h2 = Handle.com := by
    intro h2 hm
    split at hm
    · cases hm
    · simpa using hm
  have hvesHistNot : ∀ g, Handle.vesHist g ∉ HS := by
    intro g hm
    rw [hHS] at hm
    rcases List.mem_append.mp hm with hm | hm
    · rcases List.mem_append.mp hm with hm | hm
      · rcases List.mem_map.mp hm with ⟨ic, _, heq⟩
        cases heq
      · rcases List.mem_map.mp hm with ⟨gv, _, heq⟩
        cases heq
    · cases hifmem _ hm
  have hcelHistNot : ∀ i, Handle.celHist i ∉ HS := by
    intro i hm
    rw [hHS] at hm
    rcases List.mem_append.mp hm with hm | hm
    · rcases List.mem_append.mp hm with hm | hm
      · rcases List.mem_map.mp hm with ⟨ic, _, heq⟩
        cases heq
      · rcases List.mem_map.mp hm with ⟨gv, _, heq⟩
        cases heq
    · cases hifmem _ hm
  have hnd : HS.Nodup := by
    rw [hHS, List.nodup_append, List.nodup_append]
    refine ⟨⟨?_, ?_, ?_⟩, ?_, ?_⟩
    · rw [show (fun ic : Index × Celestial => Handle.celProl ic.1) =
          (Handle.celProl ∘ Prod.fst) from rfl, ← List.map_map]
      exact List.Nodup.map (fun a b hab => by injection hab) hcK.nodup
    · rw [show (fun gv : GUID × Vessel => Handle.vesProl gv.1) =
          (Handle.vesProl ∘ Prod.fst) from rfl, ← List.map_map]
      refine List.Nodup.map (fun a b hab => by injection hab) ?_
      exact List.Nodup.sublist
        (List.Sublist.map Prod.fst (List.filter_sublist _)) hvK.nodup
    · intro a ha hb
      rcases List.mem_map.mp ha with ⟨ic, _, rfl⟩
      rcases List.mem_map.mp hb with ⟨gv, _, heq⟩
      cases heq
    · split
      · simp
      · simp
    · intro a ha hb
      have hac := hifmem a hb
      subst hac
      rcases List.mem_append.mp ha with ha | ha
      · rcases List.mem_map.mp ha with ⟨ic, _, heq⟩
        cases heq
      · rcases List.mem_map.mp ha with ⟨gv, _, heq⟩
        cases heq
  have hval : ∀ h2 ∈ HS, ValidH s6 h2 := by
    intro h2 hm
    rw [hHS] at hm
    rcases List.mem_append.mp hm with hm | hm
    · rcases List.mem_append.mp hm with hm | hm
      · rcases List.mem_map.mp hm with ⟨ic, hic, rfl⟩
        show ic.1 ∈ s6.celestials.map Prod.fst
        exact List.mem_map_of_mem Prod.fst hic
      · rcases List.mem_map.mp hm with ⟨gv, hgv, rfl⟩
        obtain ⟨hgv2, _⟩ := List.mem_filter.mp hgv
        exact ⟨gv.2, alookup_of_mem hvK.nodup hgv2, hallInit gv hgv2⟩
    · have hac := hifmem _ hm
      subst hac
      show s6.bubble.current.isSome = true
      have hbne : bubbleEmpty s6 = false := by
        cases hx : bubbleEmpty s6
        · rfl
        · rw [if_pos hx] at hm
          cases hm
      unfold bubbleEmpty at hbne
      rcases hc : s6.bubble.current with _ | st
      · rw [hc] at hbne
        cases hbne
      · rfl
  have hmemP : ∀ g v, alookup g s6.vessels = some v →
      (Handle.vesProl g ∈ HS ↔ bubbleContains s6 g = false) := by
    intro g v hv
    constructor
    · intro hm
      rw [hHS] at hm
      rcases List.mem_append.mp hm with hm | hm
      · rcases List.mem_append.mp hm with hm | hm
        · rcases List.mem_map.mp hm with ⟨ic, _, heq⟩
          cases heq
        · rcases List.mem_map.mp hm with ⟨gv, hgv, heq⟩
          injection heq with heq
          subst heq
          obtain ⟨_, hpred⟩ := List.mem_filter.mp hgv
          simpa using hpred
      · cases hifmem _ hm
    · intro hbc
      rw [hHS]
      apply List.mem_append_left
      apply List.mem_append_right
      refine List.mem_map.mpr ⟨(g, v), ?_, rfl⟩
      refine List.mem_filter.mpr ⟨alookup_mem hv, ?_⟩
      simp [hbc]
  have hheadT : lastTime (getTraj s6 (HS.headD Handle.com)) = t0 := by
    rcases hc : s6.celestials with _ | ⟨c0, cs⟩
    · rw [hc] at hsun
      cases hsun
    · have hc0mem : c0 ∈ s6.celestials := by
        rw [hc]
        exact List.mem_cons_self _ _
      have hHS0 : HS = Handle.celProl c0.1 ::
          (cs.map (fun ic => Handle.celProl ic.1) ++
           (s6.vessels.filter (fun gv => !bubbleContains s6 gv.1)).map
             (fun gv => Handle.vesProl gv.1) ++
           (if bubbleEmpty s6 then [] else [Handle.com])) := by
        rw [hHS, hc, List.map_cons]
        simp [List.append_assoc]
      rw [hHS0]
      show lastTime (getTraj s6 (Handle.celProl c0.1)) = _
      have hl : alookup c0.1 s6.celestials = some c0.2 :=
        alookup_of_mem hcK.nodup hc0mem
      show lastTime (match alookup c0.1 s6.celestials with
        | some c => c.prolong
        | none => []) = _
      rw [hl]
      exact (hcelP c0 hc0mem).2
  have hget : ∀ h2 ∈ HS, ∃ pts : List TimedDof,
      pts.map Prod.fst = stepTimes t0 t true ∧
      getTraj S1 h2 = getTraj s6 h2 ++ pts := by
    intro h2 hh
    obtain ⟨pts, hfst, hgt⟩ := integrate_get_mem hnd hval hh
    rw [hheadT] at hfst
    exact ⟨pts, hfst, hgt⟩
  have hvk1 : S1.vessels.map Prod.fst = s6.vessels.map Prod.fst :=
    integrate_congr (fun s => s.vessels.map Prod.fst) setTraj_vesselKeys
  have hck1 : S1.celestials.map Prod.fst = s6.celestials.map Prod.fst :=
    integrate_congr (fun s => s.celestials.map Prod.fst) setTraj_celKeys
  have hbv1 : (S1.bubble.current).map BubbleState.vessels =
      (s6.bubble.current).map BubbleState.vessels :=
    integrate_congr (fun s => (s.bubble.current).map BubbleState.vessels)
      setTraj_bubbleVessels
  -- per-celestial and per-vessel facts at the integrated state
  have hcel1 : ∀ i c, alookup i s6.celestials = some c → ∃ c1,
      alookup i S1.celestials = some c1 ∧ c1.history = c.history ∧
      c1.prolong ≠ [] ∧ lastTime c1.prolong = t := by
    intro i c hc
    rcases hc1 : alookup i S1.celestials with _ | c1
    · exfalso
      refine (alookup_eq_none.mp hc1) ?_
      rw [hck1]
      exact alookup_some_mem_keys hc
    · have hhist : c1.history = c.history := by
        have hp : getTraj S1 (Handle.celHist i) = getTraj s6 (Handle.celHist i) :=
          integrate_get_notMem (hcelHistNot i)
        simp only [getTraj] at hp
        rw [hc1, hc] at hp
        exact hp
      have hmem : Handle.celProl i ∈ HS := by
        rw [hHS]
        apply List.mem_append_left
        apply List.mem_append_left
        exact List.mem_map.mpr ⟨(i, c), alookup_mem hc, rfl⟩
      obtain ⟨pts, hfst, hgt⟩ := hget _ hmem
      have hprol : c1.prolong = c.prolong ++ pts := by
        simp only [getTraj] at hgt
        rw [hc1, hc] at hgt
        exact hgt
      obtain ⟨hne, hlast⟩ := lastTime_extend_exact
        (hcelP (i, c) (alookup_mem hc)).1 (hcelP (i, c) (alookup_mem hc)).2
        hfst hle
      rw [← hprol] at hne hlast
      exact ⟨c1, rfl, hhist, hne, hlast⟩
  have hves1 : ∀ g v, alookup g s6.vessels = some v → ∃ v1,
      alookup g S1.vessels = some v1 ∧ v1.state.isSync = v.state.isSync ∧
      v1.state.isInitialized = true ∧
      v1.state.history = v.state.history ∧
      (bubbleContains s6 g = false →
        v1.state.prolong ≠ [] ∧ lastTime v1.state.prolong = t) ∧
      (bubbleContains s6 g = true →
        v1.state.prolong = v.state.prolong) := by
    intro g v hv
    rcases hv1 : alookup g S1.vessels with _ | v1
    · exfalso
      refine (alookup_eq_none.mp hv1) ?_
      rw [hvk1]
      exact alookup_some_mem_keys hv
    · have hm : (alookup g S1.vessels).map
            (fun v => (v.parent, v.state.isSync, v.state.isInitialized)) =
          (alookup g s6.vessels).map
            (fun v => (v.parent, v.state.isSync, v.state.isInitialized)) :=
        integrate_congr (fun s => (alookup g s.vessels).map (fun v => (v.parent, v.state.isSync, v.state.isInitialized))) (fun s h tr => setTraj_vesselMeta s h tr g)
      rw [hv1, hv] at hm
      have hmeta : (v1.parent, v1.state.isSync, v1.state.isInitialized) =
          (v.parent, v.state.isSync, v.state.isInitialized) := by
        simpa using hm
      have hsynceq : v1.state.isSync = v.state.isSync := by
        have := congrArg (fun q => q.2.1) hmeta
        simpa using this
      have hiniteq : v1.state.isInitialized = true := by
        have h2 := congrArg (fun q => q.2.2) hmeta
        simp only [] at h2
        rw [h2]
        exact hallInit (g, v) (alookup_mem hv)
      have hhist : v1.state.history = v.state.history := by
        have hp : getTraj S1 (Handle.vesHist g) = getTraj s6 (Handle.vesHist g) :=
          integrate_get_notMem (hvesHistNot g)
        simp only [getTraj] at hp
        rw [hv1, hv] at hp
        exact hp
      refine ⟨v1, rfl, hsynceq, hiniteq, hhist, ?_, ?_⟩
      · intro hbc
        have hmem : Handle.vesProl g ∈ HS := (hmemP g v hv).mpr hbc
        obtain ⟨pts, hfst, hgt⟩ := hget _ hmem
        have hprol : v1.state.prolong = v.state.prolong ++ pts := by
          simp only [getTraj] at hgt
          rw [hv1, hv] at hgt
          exact hgt
        obtain ⟨hne, hlast⟩ := lastTime_extend_exact
          (hvesP (g, v) (alookup_mem hv)).1 (hvesP (g, v) (alookup_mem hv)).2
          hfst hle
        rw [← hprol] at hne hlast
        exact ⟨hne, hlast⟩
      · intro hbc
        have hnmem : Handle.vesProl g ∉ HS := by
          intro hc
          rw [(hmemP g v hv).mp hc] at hbc
          cases hbc
        have hp : getTraj S1 (Handle.vesProl g) = getTraj s6 (Handle.vesProl g) :=
          integrate_get_notMem hnmem
        simp only [getTraj] at hp
        rw [hv1, hv] at hp
        exact hp
  have hallInit1 : ∀ g v, alookup g S1.vessels = some v →
      v.state.isInitialized = true := by
    intro g v hg
    rcases hv0 : alookup g s6.vessels with _ | v0
    · exfalso
      refine (alookup_eq_none.mp hv0) ?_
      rw [← hvk1]
      exact alookup_some_mem_keys hg
    · obtain ⟨v1, hv1, _, hini, _, _, _⟩ := hves1 g v0 hv0
      rw [hv1] at hg
      injection hg with hg
      subst hg
      exact hini
  -- case split on the bubble
  rcases hcur : S1.bubble.current with _ | st1
  · rw [hcur] at h
    injection h with h
    subst h
    have hbe6 : s6.bubble.current = none := by
      rw [hcur] at hbv1
      rcases hc6 : s6.bubble.current with _ | st6
      · rfl
      · exfalso
        rw [hc6] at hbv1
        simp at hbv1
    refine ⟨integrate_congr Plugin.unsync setTraj_unsync,
      integrate_congr Plugin.dirty setTraj_dirty,
      integrate_congr Plugin.kept setTraj_kept,
      integrate_congr Plugin.initializing setTraj_initializing,
      integrate_congr Plugin.planetariumRotation setTraj_rotation,
      integrate_congr Plugin.currentTime setTraj_currentTime,
      integrate_congr Plugin.sunIndex setTraj_sunIndex,
      integrate_congr (fun s => s.bubble.next) setTraj_bubbleNext,
      hvk1, hck1, ?_, ?_, hcel1, ?_⟩
    · unfold historyTime sunHistory
      rw [integrate_congr Plugin.sunIndex setTraj_sunIndex]
      rcases hsc : alookup s6.sunIndex s6.celestials with _ | csun
      · have hnone : alookup s6.sunIndex S1.celestials = none := by
          rw [alookup_eq_none, hck1]
          exact alookup_eq_none.mp hsc
        rw [hnone]
      · obtain ⟨c1, hc1, hh, _, _⟩ := hcel1 _ _ hsc
        rw [hc1]
        show lastTime c1.history = lastTime csun.history
        rw [hh]
    · intro st hst
      rw [hcur] at hst
      cases hst
    · intro g v hv
      obtain ⟨v1, hv1, hsy, hini, hh, hnb, _⟩ := hves1 g v hv
      have hbc : bubbleContains s6 g = false := by
        unfold bubbleContains
        rw [hbe6]
      obtain ⟨hne, hlast⟩ := hnb hbc
      exact ⟨v1, hv1, hsy, hini, hh, hne, hlast⟩
  · rw [hcur] at h
    obtain ⟨st6, hc6, hsteq⟩ : ∃ st6, s6.bubble.current = some st6 ∧
        st1.vessels = st6.vessels := by
      rcases hc6 : s6.bubble.current with _ | st6
      · exfalso
        rw [hcur, hc6] at hbv1
        simp at hbv1
      · rw [hcur, hc6] at hbv1
        simp only [Option.map_some'] at hbv1
        injection hbv1 with hbv1e
        exact ⟨st6, rfl, hbv1e⟩
    have hndst : (st1.vessels.map Prod.fst).Nodup := by
      rw [hsteq]
      exact hcurN st6 hc6
    obtain ⟨hseF, hvkF, hmemF, hothF, hunF, hdiF⟩ :=
      bubbleAppendFold_char h hndst hallInit1
    have hbcmem : ∀ g, bubbleContains s6 g = true ↔
        g ∈ st1.vessels.map Prod.fst := by
      intro g
      unfold bubbleContains
      rw [hc6, hsteq]
      simp
    have hhtS1 : historyTime S1 = historyTime s6 := by
      unfold historyTime sunHistory
      rw [integrate_congr Plugin.sunIndex setTraj_sunIndex]
      rcases hsc : alookup s6.sunIndex s6.celestials with _ | csun
      · have hnone : alookup s6.sunIndex S1.celestials = none := by
          rw [alookup_eq_none, hck1]
          exact alookup_eq_none.mp hsc
        rw [hnone]
      · obtain ⟨c1, hc1, hh, _, _⟩ := hcel1 _ _ hsc
        rw [hc1]
        show lastTime c1.history = lastTime csun.history
        rw [hh]
    refine ⟨hunF.trans (integrate_congr Plugin.unsync setTraj_unsync),
      hdiF.trans (integrate_congr Plugin.dirty setTraj_dirty),
      hseF.kept.trans (integrate_congr Plugin.kept setTraj_kept),
      hseF.ini.trans (integrate_congr Plugin.initializing setTraj_initializing),
      hseF.rot.trans (integrate_congr Plugin.planetariumRotation setTraj_rotation),
      hseF.ct.trans (integrate_congr Plugin.currentTime setTraj_currentTime),
      hseF.sun.trans (integrate_congr Plugin.sunIndex setTraj_sunIndex),
      ?_, hvkF.trans hvk1, ?_, ?_, ?_, ?_, ?_⟩
    · rw [hseF.bubble]
      exact integrate_congr (fun s => s.bubble.next) setTraj_bubbleNext
    · rw [hseF.cel]
      exact hck1
    · have h1 : historyTime s7 = historyTime S1 := historyTime_sameExcept hseF
      rw [h1, hhtS1]
    · intro st hst g hg
      rw [hseF.bubble, hcur] at hst
      injection hst with hst
      subst hst
      rcases List.mem_map.mp hg with ⟨gp, hgp, hgpe⟩
      rw [hvkF, ← hgpe]
      exact (hmemF gp hgp).1
    · intro i c hc
      obtain ⟨c1, hc1, hh, hne, hlast⟩ := hcel1 i c hc
      refine ⟨c1, ?_, hh, hne, hlast⟩
      rw [hseF.cel]
      exact hc1
    · intro g v hv
      obtain ⟨v1, hv1, hsy, hini, hh, hnb, hib⟩ := hves1 g v hv
      by_cases hbc : bubbleContains s6 g = true
      · have hgmem : g ∈ st1.vessels.map Prod.fst := (hbcmem g).mp hbc
        rcases List.mem_map.mp hgmem with ⟨gp, hgp, hgpe⟩
        obtain ⟨_, hupd⟩ := hmemF gp hgp
        rw [hgpe] at hupd
        obtain ⟨v2, hv2, hsy2, hini2, hh2, hne2, hlast2⟩ := hupd v1 hv1
        exact ⟨v2, hv2, hsy2.trans hsy, hini2, hh2.trans hh, hne2, hlast2⟩
      · have hbcf : bubbleContains s6 g = false := by
          cases hx : bubbleContains s6 g
          · rfl
          · exact absurd hx hbc
        obtain ⟨hne, hlast⟩ := hnb hbcf
        have hgnot : g ∉ st1.vessels.map Prod.fst := fun hc =>
          hbc ((hbcmem g).mpr hc)
        have hv7 : alookup g s7.vessels = some v1 := by
          rw [hothF g hgnot]
          exact hv1
        exact ⟨v1, hv7, hsy, hini, hh, hne, hlast⟩

/-- The final stage of `AdvanceTime`: from a well-formed intermediate state
`s6` (either the post-reset state of a history step or the cleaned-up
state when no step fits), evolving the prolongations to `t` and stamping
the new time and rotation yields an invariant-satisfying state with every
prolongation ending at `t`. -/
theorem advanceTime_tail {p : Params} {t rot t0 h0 : ℚ} {s6 s7 : Plugin}
    (hep : evolveProlongationsAndBubble p t s6 = some s7)
    (hvK6 : SortedKeys (s6.vessels.map Prod.fst))
    (hcK6 : SortedKeys (s6.celestials.map Prod.fst))
    (huK6 : SortedKeys s6.unsync) (hdK6 : SortedKeys s6.dirty)
    (hsun6 : s6.sunIndex ∈ s6.celestials.map Prod.fst)
    (hkept6 : s6.kept = []) (hini6 : s6.initializing = false)
    (hnext6 : s6.bubble.next = none)
    (hcurN6 : ∀ st, s6.bubble.current = some st →
      (st.vessels.map Prod.fst).Nodup)
    (hallInit6 : ∀ gv ∈ s6.vessels, gv.2.state.isInitialized = true)
    (hvesP6 : ∀ gv ∈ s6.vessels, gv.2.state.prolong ≠ [] ∧
      lastTime gv.2.state.prolong = t0)
    (hcelP6 : ∀ ic ∈ s6.celestials, ic.2.prolong ≠ [] ∧
      lastTime ic.2.prolong = t0)
    (hcelH6 : ∀ ic ∈ s6.celestials, ic.2.history ≠ [] ∧
      lastTime ic.2.history = historyTime s6)
    (hvesH6 : ∀ gv ∈ s6.vessels, gv.2.state.isSync = true →
      gv.2.state.history ≠ [] ∧ lastTime gv.2.state.history = historyTime s6)
    (hUM6 : ∀ g ∈ s6.unsync, ∃ v, alookup g s6.vessels = some v ∧
      v.state.isInitialized = true ∧ v.state.isSync = false)
    (hUC6 : ∀ gv ∈ s6.vessels, gv.2.state.isSync = false → gv.1 ∈ s6.unsync)
    (hdSub6 : ∀ g ∈ s6.dirty, g ∈ s6.vessels.map Prod.fst)
    (ht0le : t0 ≤ t) (hht6le : historyTime s6 ≤ t)
    (htle : t ≤ historyTime s6 + Δt)
    (hstep1 : h0 + Δt < t → s6.unsync = [] ∧ s6.dirty = [] ∧
      (∀ gv ∈ s6.vessels, gv.2.state.isSync = true))
    (hstep2 : h0 + Δt < t → h0 < historyTime s6)
    (hstep3 : ¬(h0 + Δt < t) → historyTime s6 = h0) :
    Inv { s7 with currentTime := t, planetariumRotation := rot } ∧
    ({ s7 with currentTime := t, planetariumRotation := rot } : Plugin).initializing = false ∧
    ({ s7 with currentTime := t, planetariumRotation := rot } : Plugin).kept = [] ∧
    (∀ gv ∈ ({ s7 with currentTime := t, planetariumRotation := rot } : Plugin).vessels,
      gv.2.state.isInitialized = true ∧ gv.2.state.prolong ≠ [] ∧
      lastTime gv.2.state.prolong = t) ∧
    ((h0 + Δt < t) ↔ h0 < historyTime { s7 with currentTime := t, planetariumRotation := rot }) ∧
    (h0 + Δt < t →
      ({ s7 with currentTime := t, planetariumRotation := rot } : Plugin).unsync = [] ∧
      ({ s7 with currentTime := t, planetariumRotation := rot } : Plugin).dirty = [] ∧
      (∀ gv ∈ ({ s7 with currentTime := t, planetariumRotation := rot } : Plugin).vessels,
        gv.2.state.isSync = true)) ∧
    (¬(h0 + Δt < t) → historyTime { s7 with currentTime := t, planetariumRotation := rot } = h0) := by
  obtain ⟨hu7, hd7, hk7, hi7, hr7, hc7t, hs7i, hbn7, hvk7, hck7, hht7, hcur7,
          hcel7, hves7⟩ :=
    evolveProl_post hep hvK6 hcK6 hallInit6 hcelP6 hvesP6 hsun6 hcurN6 ht0le
  have hhtf : historyTime ({ s7 with currentTime := t, planetariumRotation := rot } : Plugin) = historyTime s6 := by
    have h1 : historyTime ({ s7 with currentTime := t, planetariumRotation := rot } : Plugin) = historyTime s7 := rfl
    rw [h1, hht7]
  have hvK7 : SortedKeys (s7.vessels.map Prod.fst) := by
    rw [hvk7]
    exact hvK6
  have hcK7 : SortedKeys (s7.celestials.map Prod.fst) := by
    rw [hck7]
    exact hcK6
  have hchaseV : ∀ gv ∈ s7.vessels, ∃ v6,
      alookup gv.1 s6.vessels = some v6 ∧
      gv.2.state.isSync = v6.state.isSync ∧
      gv.2.state.isInitialized = true ∧
      gv.2.state.history = v6.state.history ∧
      gv.2.state.prolong ≠ [] ∧ lastTime gv.2.state.prolong = t := by
    intro gv hgv
    have halk7 : alookup gv.1 s7.vessels = some gv.2 :=
      alookup_of_mem hvK7.nodup hgv
    rcases hv6 : alookup gv.1 s6.vessels with _ | v6
    · exfalso
      refine (alookup_eq_none.mp hv6) ?_
      rw [← hvk7]
      exact List.mem_map_of_mem Prod.fst hgv
    · obtain ⟨v', hv', hsy, hini, hh, hp, hpl⟩ := hves7 gv.1 v6 hv6
      rw [halk7] at hv'
      injection hv' with hv'
      subst hv'
      exact ⟨v6, rfl, hsy, hini, hh, hp, hpl⟩
  have hchaseC : ∀ ic ∈ s7.celestials, ∃ c6,
      alookup ic.1 s6.celestials = some c6 ∧
      ic.2.history = c6.history ∧
      ic.2.prolong ≠ [] ∧ lastTime ic.2.prolong = t := by
    intro ic hic
    have halk7 : alookup ic.1 s7.celestials = some ic.2 :=
      alookup_of_mem hcK7.nodup hic
    rcases hc6 : alookup ic.1 s6.celestials with _ | c6
    · exfalso
      refine (alookup_eq_none.mp hc6) ?_
      rw [← hck7]
      exact List.mem_map_of_mem Prod.fst hic
    · obtain ⟨c', hc', hh, hp, hpl⟩ := hcel7 ic.1 c6 hc6
      rw [halk7] at hc'
      injection hc' with hc'
      subst hc'
      exact ⟨c6, rfl, hh, hp, hpl⟩
  have hinvf : Inv { s7 with currentTime := t, planetariumRotation := rot } := by
    refine ⟨hvK7, hcK7, ?_, ?_, ?_, ?_, ?_, ?_, ?_, ?_, ?_, ?_, ?_, ?_, ?_, ?_,
            ?_, ?_, ?_⟩
    · show SortedKeys s7.unsync
      rw [hu7]
      exact huK6
    · show SortedKeys s7.dirty
      rw [hd7]
      exact hdK6
    · show SortedKeys s7.kept
      rw [hk7, hkept6]
      exact List.Pairwise.nil
    · show s7.sunIndex ∈ s7.celestials.map Prod.fst
      rw [hs7i, hck7]
      exact hsun6
    · intro ic hic
      obtain ⟨c6, hc6, hh, _, _⟩ := hchaseC ic hic
      obtain ⟨hne, hlast⟩ := hcelH6 (ic.1, c6) (alookup_mem hc6)
      rw [hhtf]
      rw [show (({ s7 with currentTime := t, planetariumRotation := rot } : Plugin)).celestials = s7.celestials from rfl] at hic
      constructor
      · rw [hh]
        exact hne
      · rw [hh]
        exact hlast
    · intro ic hic
      obtain ⟨_, _, _, hp, hpl⟩ := hchaseC ic hic
      exact ⟨hp, hpl⟩
    · intro gv hgv _
      obtain ⟨_, _, _, _, _, hp, hpl⟩ := hchaseV gv hgv
      exact ⟨hp, hpl⟩
    · intro gv hgv hsy
      obtain ⟨v6, hv6, hsyeq, _, hh, _, _⟩ := hchaseV gv hgv
      obtain ⟨hne, hlast⟩ := hvesH6 (gv.1, v6) (alookup_mem hv6)
        (by rw [← hsyeq]; exact hsy)
      rw [hhtf]
      constructor
      · rw [hh]
        exact hne
      · rw [hh]
        exact hlast
    · intro g hg
      have hg6 : g ∈ s6.unsync := by
        rw [← hu7]
        exact hg
      obtain ⟨v, hv, hvi, hvs⟩ := hUM6 g hg6
      obtain ⟨v', hv', hsy, hini, _, _, _⟩ := hves7 g v hv
      exact ⟨v', hv', hini, hsy.trans hvs⟩
    · intro gv hgv _ hns
      obtain ⟨v6, hv6, hsyeq, _, _, _, _⟩ := hchaseV gv hgv
      have : v6.state.isSync = false := by
        rw [← hsyeq]
        exact hns
      have hmem := hUC6 (gv.1, v6) (alookup_mem hv6) this
      show gv.1 ∈ s7.unsync
      rw [hu7]
      exact hmem
    · intro g hg
      have hg6 : g ∈ s6.dirty := by
        rw [← hd7]
        exact hg
      show g ∈ s7.vessels.map Prod.fst
      rw [hvk7]
      exact hdSub6 g hg6
    · intro g hg
      have hg7 : g ∈ s7.kept := hg
      rw [hk7, hkept6] at hg7
      cases hg7
    · show historyTime _ ≤ t
      rw [hhtf]
      exact hht6le
    · show t ≤ historyTime _ + Δt
      rw [hhtf]
      exact htle
    · intro hc
      have : s7.initializing = true := hc
      rw [hi7, hini6] at this
      cases this
    · intro nx hnx
      have : s7.bubble.next = some nx := hnx
      rw [hbn7, hnext6] at this
      cases this
    · intro st hst g hg
      exact hcur7 st hst g hg
  refine ⟨hinvf, by show s7.initializing = false; rw [hi7, hini6],
          by show s7.kept = []; rw [hk7, hkept6], ?_, ?_, ?_, ?_⟩
  · intro gv hgv
    obtain ⟨_, _, _, hini, _, hp, hpl⟩ := hchaseV gv hgv
    exact ⟨hini, hp, hpl⟩
  · constructor
    · intro hlt
      rw [hhtf]
      exact hstep2 hlt
    · intro hlt
      by_contra hnst
      rw [hhtf, hstep3 hnst] at hlt
      exact lt_irrefl _ hlt
  · intro hlt
    obtain ⟨hu6, hd6, hsy6⟩ := hstep1 hlt
    refine ⟨?_, ?_, ?_⟩
    · show s7.unsync = []
      rw [hu7, hu6]
    · show s7.dirty = []
      rw [hd7, hd6]
    · intro gv hgv
      obtain ⟨v6, hv6, hsyeq, _, _, _, _⟩ := hchaseV gv hgv
      rw [hsyeq]
      exact hsy6 (gv.1, v6) (alookup_mem hv6)
  · intro hnst
    rw [hhtf]
    exact hstep3 hnst

/-- The history-step branch of `AdvanceTime`, from the synchronized state:
resetting the prolongations and evolving them to `t` produces the final
invariant-satisfying state. -/
theorem advanceTime_stepBranch {p : Params} {t rot h0 : ℚ} {s3 s5 s7 : Plugin}
    (hep : evolveProlongationsAndBubble p t (resetProlongations s5) = some s7)
    (hP5u : s5.unsync = []) (hP5d : s5.dirty = [])
    (hP5k : s5.kept = s3.kept) (hP5i : s5.initializing = s3.initializing)
    (hP5sun : s5.sunIndex = s3.sunIndex)
    (hP5next : s5.bubble.next = s3.bubble.next)
    (hP5cur : (s5.bubble.current).map BubbleState.vessels =
      (s3.bubble.current).map BubbleState.vessels)
    (hP5vk : s5.vessels.map Prod.fst = s3.vessels.map Prod.fst)
    (hP5ck : s5.celestials.map Prod.fst = s3.celestials.map Prod.fst)
    (hP5ht : historyTime s5 = historyTime s3)
    (hP5cel : ∀ i c, alookup i s3.celestials = some c → ∃ c',
      alookup i s5.celestials = some c' ∧ c'.history = c.history)
    (hP5ves : ∀ g v0, alookup g s3.vessels = some v0 → ∃ v5,
      alookup g s5.vessels = some v5 ∧ v5.state.isSync = true ∧
      v5.state.history ≠ [] ∧ lastTime v5.state.history = historyTime s3)
    (hvK3 : SortedKeys (s3.vessels.map Prod.fst))
    (hcK3 : SortedKeys (s3.celestials.map Prod.fst))
    (hsun3 : s3.sunIndex ∈ s3.celestials.map Prod.fst)
    (hcelH3 : ∀ ic ∈ s3.celestials, ic.2.history ≠ [] ∧
      lastTime ic.2.history = historyTime s3)
    (hkept3 : s3.kept = []) (hini3 : s3.initializing = false)
    (hnext3 : s3.bubble.next = none)
    (hcurN3 : ∀ st, s3.bubble.current = some st →
      (st.vessels.map Prod.fst).Nodup)
    (hstep : h0 + Δt < t) (hlt0 : h0 < historyTime s3)
    (hht3le : historyTime s3 ≤ t) (htlt : t < historyTime s3 + Δt) :
    Inv { s7 with currentTime := t, planetariumRotation := rot } ∧
    ({ s7 with currentTime := t, planetariumRotation := rot } : Plugin).initializing = false ∧
    ({ s7 with currentTime := t, planetariumRotation := rot } : Plugin).kept = [] ∧
    (∀ gv ∈ ({ s7 with currentTime := t, planetariumRotation := rot } : Plugin).vessels,
      gv.2.state.isInitialized = true ∧ gv.2.state.prolong ≠ [] ∧
      lastTime gv.2.state.prolong = t) ∧
    ((h0 + Δt < t) ↔ h0 < historyTime { s7 with currentTime := t, planetariumRotation := rot }) ∧
    (h0 + Δt < t →
      ({ s7 with currentTime := t, planetariumRotation := rot } : Plugin).unsync = [] ∧
      ({ s7 with currentTime := t, planetariumRotation := rot } : Plugin).dirty = [] ∧
      (∀ gv ∈ ({ s7 with currentTime := t, planetariumRotation := rot } : Plugin).vessels,
        gv.2.state.isSync = true)) ∧
    (¬(h0 + Δt < t) → historyTime { s7 with currentTime := t, planetariumRotation := rot } = h0) := by
  obtain ⟨hRvk, hRves, hRcel, hRck, hRu, hRd, hRk, hRb, hRi, hRrot, hRct,
          hRsun, hRht⟩ := resetProlongations_char s5
  have hht6 : historyTime (resetProlongations s5) = historyTime s3 :=
    hRht.trans hP5ht
  have hvK6 : SortedKeys ((resetProlongations s5).vessels.map Prod.fst) := by
    rw [hRvk, hP5vk]
    exact hvK3
  have hcK6 : SortedKeys ((resetProlongations s5).celestials.map Prod.fst) := by
    rw [hRck, hP5ck]
    exact hcK3
  have hu6 : (resetProlongations s5).unsync = [] := hRu.trans hP5u
  have hd6 : (resetProlongations s5).dirty = [] := hRd.trans hP5d
  have hchase6 : ∀ gv ∈ (resetProlongations s5).vessels,
      gv.2.state.isSync = true ∧ gv.2.state.isInitialized = true ∧
      gv.2.state.history ≠ [] ∧
      lastTime gv.2.state.history = historyTime s3 ∧
      gv.2.state.prolong = gv.2.state.history := by
    intro gv hgv
    have halk : alookup gv.1 (resetProlongations s5).vessels = some gv.2 :=
      alookup_of_mem hvK6.nodup hgv
    rw [hRves gv.1] at halk
    rcases hv5 : alookup gv.1 s5.vessels with _ | v5
    · rw [hv5] at halk
      cases halk
    · rw [hv5] at halk
      injection halk with halk
      rcases hv3 : alookup gv.1 s3.vessels with _ | v3
      · exfalso
        refine (alookup_eq_none.mp hv3) ?_
        rw [← hP5vk]
        exact alookup_some_mem_keys hv5
      · obtain ⟨v5', hv5', hsy, hne, hlast⟩ := hP5ves gv.1 v3 hv3
        rw [hv5] at hv5'
        injection hv5' with hv5'
        subst hv5'
        have hgv2 : gv.2 = { v5 with state := v5.state.reset } := halk.symm
        rw [hgv2]
        refine ⟨by simpa using hsy, by simp [isInit_of_isSync hsy], ?_, ?_, ?_⟩
        · show v5.state.reset.history ≠ []
          rw [reset_history]
          exact hne
        · show lastTime v5.state.reset.history = _
          rw [reset_history]
          exact hlast
        · show v5.state.reset.prolong = v5.state.reset.history
          rw [reset_history, reset_prolong_of_sync hsy]
  have hchaseC6 : ∀ ic ∈ (resetProlongations s5).celestials,
      ic.2.history ≠ [] ∧ lastTime ic.2.history = historyTime s3 ∧
      ic.2.prolong = ic.2.history := by
    intro ic hic
    have halk : alookup ic.1 (resetProlongations s5).celestials = some ic.2 :=
      alookup_of_mem hcK6.nodup hic
    rw [hRcel ic.1] at halk
    rcases hc5 : alookup ic.1 s5.celestials with _ | c5
    · rw [hc5] at halk
      cases halk
    · rw [hc5] at halk
      injection halk with halk
      rcases hc3 : alookup ic.1 s3.celestials with _ | c3
      · exfalso
        refine (alookup_eq_none.mp hc3) ?_
        rw [← hP5ck]
        exact alookup_some_mem_keys hc5
      · obtain ⟨c5', hc5', hh⟩ := hP5cel ic.1 c3 hc3
        rw [hc5] at hc5'
        injection hc5' with hc5'
        subst hc5'
        obtain ⟨hne3, hlast3⟩ := hcelH3 (ic.1, c3) (alookup_mem hc3)
        have hic2 : ic.2 = { c5 with prolong := c5.history } := halk.symm
        rw [hic2]
        exact ⟨by show c5.history ≠ []; rw [hh]; exact hne3,
               by show lastTime c5.history = _; rw [hh]; exact hlast3,
               rfl⟩
  refine @advanceTime_tail p t rot (historyTime s3) h0 (resetProlongations s5)
    s7 hep hvK6 hcK6 (by rw [hu6]; exact List.Pairwise.nil)
    (by rw [hd6]; exact List.Pairwise.nil) ?_ ?_ ?_ ?_ ?_ ?_ ?_ ?_ ?_ ?_ ?_
    ?_ ?_ ?_ ?_ ?_ ?_ ?_ ?_
  · show (resetProlongations s5).sunIndex ∈
      (resetProlongations s5).celestials.map Prod.fst
    rw [hRsun, hP5sun, hRck, hP5ck]
    exact hsun3
  · exact (hRk.trans hP5k).trans hkept3
  · exact (hRi.trans hP5i).trans hini3
  · show (resetProlongations s5).bubble.next = none
    rw [hRb, hP5next, hnext3]
  · intro st hst
    rw [hRb] at hst
    rcases hc3 : s3.bubble.current with _ | st3
    · exfalso
      rw [hst, hc3] at hP5cur
      simp at hP5cur
    · rw [hst, hc3] at hP5cur
      simp only [Option.map_some'] at hP5cur
      injection hP5cur with hP5cure
      rw [hP5cure]
      exact hcurN3 st3 hc3
  · intro gv hgv
    exact (hchase6 gv hgv).2.1
  · intro gv hgv
    obtain ⟨_, _, hne, hlast, hpe⟩ := hchase6 gv hgv
    rw [hpe]
    exact ⟨hne, hlast⟩
  · intro ic hic
    obtain ⟨hne, hlast, hpe⟩ := hchaseC6 ic hic
    rw [hpe]
    exact ⟨hne, hlast⟩
  · intro ic hic
    obtain ⟨hne, hlast, _⟩ := hchaseC6 ic hic
    rw [hht6]
    exact ⟨hne, hlast⟩
  · intro gv hgv _
    obtain ⟨_, _, hne, hlast, _⟩ := hchase6 gv hgv
    rw [hht6]
    exact ⟨hne, hlast⟩
  · intro g hg
    rw [hu6] at hg
    cases hg
  · intro gv hgv hns
    have := (hchase6 gv hgv).1
    rw [hns] at this
    cases this
  · intro g hg
    rw [hd6] at hg
    cases hg
  · exact hht3le
  · rw [hht6]
    exact hht3le
  · rw [hht6]
    exact le_of_lt htlt
  · intro _
    exact ⟨hu6, hd6, fun gv hgv => (hchase6 gv hgv).1⟩
  · intro _
    rw [hht6]
    exact hlt0
  · intro hn
    exact absurd hstep hn

/-- Full characterization of a successful `Plugin::AdvanceTime` call: the
invariant is preserved, the new `current_time` and rotation are stored,
every vessel's prolongation ends at `t`, and a history step happens if,
and only if, `HistoryTime() + Δt < t` (note: strictly less, plugin.cpp:429)
— in which case the scheduler sets are emptied and everything is
synchronized. -/
theorem advanceTime_spec {p : Params} {t rot : ℚ} {s sf : Plugin}
    (hinv : Inv s) (h : advanceTime p t rot s = some sf) :
    Inv sf ∧ sf.currentTime = t ∧ sf.planetariumRotation = rot ∧
    sf.initializing = false ∧ s.currentTime < t ∧ sf.kept = [] ∧
    (∀ gv ∈ sf.vessels, gv.2.state.isInitialized = true ∧
      gv.2.state.prolong ≠ [] ∧ lastTime gv.2.state.prolong = t) ∧
    ((historyTime s + Δt < t) ↔ historyTime s < historyTime sf) ∧
    (historyTime s + Δt < t → sf.unsync = [] ∧ sf.dirty = [] ∧
      (∀ gv ∈ sf.vessels, gv.2.state.isSync = true)) ∧
    (¬(historyTime s + Δt < t) → historyTime sf = historyTime s) := by
  unfold advanceTime at h
  by_cases hini : s.initializing = true
  · rw [if_pos hini] at h
    exact Option.noConfusion h
  · rw [if_neg hini] at h
    by_cases hct : s.currentTime < t
    · rw [if_pos hct] at h
      rcases hcu : cleanUpVessels s with _ | s1
      · rw [hcu] at h
        exact Option.noConfusion h
      · rw [hcu] at h
        have hinifalse : s.initializing = false := by
          cases hx : s.initializing
          · rfl
          · exact absurd hx hini
        obtain ⟨hvK1, hcel1e, hbub1, hini1, hrot1, hct1, hsun1, hht1, hkept1,
                huK1, hdK1, hvmem1, hinit1, hUM1, hUC1, hdSub1⟩ :=
          cleanUp_post hinv hcu
        obtain ⟨hnx2, hcur2n, hcur2s, hves2, hcel2, hun2, hdi2, hkept2, hini2,
                hrot2, hct2, hsun2⟩ := bubblePrepare_char p t s1
        have hht2 : historyTime (bubblePrepare p t s1) = historyTime s :=
          (historyTime_bubblePrepare p t s1).trans hht1
        have hcel2s : (bubblePrepare p t s1).celestials = s.celestials :=
          hcel2.trans hcel1e
        have hct2s : (bubblePrepare p t s1).currentTime = s.currentTime :=
          hct2.trans hct1
        have hvK2 : SortedKeys
            ((bubblePrepare p t s1).vessels.map Prod.fst) := by
          rw [hves2]
          exact hvK1
        have hcK2 : SortedKeys
            ((bubblePrepare p t s1).celestials.map Prod.fst) := by
          rw [hcel2s]
          exact hinv.cKeys
        have hsun2m : (bubblePrepare p t s1).sunIndex ∈
            (bubblePrepare p t s1).celestials.map Prod.fst := by
          rw [hsun2.trans hsun1, hcel2s]
          exact hinv.sunMem
        have hcelH2 : ∀ ic ∈ (bubblePrepare p t s1).celestials,
            ic.2.history ≠ [] ∧
            lastTime ic.2.history = historyTime (bubblePrepare p t s1) := by
          intro ic hic
          rw [hcel2s] at hic
          rw [hht2]
          exact hinv.celH ic hic
        have hcelP2 : ∀ ic ∈ (bubblePrepare p t s1).celestials,
            ic.2.prolong ≠ [] ∧ lastTime ic.2.prolong = s.currentTime := by
          intro ic hic
          rw [hcel2s] at hic
          exact hinv.celP ic hic
        have hallInit2 : ∀ gv ∈ (bubblePrepare p t s1).vessels,
            gv.2.state.isInitialized = true := by
          intro gv hgv
          rw [hves2] at hgv
          exact hinit1 gv hgv
        have hvesP2 : ∀ gv ∈ (bubblePrepare p t s1).vessels,
            gv.2.state.prolong ≠ [] ∧
            lastTime gv.2.state.prolong = s.currentTime := by
          intro gv hgv
          rw [hves2] at hgv
          exact hinv.vesP gv (hvmem1 gv hgv) (hinit1 gv hgv)
        have hvesH2 : ∀ gv ∈ (bubblePrepare p t s1).vessels,
            gv.2.state.isSync = true → gv.2.state.history ≠ [] ∧
            lastTime gv.2.state.history = historyTime (bubblePrepare p t s1) := by
          intro gv hgv hsy
          rw [hves2] at hgv
          rw [hht2]
          exact hinv.vesH gv (hvmem1 gv hgv) hsy
        have hUM2 : ∀ g ∈ (bubblePrepare p t s1).unsync, ∃ v,
            alookup g (bubblePrepare p t s1).vessels = some v ∧
            v.state.isInitialized = true ∧ v.state.isSync = false := by
          intro g hg
          rw [hun2] at hg
          obtain ⟨v, hv, hvi, hvs⟩ := hUM1 g hg
          refine ⟨v, ?_, hvi, hvs⟩
          rw [hves2]
          exact hv
        have hUC2 : ∀ gv ∈ (bubblePrepare p t s1).vessels,
            gv.2.state.isSync = false →
            gv.1 ∈ (bubblePrepare p t s1).unsync := by
          intro gv hgv hns
          rw [hves2] at hgv
          rw [hun2]
          exact hUC1 gv hgv hns
        have hdSub2 : ∀ g ∈ (bubblePrepare p t s1).dirty,
            g ∈ (bubblePrepare p t s1).vessels.map Prod.fst := by
          intro g hg
          rw [hdi2] at hg
          rw [hves2]
          exact hdSub1 g hg
        have huK2 : SortedKeys (bubblePrepare p t s1).unsync := by
          rw [hun2]
          exact huK1
        have hdK2 : SortedKeys (bubblePrepare p t s1).dirty := by
          rw [hdi2]
          exact hdK1
        have hkept2e : (bubblePrepare p t s1).kept = [] :=
          hkept2.trans hkept1
        have hini2e : (bubblePrepare p t s1).initializing = false :=
          (hini2.trans hini1).trans hinifalse
        have hcurN2 : ∀ st, (bubblePrepare p t s1).bubble.current = some st →
            (st.vessels.map Prod.fst).Nodup := by
          intro st hst
          rcases hnx1 : s1.bubble.next with _ | nx
          · rw [hcur2n hnx1] at hst
            cases hst
          · obtain ⟨st0, hst0, hkeys0, _, _⟩ := hcur2s nx hnx1
            rw [hst0] at hst
            injection hst with hst
            subst hst
            rw [hkeys0]
            have hnxs : s.bubble.next = some nx := by
              rw [← hbub1]
              exact hnx1
            exact (hinv.nextInv nx hnxs).1
        have h2 : (match (if historyTime (bubblePrepare p t s1) + Δt < t then
            (match (if (evolveHistories p t (bubblePrepare p t s1)).unsync ≠ [] ∨
                (evolveHistories p t (bubblePrepare p t s1)).dirty ≠ [] ∨
                bubbleEmpty (evolveHistories p t (bubblePrepare p t s1)) = false then
                synchronizeNewVesselsAndCleanDirtyVessels p
                  (evolveHistories p t (bubblePrepare p t s1))
              else some (evolveHistories p t (bubblePrepare p t s1))) with
              | none => none
              | some s5 => some (resetProlongations s5))
          else some (bubblePrepare p t s1)) with
          | none => (none : Option Plugin)
          | some s6 =>
            (match evolveProlongationsAndBubble p t s6 with
              | none => none
              | some s7 =>
                some { s7 with currentTime := t, planetariumRotation := rot })) = some sf := h
        by_cases hstep' : historyTime (bubblePrepare p t s1) + Δt < t
        · rw [if_pos hstep'] at h2
          have hstepS : historyTime s + Δt < t := by
            rw [← hht2]
            exact hstep'
          obtain ⟨hu3, hd3, hk3, hi3, hr3, hct3, hsun3e, hbub3, hvk3, hck3,
                  hht3, hlt3, hle3, hlt4, hcelfact3, hvesfact3⟩ :=
            evolveHistories_post rfl rfl hcK2 hvK2 hsun2m hcelH2 hstep'
          have hvK3 : SortedKeys
              ((evolveHistories p t (bubblePrepare p t s1)).vessels.map
                Prod.fst) := by
            rw [hvk3]
            exact hvK2
          have hcK3 : SortedKeys
              ((evolveHistories p t (bubblePrepare p t s1)).celestials.map
                Prod.fst) := by
            rw [hck3]
            exact hcK2
          have hbc3 : ∀ g, bubbleContains
              (evolveHistories p t (bubblePrepare p t s1)) g =
              bubbleContains (bubblePrepare p t s1) g := by
            intro g
            unfold bubbleContains
            rw [hbub3]
          have hchase3 : ∀ gv ∈
              (evolveHistories p t (bubblePrepare p t s1)).vessels, ∃ v2,
              alookup gv.1 (bubblePrepare p t s1).vessels = some v2 ∧
              gv.2.state.isSync = v2.state.isSync ∧
              gv.2.state.isInitialized = v2.state.isInitialized ∧
              gv.2.state.prolong = v2.state.prolong ∧
              (¬(v2.state.isSync = true ∧
                  bubbleContains (bubblePrepare p t s1) gv.1 = false ∧
                  gv.1 ∉ (bubblePrepare p t s1).dirty) →
                gv.2.state.history = v2.state.history) ∧
              ((v2.state.isSync = true ∧
                  bubbleContains (bubblePrepare p t s1) gv.1 = false ∧
                  gv.1 ∉ (bubblePrepare p t s1).dirty) →
                gv.2.state.history ≠ [] ∧
                lastTime gv.2.state.history =
                  historyTime (bubblePrepare p t s1) +
                    (stepCount (historyTime (bubblePrepare p t s1)) t : ℚ) * Δt) := by
            intro gv hgv
            have halk3 : alookup gv.1
                (evolveHistories p t (bubblePrepare p t s1)).vessels =
                some gv.2 := alookup_of_mem hvK3.nodup hgv
            rcases halk2 : alookup gv.1 (bubblePrepare p t s1).vessels
              with _ | v2
            · exfalso
              refine (alookup_eq_none.mp halk2) ?_
              rw [← hvk3]
              exact List.mem_map_of_mem Prod.fst hgv
            · obtain ⟨v', hv', hsy, hini', hp, hnel, hel⟩ :=
                hvesfact3 gv.1 v2 halk2
              rw [halk3] at hv'
              injection hv' with hv'
              subst hv'
              exact ⟨v2, rfl, hsy, hini', hp, hnel, hel⟩
          have hUC3 : ∀ gv ∈
              (evolveHistories p t (bubblePrepare p t s1)).vessels,
              gv.2.state.isSync = false →
              gv.1 ∈ (evolveHistories p t (bubblePrepare p t s1)).unsync := by
            intro gv hgv hns
            obtain ⟨v2, hv2, hsy, _, _, _, _⟩ := hchase3 gv hgv
            rw [hu3]
            refine hUC2 (gv.1, v2) (alookup_mem hv2) ?_
            rw [← hsy]
            exact hns
          have hUM3 : ∀ g ∈
              (evolveHistories p t (bubblePrepare p t s1)).unsync, ∃ v,
              alookup g (evolveHistories p t (bubblePrepare p t s1)).vessels =
                some v ∧ v.state.isSync = false := by
            intro g hg
            rw [hu3] at hg
            obtain ⟨v, hv, _, hvs⟩ := hUM2 g hg
            obtain ⟨v', hv', hsy, _, _, _, _⟩ := hvesfact3 g v hv
            exact ⟨v', hv', hsy.trans hvs⟩
          have hcurN3 : ∀ st,
              (evolveHistories p t (bubblePrepare p t s1)).bubble.current =
                some st → (st.vessels.map Prod.fst).Nodup := by
            intro st hst
            rw [hbub3] at hst
            exact hcurN2 st hst
          have hvesH3 : ∀ gv ∈
              (evolveHistories p t (bubblePrepare p t s1)).vessels,
              gv.2.state.isSync = true →
              bubbleContains (evolveHistories p t (bubblePrepare p t s1)) gv.1
                = false →
              gv.1 ∉ (evolveHistories p t (bubblePrepare p t s1)).dirty →
              gv.2.state.history ≠ [] ∧ lastTime gv.2.state.history =
                historyTime (evolveHistories p t (bubblePrepare p t s1)) := by
            intro gv hgv hsy hbc hnd
            obtain ⟨v2, hv2, hsyeq, _, _, _, hel⟩ := hchase3 gv hgv
            rw [hht3]
            refine hel ⟨by rw [← hsyeq]; exact hsy, ?_, ?_⟩
            · rw [← hbc3 gv.1]
              exact hbc
            · rw [← hd3]
              exact hnd
          have hcelH3 : ∀ ic ∈
              (evolveHistories p t (bubblePrepare p t s1)).celestials,
              ic.2.history ≠ [] ∧ lastTime ic.2.history =
                historyTime (evolveHistories p t (bubblePrepare p t s1)) := by
            intro ic hic
            have halk3 : alookup ic.1
                (evolveHistories p t (bubblePrepare p t s1)).celestials =
                some ic.2 := alookup_of_mem hcK3.nodup hic
            rcases halk2 : alookup ic.1 (bubblePrepare p t s1).celestials
              with _ | c2
            · exfalso
              refine (alookup_eq_none.mp halk2) ?_
              rw [← hck3]
              exact List.mem_map_of_mem Prod.fst hic
            · obtain ⟨c', hc', _, hne, hlast⟩ := hcelfact3 ic.1 c2 halk2
              rw [halk3] at hc'
              injection hc' with hc'
              subst hc'
              rw [hht3]
              exact ⟨hne, hlast⟩
          have hkept3e : (evolveHistories p t (bubblePrepare p t s1)).kept
              = [] := hk3.trans hkept2e
          have hini3e : (evolveHistories p t (bubblePrepare p t s1)).initializing
              = false := hi3.trans hini2e
          have hnext3 : (evolveHistories p t (bubblePrepare p t s1)).bubble.next
              = none := by
            rw [hbub3]
            exact hnx2
          have hsun3m : (evolveHistories p t (bubblePrepare p t s1)).sunIndex ∈
              (evolveHistories p t (bubblePrepare p t s1)).celestials.map
                Prod.fst := by
            rw [hsun3e, hck3]
            exact hsun2m
          have hlt0 : historyTime s <
              historyTime (evolveHistories p t (bubblePrepare p t s1)) := by
            rw [hht3, ← hht2]
            exact hlt3
          have hht3le : historyTime (evolveHistories p t (bubblePrepare p t s1))
              ≤ t := by
            rw [hht3]
            exact hle3
          have htlt4 : t <
              historyTime (evolveHistories p t (bubblePrepare p t s1)) + Δt := by
            rw [hht3]
            exact hlt4
          by_cases hguard : (evolveHistories p t (bubblePrepare p t s1)).unsync
              ≠ [] ∨ (evolveHistories p t (bubblePrepare p t s1)).dirty ≠ [] ∨
              bubbleEmpty (evolveHistories p t (bubblePrepare p t s1)) = false
          · rw [if_pos hguard] at h2
            rcases hsy : synchronizeNewVesselsAndCleanDirtyVessels p
                (evolveHistories p t (bubblePrepare p t s1)) with _ | s5x
            · rw [hsy] at h2
              exact Option.noConfusion h2
            · rw [hsy] at h2
              have h3 : (match evolveProlongationsAndBubble p t
                  (resetProlongations s5x) with
                | none => none
                | some s7 => some { s7 with currentTime := t, planetariumRotation := rot }) = some sf := h2
              rcases hep : evolveProlongationsAndBubble p t
                  (resetProlongations s5x) with _ | s7
              · rw [hep] at h3
                exact Option.noConfusion h3
              · rw [hep] at h3
                injection h3 with h3
                subst h3
                obtain ⟨hS5u, hS5d, hS5k, hS5i, hS5r, hS5ct, hS5sun, hS5next,
                        hS5cur, hS5vk, hS5ck, hS5ht, hS5cel, hS5ves⟩ :=
                  synchronize_post hsy hvK3 hcK3
                    (by rw [hu3]; exact huK2) (by rw [hd3]; exact hdK2)
                    hUM3 hUC3 hcurN3 hvesH3
                obtain ⟨hI, hIni, hK, hV, hIff, hS, hN⟩ :=
                  advanceTime_stepBranch hep hS5u hS5d hS5k hS5i hS5sun
                    hS5next hS5cur hS5vk hS5ck hS5ht hS5cel hS5ves
                    hvK3 hcK3 hsun3m hcelH3 hkept3e hini3e hnext3 hcurN3
                    hstepS hlt0 hht3le htlt4
                exact ⟨hI, rfl, rfl, hIni, hct, hK, hV, hIff, hS, hN⟩
          · rw [if_neg hguard] at h2
            have h3 : (match evolveProlongationsAndBubble p t
                (resetProlongations (evolveHistories p t (bubblePrepare p t s1))) with
              | none => none
              | some s7 => some { s7 with currentTime := t, planetariumRotation := rot }) = some sf := h2
            rcases hep : evolveProlongationsAndBubble p t
                (resetProlongations (evolveHistories p t (bubblePrepare p t s1)))
              with _ | s7
            · rw [hep] at h3
              exact Option.noConfusion h3
            · rw [hep] at h3
              injection h3 with h3
              subst h3
              have hga := not_or.mp hguard
              have hgbc := not_or.mp hga.2
              have hP5u : (evolveHistories p t (bubblePrepare p t s1)).unsync
                  = [] := not_not.mp hga.1
              have hP5d : (evolveHistories p t (bubblePrepare p t s1)).dirty
                  = [] := not_not.mp hgbc.1
              have hbe3 : bubbleEmpty (evolveHistories p t (bubblePrepare p t s1))
                  = true := by
                cases hx : bubbleEmpty (evolveHistories p t (bubblePrepare p t s1))
                · exact absurd hx hgbc.2
                · rfl
              have hP5ves : ∀ g v0,
                  alookup g (evolveHistories p t (bubblePrepare p t s1)).vessels
                    = some v0 → ∃ v5,
                  alookup g (evolveHistories p t (bubblePrepare p t s1)).vessels
                    = some v5 ∧ v5.state.isSync = true ∧
                  v5.state.history ≠ [] ∧ lastTime v5.state.history =
                    historyTime (evolveHistories p t (bubblePrepare p t s1)) := by
                intro g v0 hv0
                have hsy0 : v0.state.isSync = true := by
                  cases hx : v0.state.isSync
                  · exfalso
                    have := hUC3 (g, v0) (alookup_mem hv0) hx
                    rw [hP5u] at this
                    cases this
                  · rfl
                have hbc0 : bubbleContains
                    (evolveHistories p t (bubblePrepare p t s1)) g = false :=
                  bubbleContains_of_empty hbe3 g
                have hnd0 : g ∉ (evolveHistories p t (bubblePrepare p t s1)).dirty := by
                  rw [hP5d]
                  exact List.not_mem_nil g
                obtain ⟨hne, hlast⟩ := hvesH3 (g, v0) (alookup_mem hv0)
                  hsy0 hbc0 hnd0
                exact ⟨v0, hv0, hsy0, hne, hlast⟩
              obtain ⟨hI, hIni, hK, hV, hIff, hS, hN⟩ :=
                advanceTime_stepBranch hep hP5u hP5d rfl rfl rfl rfl rfl rfl
                  rfl rfl (fun i c hc => ⟨c, hc, rfl⟩) hP5ves
                  hvK3 hcK3 hsun3m hcelH3 hkept3e hini3e hnext3 hcurN3
                  hstepS hlt0 hht3le htlt4
              exact ⟨hI, rfl, rfl, hIni, hct, hK, hV, hIff, hS, hN⟩
        · rw [if_neg hstep'] at h2
          have hstepS : ¬(historyTime s + Δt < t) := by
            rw [← hht2]
            exact hstep'
          have h3 : (match evolveProlongationsAndBubble p t
              (bubblePrepare p t s1) with
            | none => none
            | some s7 => some { s7 with currentTime := t, planetariumRotation := rot }) = some sf := h2
          rcases hep : evolveProlongationsAndBubble p t (bubblePrepare p t s1)
            with _ | s7
          · rw [hep] at h3
            exact Option.noConfusion h3
          · rw [hep] at h3
            injection h3 with h3
            subst h3
            obtain ⟨hI, hIni, hK, hV, hIff, hS, hN⟩ :=
              @advanceTime_tail p t rot s.currentTime (historyTime s)
                (bubblePrepare p t s1) s7 hep hvK2 hcK2 huK2 hdK2 hsun2m
                hkept2e hini2e hnx2 hcurN2 hallInit2 hvesP2 hcelP2 hcelH2
                hvesH2 hUM2 hUC2 hdSub2 (le_of_lt hct)
                (by rw [hht2]; exact hinv.timeLB.trans (le_of_lt hct))
                (not_lt.mp hstep')
                (fun hlt => absurd hlt hstepS)
                (fun hlt => absurd hlt hstepS)
                (fun _ => hht2)
            exact ⟨hI, rfl, rfl, hIni, hct, hK, hV, hIff, hS, hN⟩
    · rw [if_neg hct] at h
      exact Option.noConfusion h

/-! ### Reachability through the public interface -/

/-- The plugin states reachable by a sequence of successful public calls
starting from the constructor. -/
inductive Reachable : Plugin → Prop where
  | new (t0 : ℚ) (sunIdx : Index) (μ rot : ℚ) :
      Reachable (newPlugin t0 sunIdx μ rot)
  | insertCel {s s2 : Plugin} (p : Params) (idx : Index) (μ : ℚ)
      (parentIdx : Index) (d : Dof) (hr : Reachable s)
      (h : insertCelestial p idx μ parentIdx d s = some s2) : Reachable s2
  | endInit {s : Plugin} (hr : Reachable s) : Reachable (endInitialization s)
  | updateHier {s s2 : Plugin} (idx parentIdx : Index) (hr : Reachable s)
      (h : updateCelestialHierarchy idx parentIdx s = some s2) : Reachable s2
  | insertVessel {s s2 : Plugin} {b : Bool} (g : GUID) (parentIdx : Index)
      (hr : Reachable s) (h : insertOrKeepVessel g parentIdx s = some (s2, b)) :
      Reachable s2
  | setOffset {s s2 : Plugin} (p : Params) (g : GUID) (d : Dof)
      (hr : Reachable s) (h : setVesselStateOffset p g d s = some s2) :
      Reachable s2
  | addBubble {s s2 : Plugin} (g : GUID) (parts : List Part) (hr : Reachable s)
      (h : addVesselToNextPhysicsBubble g parts s = some s2) : Reachable s2
  | advance {s s2 : Plugin} (p : Params) (t rot : ℚ) (hr : Reachable s)
      (h : advanceTime p t rot s = some s2) : Reachable s2

/-- Every reachable state satisfies the plugin invariant. -/
theorem invOfReachable {s : Plugin} (h : Reachable s) : Inv s := by
  induction h with
  | new t0 sunIdx μ rot => exact inv_newPlugin t0 sunIdx μ rot
  | insertCel p idx μ parentIdx d hr h ih => exact inv_insertCelestial ih h
  | endInit hr ih => exact inv_endInitialization ih
  | updateHier idx parentIdx hr h ih =>
    exact inv_updateCelestialHierarchy ih h
  | insertVessel g parentIdx hr h ih => exact inv_insertOrKeepVessel ih h
  | setOffset p g d hr h ih => exact inv_setVesselStateOffset ih h
  | addBubble g parts hr h ih => exact inv_addVesselToNextPhysicsBubble ih h
  | advance p t rot hr h ih => exact (advanceTime_spec ih h).1

/-! ### Success of the synchronization folds

Each `CHECK` inside the folds succeeds when the scheduler invariants hold,
so the folds return `some`. -/

theorem bubbleAppendFold_some {t : ℚ} {comDof : Dof} :
    ∀ {L : List (GUID × Dof)} {s : Plugin},
      (∀ gp ∈ L, gp.1 ∈ s.vessels.map Prod.fst) →
      ∃ s2, bubbleAppendFold t comDof s L = some s2
  | [], s, _ => ⟨s, rfl⟩
  | gp :: rest, s, hall => by
    rcases hv : alookup gp.1 s.vessels with _ | v
    · exact absurd (hall gp (List.mem_cons_self gp rest))
        (alookup_eq_none.mp hv)
    · have hone : bubbleAppendOne t comDof s gp = some { s with
          vessels := aupdate gp.1 (fun v0 => { v0 with
            state := v0.state.setProlong
              (v0.state.prolong ++ [(t, comDof + gp.2)]) }) s.vessels } := by
        unfold bubbleAppendOne
        rw [hv]
      obtain ⟨s2, hs2⟩ := @bubbleAppendFold_some t comDof rest
        { s with vessels := aupdate gp.1 (fun v0 => { v0 with
            state := v0.state.setProlong
              (v0.state.prolong ++ [(t, comDof + gp.2)]) }) s.vessels }
        (fun gp2 hgp2 => by
          show gp2.1 ∈ (aupdate gp.1 _ s.vessels).map Prod.fst
          rw [keys_aupdate]
          exact hall gp2 (List.mem_cons_of_mem gp hgp2))
      refine ⟨s2, ?_⟩
      unfold bubbleAppendFold
      rw [hone]
      exact hs2

theorem syncUnsyncFold_some {hT : ℚ} :
    ∀ {L : List GUID} {s : Plugin}, SortedKeys s.dirty → L.Nodup →
      (∀ g ∈ L, bubbleContains s g = false ∧ g ∈ s.vessels.map Prod.fst) →
      ∃ s2, syncUnsyncFold hT s L = some s2
  | [], s, _, _, _ => ⟨s, rfl⟩
  | g :: rest, s, hD, hnd, hall => by
    obtain ⟨hbc, hmem⟩ := hall g (List.mem_cons_self g rest)
    rcases hv : alookup g s.vessels with _ | v
    · exact absurd hmem (alookup_eq_none.mp hv)
    · have hone0 : ∃ s1, syncUnsyncOne hT s g = some s1 := by
        unfold syncUnsyncOne
        rw [if_neg (by rw [hbc]; exact Bool.false_ne_true), hv]
        exact ⟨_, rfl⟩
      obtain ⟨s1, hone⟩ := hone0
      obtain ⟨hse1, hkeys1, _, _, _, _, hD1⟩ := syncUnsyncOne_char hone hD
      obtain ⟨s2, hs2⟩ := syncUnsyncFold_some hD1 (List.nodup_cons.mp hnd).2
        (fun g2 hg2 => by
          have hb2 : bubbleContains s1 g2 = bubbleContains s g2 := by
            unfold bubbleContains
            rw [hse1.bubble]
          rw [hb2, hkeys1]
          exact hall g2 (List.mem_cons_of_mem g hg2))
      refine ⟨s2, ?_⟩
      unfold syncUnsyncFold
      rw [hone]
      exact hs2

theorem cleanDirtyFold_some {hT : ℚ} :
    ∀ {L : List GUID} {s : Plugin}, L.Nodup →
      (∀ g ∈ L, ∃ v, alookup g s.vessels = some v ∧
        v.state.isSync = true ∧ bubbleContains s g = false) →
      ∃ s2, cleanDirtyFold hT s L = some s2
  | [], s, _, _ => ⟨s, rfl⟩
  | g :: rest, s, hnd, hall => by
    obtain ⟨v, hv, hsy, hbc⟩ := hall g (List.mem_cons_self g rest)
    obtain ⟨vp, vst⟩ := v
    rcases vst with _ | pr | ⟨hh, hp⟩
    · exact Bool.noConfusion hsy
    · exact Bool.noConfusion hsy
    · have hone0 : ∃ s1, cleanDirtyOne hT s g = some s1 := by
        unfold cleanDirtyOne
        rw [if_neg (by rw [hbc]; exact Bool.false_ne_true), hv]
        exact ⟨_, rfl⟩
      obtain ⟨s1, hone⟩ := hone0
      obtain ⟨hse1, hkeys1, _, hoth1, _, _⟩ := cleanDirtyOne_char hone
      have hgrest : g ∉ rest := (List.nodup_cons.mp hnd).1
      obtain ⟨s2, hs2⟩ := cleanDirtyFold_some (List.nodup_cons.mp hnd).2
        (fun g2 hg2 => by
          obtain ⟨v2, hv2, hsy2, hbc2⟩ := hall g2 (List.mem_cons_of_mem g hg2)
          have hg2ne : g2 ≠ g := fun hc => hgrest (hc ▸ hg2)
          refine ⟨v2, ?_, hsy2, ?_⟩
          · rw [hoth1 g2 hg2ne]
            exact hv2
          · have hb2 : bubbleContains s1 g2 = bubbleContains s g2 := by
              unfold bubbleContains
              rw [hse1.bubble]
            rw [hb2]
            exact hbc2)
      refine ⟨s2, ?_⟩
      unfold cleanDirtyFold
      rw [hone]
      exact hs2

theorem syncBubbleFold_some {hT : ℚ} {comDof : Dof} :
    ∀ {L : List (GUID × Dof)} {s : Plugin},
      SortedKeys s.unsync → SortedKeys s.dirty → (L.map Prod.fst).Nodup →
      (∀ g ∈ s.unsync, ∃ v, alookup g s.vessels = some v ∧
        v.state.isSync = false) →
      (∀ gp ∈ L, ∃ v, alookup gp.1 s.vessels = some v ∧ gp.1 ∈ s.dirty ∧
        (v.state.isSync = false → gp.1 ∈ s.unsync)) →
      ∃ s2, syncBubbleFold hT comDof s L = some s2
  | [], s, _, _, _, _, _ => ⟨s, rfl⟩
  | gp :: rest, s, hU, hD, hnd, hUM, hall => by
    obtain ⟨v, hv, hdi, hun⟩ := hall gp (List.mem_cons_self gp rest)
    obtain ⟨vp, vst⟩ := v
    have hone : ∃ s1, syncBubbleOne hT comDof s gp = some s1 := by
      unfold syncBubbleOne
      rw [hv]
      rcases vst with _ | pr | ⟨hh, hp⟩
      · have hunm : gp.1 ∈ s.unsync := hun rfl
        refine ⟨{ s with vessels := aupdate gp.1 (fun v0 => { v0 with state := VState.sync [(hT, comDof + gp.2)] [(hT, comDof + gp.2)] }) s.vessels, unsync := s.unsync.erase gp.1, dirty := s.dirty.erase gp.1 }, ?_⟩
        show (if gp.1 ∈ s.unsync then if gp.1 ∈ s.dirty then some { s with vessels := aupdate gp.1 (fun v0 => { v0 with state := VState.sync [(hT, comDof + gp.2)] [(hT, comDof + gp.2)] }) s.vessels, unsync := s.unsync.erase gp.1, dirty := s.dirty.erase gp.1 } else none else none) = _
        rw [if_pos hunm, if_pos hdi]
      · have hunm : gp.1 ∈ s.unsync := hun rfl
        refine ⟨{ s with vessels := aupdate gp.1 (fun v0 => { v0 with state := VState.sync [(hT, comDof + gp.2)] [(hT, comDof + gp.2)] }) s.vessels, unsync := s.unsync.erase gp.1, dirty := s.dirty.erase gp.1 }, ?_⟩
        show (if gp.1 ∈ s.unsync then if gp.1 ∈ s.dirty then some { s with vessels := aupdate gp.1 (fun v0 => { v0 with state := VState.sync [(hT, comDof + gp.2)] [(hT, comDof + gp.2)] }) s.vessels, unsync := s.unsync.erase gp.1, dirty := s.dirty.erase gp.1 } else none else none) = _
        rw [if_pos hunm, if_pos hdi]
      · refine ⟨{ s with vessels := aupdate gp.1 (fun v0 => { v0 with state := VState.sync (hh ++ [(hT, comDof + gp.2)]) hp }) s.vessels, dirty := s.dirty.erase gp.1 }, ?_⟩
        show (if gp.1 ∈ s.dirty then some { s with vessels := aupdate gp.1 (fun v0 => { v0 with state := VState.sync (hh ++ [(hT, comDof + gp.2)]) hp }) s.vessels, dirty := s.dirty.erase gp.1 } else none) = _
        rw [if_pos hdi]
    obtain ⟨s1, hone⟩ := hone
    obtain ⟨hse1, hkeys1, _, hoth1, hun1, hdi1, hU1, hD1⟩ :=
      syncBubbleOne_char hone hU hD
        (fun g hg => hUM g hg)
    have hgprest : gp.1 ∉ rest.map Prod.fst := (List.nodup_cons.mp hnd).1
    have hUM1 : ∀ g ∈ s1.unsync, ∃ v, alookup g s1.vessels = some v ∧
        v.state.isSync = false := by
      intro g hg
      obtain ⟨hg0, hgne⟩ := (hun1 g).mp hg
      obtain ⟨v2, hv2, hvs2⟩ := hUM g hg0
      refine ⟨v2, ?_, hvs2⟩
      rw [hoth1 g hgne]
      exact hv2
    obtain ⟨s2, hs2⟩ := syncBubbleFold_some hU1 hD1 (List.nodup_cons.mp hnd).2
      hUM1
      (fun gp2 hgp2 => by
        obtain ⟨v2, hv2, hdi2, hun2⟩ := hall gp2 (List.mem_cons_of_mem gp hgp2)
        have hne : gp2.1 ≠ gp.1 := fun hc =>
          hgprest (hc ▸ List.mem_map_of_mem Prod.fst hgp2)
        refine ⟨v2, ?_, ?_, ?_⟩
        · rw [hoth1 gp2.1 hne]
          exact hv2
        · exact (hdi1 gp2.1).mpr ⟨hdi2, hne⟩
        · intro hns
          exact (hun1 gp2.1).mpr ⟨hun2 hns, hne⟩)
    refine ⟨s2, ?_⟩
    unfold syncBubbleFold
    rw [hone]
    exact hs2

theorem bubbleContains_congr {s s2 : Plugin}
    (h : (s2.bubble.current).map BubbleState.vessels =
      (s.bubble.current).map BubbleState.vessels) (g : GUID) :
    bubbleContains s2 g = bubbleContains s g := by
  unfold bubbleContains
  rcases hc2 : s2.bubble.current with _ | st2 <;>
    rcases hc : s.bubble.current with _ | st
  · rfl
  · rw [hc2, hc] at h
    cases h
  · rw [hc2, hc] at h
    cases h
  · rw [hc2, hc] at h
    simp only [Option.map_some'] at h
    injection h with h
    show decide (g ∈ st2.vessels.map Prod.fst)
      = decide (g ∈ st.vessels.map Prod.fst)
    rw [h]

/-- `EvolveProlongationsAndBubble` succeeds whenever every bubble vessel
is present in the vessel table. -/
theorem evolveProl_some {p : Params} {t : ℚ} {s6 : Plugin}
    (hcur : ∀ st, s6.bubble.current = some st → ∀ g ∈ st.vessels.map Prod.fst,
      g ∈ s6.vessels.map Prod.fst) :
    ∃ s7, evolveProlongationsAndBubble p t s6 = some s7 := by
  unfold evolveProlongationsAndBubble
  simp only []
  set S1 := integrate p true t
    (s6.celestials.map (fun ic => Handle.celProl ic.1) ++
     (s6.vessels.filter (fun gv => !bubbleContains s6 gv.1)).map
       (fun gv => Handle.vesProl gv.1) ++
     (if bubbleEmpty s6 then [] else [Handle.com])) s6 with hS1M
  have hbv1 : (S1.bubble.current).map BubbleState.vessels =
      (s6.bubble.current).map BubbleState.vessels :=
    integrate_congr (fun s => (s.bubble.current).map BubbleState.vessels)
      setTraj_bubbleVessels
  have hvk1 : S1.vessels.map Prod.fst = s6.vessels.map Prod.fst :=
    integrate_congr (fun s => s.vessels.map Prod.fst) setTraj_vesselKeys
  rcases hc1 : S1.bubble.current with _ | st1
  · exact ⟨S1, rfl⟩
  · obtain ⟨st6, hc6, hsteq⟩ : ∃ st6, s6.bubble.current = some st6 ∧
        st1.vessels = st6.vessels := by
      rcases hc6 : s6.bubble.current with _ | st6
      · exfalso
        rw [hc1, hc6] at hbv1
        simp at hbv1
      · rw [hc1, hc6] at hbv1
        simp only [Option.map_some'] at hbv1
        injection hbv1 with hbv1e
        exact ⟨st6, rfl, hbv1e⟩
    refine bubbleAppendFold_some ?_
    intro gp hgp
    rw [hvk1]
    refine hcur st6 hc6 gp.1 ?_
    rw [← hsteq]
    exact List.mem_map_of_mem Prod.fst hgp

/-- `SynchronizeNewVesselsAndCleanDirtyVessels` succeeds when the
scheduler invariants hold and every bubble vessel is a present, dirty
vessel. -/
theorem synchronize_some {p : Params} {s3 : Plugin}
    (hvK : SortedKeys (s3.vessels.map Prod.fst))
    (huK : SortedKeys s3.unsync) (hdK : SortedKeys s3.dirty)
    (hUM : ∀ g ∈ s3.unsync, ∃ v, alookup g s3.vessels = some v ∧
      v.state.isSync = false)
    (hUC : ∀ gv ∈ s3.vessels, gv.2.state.isSync = false → gv.1 ∈ s3.unsync)
    (hdSub : ∀ g ∈ s3.dirty, g ∈ s3.vessels.map Prod.fst)
    (hcurN : ∀ st, s3.bubble.current = some st →
      (st.vessels.map Prod.fst).Nodup)
    (hcurD : ∀ st, s3.bubble.current = some st →
      ∀ g ∈ st.vessels.map Prod.fst, g ∈ s3.dirty) :
    ∃ s5, synchronizeNewVesselsAndCleanDirtyVessels p s3 = some s5 := by
  unfold synchronizeNewVesselsAndCleanDirtyVessels
  simp only []
  set HS := s3.celestials.map (fun ic => Handle.celProl ic.1) ++
      (s3.unsync.filter (fun g => !bubbleContains s3 g)).map Handle.vesProl ++
      (s3.dirty.filter (fun g => !bubbleContains s3 g && isSyncAt s3 g)).map
        Handle.vesProl ++
      (if bubbleEmpty s3 then [] else [Handle.com]) with hHS
  set S1 := integrate p true (historyTime s3) HS s3 with hS1M
  have hvk1 : S1.vessels.map Prod.fst = s3.vessels.map Prod.fst :=
    integrate_congr (fun s => s.vessels.map Prod.fst) setTraj_vesselKeys
  have hu1 : S1.unsync = s3.unsync :=
    integrate_congr Plugin.unsync setTraj_unsync
  have hd1 : S1.dirty = s3.dirty :=
    integrate_congr Plugin.dirty setTraj_dirty
  have hbv1 : (S1.bubble.current).map BubbleState.vessels =
      (s3.bubble.current).map BubbleState.vessels :=
    integrate_congr (fun s => (s.bubble.current).map BubbleState.vessels)
      setTraj_bubbleVessels
  have hbc1 : ∀ g, bubbleContains S1 g = bubbleContains s3 g :=
    bubbleContains_congr hbv1
  have hifmem : ∀ h2 : Handle,
      h2 ∈ (if bubbleEmpty s3 then ([] : List Handle) else [Handle.com]) →
      h2 = Handle.com := by
    intro h2 hm
    split at hm
    · cases hm
    · simpa using hm
  have hvesHistNot : ∀ g, Handle.vesHist g ∉ HS := by
    intro g hm
    rw [hHS] at hm
    rcases List.mem_append.mp hm with hm | hm
    · rcases List.mem_append.mp hm with hm | hm
      · rcases List.mem_append.mp hm with hm | hm
        · rcases List.mem_map.mp hm with ⟨ic, _, heq⟩
          cases heq
        · rcases List.mem_map.mp hm with ⟨g2, _, heq⟩
          cases heq
      · rcases List.mem_map.mp hm with ⟨g2, _, heq⟩
        cases heq
    · cases hifmem _ hm
  have hves1 : ∀ g v, alookup g s3.vessels = some v → ∃ v1,
      alookup g S1.vessels = some v1 ∧ v1.state.isSync = v.state.isSync := by
    intro g v hv
    rcases hv1 : alookup g S1.vessels with _ | v1
    · exfalso
      refine (alookup_eq_none.mp hv1) ?_
      rw [hvk1]
      exact alookup_some_mem_keys hv
    · have hm : (alookup g S1.vessels).map
            (fun v => (v.parent, v.state.isSync, v.state.isInitialized)) =
          (alookup g s3.vessels).map
            (fun v => (v.parent, v.state.isSync, v.state.isInitialized)) :=
        integrate_congr (fun s => (alookup g s.vessels).map (fun v => (v.parent, v.state.isSync, v.state.isInitialized))) (fun s h tr => setTraj_vesselMeta s h tr g)
      rw [hv1, hv] at hm
      have hmeta : (v1.parent, v1.state.isSync, v1.state.isInitialized) =
          (v.parent, v.state.isSync, v.state.isInitialized) := by
        simpa using hm
      have hsynceq : v1.state.isSync = v.state.isSync := by
        have := congrArg (fun q => q.2.1) hmeta
        simpa using this
      exact ⟨v1, rfl, hsynceq⟩
  have hUM1 : ∀ g ∈ S1.unsync, ∃ v, alookup g S1.vessels = some v ∧
      v.state.isSync = false := by
    intro g hg
    rw [hu1] at hg
    obtain ⟨v, hv, hvs⟩ := hUM g hg
    obtain ⟨v1, hv1, hsy⟩ := hves1 g v hv
    exact ⟨v1, hv1, hsy.trans hvs⟩
  have huK1 : SortedKeys S1.unsync := hu1 ▸ huK
  have hdK1 : SortedKeys S1.dirty := hd1 ▸ hdK
  have hmain : ∀ stK : List GUID, ∀ s2' : Plugin,
      SameExceptVUD S1 s2' →
      s2'.vessels.map Prod.fst = S1.vessels.map Prod.fst →
      (∀ g2, g2 ∉ stK → alookup g2 s2'.vessels = alookup g2 S1.vessels) →
      (∀ x, x ∈ s2'.unsync ↔ x ∈ s3.unsync ∧ x ∉ stK) →
      (∀ x, x ∈ s2'.dirty ↔ x ∈ s3.dirty ∧ x ∉ stK) →
      SortedKeys s2'.unsync → SortedKeys s2'.dirty →
      (∀ g, bubbleContains s3 g = true → g ∈ stK) →
      ∃ s5, (match syncUnsyncFold (historyTime s3) s2' s2'.unsync with
        | none => none
        | some s3x =>
          match cleanDirtyFold (historyTime s3)
              ({ s3x with unsync := [] } : Plugin)
              ({ s3x with unsync := [] } : Plugin).dirty with
          | none => none
          | some s5x => some { s5x with dirty := [] }) = some s5 := by
    intro stK s2' hse2 hvk2 hoth2 hun2 hdi2 huK2 hdK2 hbc2
    have hbcrel : ∀ g, bubbleContains s2' g = bubbleContains s3 g := by
      intro g
      have h1 : bubbleContains s2' g = bubbleContains S1 g := by
        unfold bubbleContains
        rw [hse2.bubble]
      rw [h1, hbc1]
    obtain ⟨sA, hsu⟩ := syncUnsyncFold_some hdK2 huK2.nodup
      (fun g hg => by
        obtain ⟨hg0, hgk⟩ := (hun2 g).mp hg
        constructor
        · rw [hbcrel g]
          cases hx : bubbleContains s3 g
          · rfl
          · exact absurd (hbc2 g hx) hgk
        · obtain ⟨v, hv, _⟩ := hUM g hg0
          obtain ⟨v1, hv1, _⟩ := hves1 g v hv
          have : alookup g s2'.vessels = some v1 := by
            rw [hoth2 g hgk]
            exact hv1
          rw [← hvk2] at hvk1
          exact alookup_some_mem_keys this)
    obtain ⟨hseA, hvkA, hmemA, hothA, hunA, hdiA, hdKA⟩ :=
      syncUnsyncFold_char hsu hdK2 huK2.nodup
    obtain ⟨sB, hcd⟩ := @cleanDirtyFold_some (historyTime s3) sA.dirty
      ({ sA with unsync := [] } : Plugin) hdKA.nodup
      (fun g hg => by
        obtain ⟨hg2, hgnu⟩ := (hdiA g).mp hg
        obtain ⟨hg3, hgk⟩ := (hdi2 g).mp hg2
        rcases hv3 : alookup g s3.vessels with _ | v3
        · exact absurd (hdSub g hg3) (alookup_eq_none.mp hv3)
        · obtain ⟨v1, hv1, hsy1⟩ := hves1 g v3 hv3
          have hv2' : alookup g s2'.vessels = some v1 := by
            rw [hoth2 g hgk]
            exact hv1
          have hvA : alookup g sA.vessels = some v1 := by
            rw [hothA g hgnu]
            exact hv2'
          have hsy3 : v3.state.isSync = true := by
            cases hx : v3.state.isSync
            · exfalso
              have hgu : g ∈ s3.unsync := hUC (g, v3) (alookup_mem hv3) hx
              exact hgnu ((hun2 g).mpr ⟨hgu, hgk⟩)
            · rfl
          have hbc4 : bubbleContains ({ sA with unsync := [] } : Plugin) g
              = false := by
            have hbA : bubbleContains ({ sA with unsync := [] } : Plugin) g =
                bubbleContains s2' g := by
              unfold bubbleContains
              rw [show ({ sA with unsync := [] } : Plugin).bubble = sA.bubble
                  from rfl, hseA.bubble]
            rw [hbA, hbcrel g]
            cases hx : bubbleContains s3 g
            · rfl
            · exact absurd (hbc2 g hx) hgk
          exact ⟨v1, hvA, hsy1.trans hsy3, hbc4⟩)
    refine ⟨{ sB with dirty := [] }, ?_⟩
    rw [hsu]
    have hstep2 : (match cleanDirtyFold (historyTime s3)
        ({ sA with unsync := [] } : Plugin) sA.dirty with
      | none => none
      | some s5x => some { s5x with dirty := [] })
        = some ({ sB with dirty := [] } : Plugin) := by
      rw [hcd]
    exact hstep2
  by_cases hbe : bubbleEmpty S1 = true
  · rw [if_pos hbe]
    have hbe3 : bubbleEmpty s3 = true := by
      rw [← hbe]
      exact (integrate_congr (fun s => bubbleEmpty s) setTraj_bubbleEmpty).symm
    obtain ⟨s5, hs5⟩ := hmain [] S1 (SameExceptVUD.refl S1) rfl
      (fun g2 _ => rfl)
      (fun x => by rw [hu1]; simp)
      (fun x => by rw [hd1]; simp)
      huK1 hdK1
      (fun g hg => by
        rw [bubbleContains_of_empty hbe3 g] at hg
        cases hg)
    exact ⟨s5, hs5⟩
  · rw [if_neg hbe]
    rcases hc1 : S1.bubble.current with _ | st1
    · exfalso
      apply hbe
      unfold bubbleEmpty
      rw [hc1]
      rfl
    · obtain ⟨st3, hc3, hsteq⟩ : ∃ st3, s3.bubble.current = some st3 ∧
          st1.vessels = st3.vessels := by
        rcases hc3 : s3.bubble.current with _ | st3
        · exfalso
          rw [hc1, hc3] at hbv1
          simp at hbv1
        · rw [hc1, hc3] at hbv1
          simp only [Option.map_some'] at hbv1
          injection hbv1 with hbv1e
          exact ⟨st3, rfl, hbv1e⟩
      have hndst : (st1.vessels.map Prod.fst).Nodup := by
        rw [hsteq]
        exact hcurN st3 hc3
      obtain ⟨s2', hsb⟩ := syncBubbleFold_some huK1 hdK1 hndst hUM1
        (fun gp hgp => by
          have hgd : gp.1 ∈ s3.dirty := by
            refine hcurD st3 hc3 gp.1 ?_
            rw [← hsteq]
            exact List.mem_map_of_mem Prod.fst hgp
          rcases hv3 : alookup gp.1 s3.vessels with _ | v3
          · exact absurd (hdSub gp.1 hgd) (alookup_eq_none.mp hv3)
          · obtain ⟨v1, hv1, hsy1⟩ := hves1 gp.1 v3 hv3
            refine ⟨v1, hv1, by rw [hd1]; exact hgd, ?_⟩
            intro hns
            rw [hu1]
            refine hUC (gp.1, v3) (alookup_mem hv3) ?_
            rw [← hsy1]
            exact hns)
      obtain ⟨hse2, hvk2, _, hoth2, hun2iff, hdi2iff, huK2, hdK2⟩ :=
        syncBubbleFold_char hsb huK1 hdK1 hndst hUM1
      obtain ⟨s5, hs5⟩ := hmain (st1.vessels.map Prod.fst) s2' hse2 hvk2 hoth2
        (fun x => by rw [hun2iff x, hu1])
        (fun x => by rw [hdi2iff x, hd1])
        huK2 hdK2
        (fun g hg => by
          unfold bubbleContains at hg
          rw [hc3] at hg
          rw [hsteq]
          exact of_decide_eq_true hg)
      refine ⟨s5, ?_⟩
      have hsbh : syncBubbleHistories (historyTime s3) S1 = some s2' := by
        unfold syncBubbleHistories
        rw [hc1]
        exact hsb
      rw [hsbh]
      exact hs5

/-- `AdvanceTime` runs to completion when the plugin is out of
initialization, `t` is in the future, every vessel has been given an
initial state, and every vessel added to the next physics bubble was also
kept this tick. -/
theorem advanceTime_some {p : Params} {t rot : ℚ} {s : Plugin}
    (hinv : Inv s) (hini : s.initializing = false) (hct : s.currentTime < t)
    (hall : ∀ gv ∈ s.vessels, gv.2.state.isInitialized = true)
    (hbubkept : ∀ nx, s.bubble.next = some nx →
      ∀ g ∈ nx.map Prod.fst, g ∈ s.kept) :
    ∃ s2, advanceTime p t rot s = some s2 := by
  obtain ⟨s1, hcu⟩ := cleanUpVessels_some hinv hall
  obtain ⟨hchk1, hs1eq⟩ := cleanUpVessels_char hcu
  obtain ⟨hvK1, hcel1e, hbub1, hini1, hrot1, hct1, hsun1, hht1, hkept1,
          huK1, hdK1, hvmem1, hinit1, hUM1, hUC1, hdSub1⟩ :=
    cleanUp_post hinv hcu
  obtain ⟨hnx2, hcur2n, hcur2s, hves2, hcel2, hun2, hdi2, hkept2, hini2,
          hrot2, hct2, hsun2⟩ := bubblePrepare_char p t s1
  have hht2 : historyTime (bubblePrepare p t s1) = historyTime s :=
    (historyTime_bubblePrepare p t s1).trans hht1
  have hcel2s : (bubblePrepare p t s1).celestials = s.celestials :=
    hcel2.trans hcel1e
  have hvK2 : SortedKeys ((bubblePrepare p t s1).vessels.map Prod.fst) := by
    rw [hves2]
    exact hvK1
  have hcK2 : SortedKeys ((bubblePrepare p t s1).celestials.map Prod.fst) := by
    rw [hcel2s]
    exact hinv.cKeys
  have hsun2m : (bubblePrepare p t s1).sunIndex ∈
      (bubblePrepare p t s1).celestials.map Prod.fst := by
    rw [hsun2.trans hsun1, hcel2s]
    exact hinv.sunMem
  have hcelH2 : ∀ ic ∈ (bubblePrepare p t s1).celestials,
      ic.2.history ≠ [] ∧
      lastTime ic.2.history = historyTime (bubblePrepare p t s1) := by
    intro ic hic
    rw [hcel2s] at hic
    rw [hht2]
    exact hinv.celH ic hic
  have hmemkeys1 : ∀ g, g ∈ s.vessels.map Prod.fst → g ∈ s.kept →
      g ∈ s1.vessels.map Prod.fst := by
    intro g hk hkp
    rw [hs1eq]
    show g ∈ (s.vessels.filter (fun gv => decide (gv.1 ∈ s.kept))).map Prod.fst
    rw [keys_filter_keyPred, List.mem_filter]
    simp [hk, hkp]
  have hmemdirty1 : ∀ g, g ∈ s.dirty → g ∈ s.kept → g ∈ s1.dirty := by
    intro g hd hkp
    rw [hs1eq]
    show g ∈ s.dirty.filter
      (fun g => decide (¬(g ∈ s.vessels.map Prod.fst ∧ g ∉ s.kept)))
    rw [List.mem_filter]
    simp [hd, hkp]
  have hcurFact : ∀ st, (bubblePrepare p t s1).bubble.current = some st →
      ∀ g ∈ st.vessels.map Prod.fst,
        g ∈ (bubblePrepare p t s1).vessels.map Prod.fst ∧
        g ∈ (bubblePrepare p t s1).dirty := by
    intro st hst g hg
    rcases hnx1 : s1.bubble.next with _ | nx
    · rw [hcur2n hnx1] at hst
      cases hst
    · obtain ⟨st0, hst0, hkeys0, _, _⟩ := hcur2s nx hnx1
      rw [hst0] at hst
      injection hst with hst
      subst hst
      rw [hkeys0] at hg
      have hnxs : s.bubble.next = some nx := by
        rw [← hbub1]
        exact hnx1
      have hkept : g ∈ s.kept := hbubkept nx hnxs g hg
      have hdirty : g ∈ s.dirty := (hinv.nextInv nx hnxs).2 g hg
      have hkeys : g ∈ s.vessels.map Prod.fst := hinv.dirtySub g hdirty
      constructor
      · rw [hves2]
        exact hmemkeys1 g hkeys hkept
      · rw [hdi2]
        exact hmemdirty1 g hdirty hkept
  have hcurN2 : ∀ st, (bubblePrepare p t s1).bubble.current = some st →
      (st.vessels.map Prod.fst).Nodup := by
    intro st hst
    rcases hnx1 : s1.bubble.next with _ | nx
    · rw [hcur2n hnx1] at hst
      cases hst
    · obtain ⟨st0, hst0, hkeys0, _, _⟩ := hcur2s nx hnx1
      rw [hst0] at hst
      injection hst with hst
      subst hst
      rw [hkeys0]
      have hnxs : s.bubble.next = some nx := by
        rw [← hbub1]
        exact hnx1
      exact (hinv.nextInv nx hnxs).1
  have hdSub2 : ∀ g ∈ (bubblePrepare p t s1).dirty,
      g ∈ (bubblePrepare p t s1).vessels.map Prod.fst := by
    intro g hg
    rw [hdi2] at hg
    rw [hves2]
    exact hdSub1 g hg
  have hUM2 : ∀ g ∈ (bubblePrepare p t s1).unsync, ∃ v,
      alookup g (bubblePrepare p t s1).vessels = some v ∧
      v.state.isInitialized = true ∧ v.state.isSync = false := by
    intro g hg
    rw [hun2] at hg
    obtain ⟨v, hv, hvi, hvs⟩ := hUM1 g hg
    refine ⟨v, ?_, hvi, hvs⟩
    rw [hves2]
    exact hv
  have hUC2 : ∀ gv ∈ (bubblePrepare p t s1).vessels,
      gv.2.state.isSync = false → gv.1 ∈ (bubblePrepare p t s1).unsync := by
    intro gv hgv hns
    rw [hves2] at hgv
    rw [hun2]
    exact hUC1 gv hgv hns
  have hininot : ¬(s.initializing = true) := by
    rw [hini]
    exact Bool.false_ne_true
  by_cases hstep' : historyTime (bubblePrepare p t s1) + Δt < t
  · obtain ⟨hu3, hd3, hk3, hi3, hr3, hct3, hsun3e, hbub3, hvk3, hck3,
            hht3, hlt3, hle3, hlt4, hcelfact3, hvesfact3⟩ :=
      evolveHistories_post rfl rfl hcK2 hvK2 hsun2m hcelH2 hstep'
    have hvK3 : SortedKeys
        ((evolveHistories p t (bubblePrepare p t s1)).vessels.map Prod.fst) := by
      rw [hvk3]
      exact hvK2
    have hUC3 : ∀ gv ∈ (evolveHistories p t (bubblePrepare p t s1)).vessels,
        gv.2.state.isSync = false →
        gv.1 ∈ (evolveHistories p t (bubblePrepare p t s1)).unsync := by
      intro gv hgv hns
      have halk3 : alookup gv.1
          (evolveHistories p t (bubblePrepare p t s1)).vessels = some gv.2 :=
        alookup_of_mem hvK3.nodup hgv
      rcases halk2 : alookup gv.1 (bubblePrepare p t s1).vessels with _ | v2
      · exfalso
        refine (alookup_eq_none.mp halk2) ?_
        rw [← hvk3]
        exact List.mem_map_of_mem Prod.fst hgv
      · obtain ⟨v', hv', hsy, _, _, _, _⟩ := hvesfact3 gv.1 v2 halk2
        rw [halk3] at hv'
        injection hv' with hv'
        subst hv'
        rw [hu3]
        refine hUC2 (gv.1, v2) (alookup_mem halk2) ?_
        rw [← hsy]
        exact hns
    have hUM3 : ∀ g ∈ (evolveHistories p t (bubblePrepare p t s1)).unsync,
        ∃ v, alookup g (evolveHistories p t (bubblePrepare p t s1)).vessels =
          some v ∧ v.state.isSync = false := by
      intro g hg
      rw [hu3] at hg
      obtain ⟨v, hv, _, hvs⟩ := hUM2 g hg
      obtain ⟨v', hv', hsy, _, _, _, _⟩ := hvesfact3 g v hv
      exact ⟨v', hv', hsy.trans hvs⟩
    have hcurN3 : ∀ st,
        (evolveHistories p t (bubblePrepare p t s1)).bubble.current = some st →
        (st.vessels.map Prod.fst).Nodup := by
      intro st hst
      rw [hbub3] at hst
      exact hcurN2 st hst
    have hcurD3 : ∀ st,
        (evolveHistories p t (bubblePrepare p t s1)).bubble.current = some st →
        ∀ g ∈ st.vessels.map Prod.fst,
          g ∈ (evolveHistories p t (bubblePrepare p t s1)).dirty := by
      intro st hst g hg
      rw [hbub3] at hst
      rw [hd3]
      exact (hcurFact st hst g hg).2
    by_cases hguard : (evolveHistories p t (bubblePrepare p t s1)).unsync
        ≠ [] ∨ (evolveHistories p t (bubblePrepare p t s1)).dirty ≠ [] ∨
        bubbleEmpty (evolveHistories p t (bubblePrepare p t s1)) = false
    · have huK3 : SortedKeys
          (evolveHistories p t (bubblePrepare p t s1)).unsync := by
        rw [hu3, hun2]
        exact huK1
      have hdK3 : SortedKeys
          (evolveHistories p t (bubblePrepare p t s1)).dirty := by
        rw [hd3, hdi2]
        exact hdK1
      have hcK3 : SortedKeys
          ((evolveHistories p t (bubblePrepare p t s1)).celestials.map
            Prod.fst) := by
        rw [hck3]
        exact hcK2
      have hdSub3 : ∀ g ∈ (evolveHistories p t (bubblePrepare p t s1)).dirty,
          g ∈ (evolveHistories p t (bubblePrepare p t s1)).vessels.map
            Prod.fst := by
        intro g hg
        rw [hd3] at hg
        rw [hvk3]
        exact hdSub2 g hg
      have hvesH3S : ∀ gv ∈
          (evolveHistories p t (bubblePrepare p t s1)).vessels,
          gv.2.state.isSync = true →
          bubbleContains (evolveHistories p t (bubblePrepare p t s1)) gv.1
            = false →
          gv.1 ∉ (evolveHistories p t (bubblePrepare p t s1)).dirty →
          gv.2.state.history ≠ [] ∧ lastTime gv.2.state.history =
            historyTime (evolveHistories p t (bubblePrepare p t s1)) := by
        intro gv hgv hsy2 hbc hnd
        have halk3 : alookup gv.1
            (evolveHistories p t (bubblePrepare p t s1)).vessels =
            some gv.2 := alookup_of_mem hvK3.nodup hgv
        rcases halk2 : alookup gv.1 (bubblePrepare p t s1).vessels
          with _ | v2
        · exfalso
          refine (alookup_eq_none.mp halk2) ?_
          rw [← hvk3]
          exact List.mem_map_of_mem Prod.fst hgv
        · obtain ⟨v', hv', hsyeq, _, _, _, hel⟩ :=
            hvesfact3 gv.1 v2 halk2
          rw [halk3] at hv'
          injection hv' with hv'
          subst hv'
          rw [hht3]
          refine hel ⟨by rw [← hsyeq]; exact hsy2, ?_, ?_⟩
          · have hbcx : ∀ g, bubbleContains
                (evolveHistories p t (bubblePrepare p t s1)) g =
                bubbleContains (bubblePrepare p t s1) g := by
              intro g
              unfold bubbleContains
              rw [hbub3]
            rw [← hbcx gv.1]
            exact hbc
          · rw [← hd3]
            exact hnd
      obtain ⟨s5, hsy⟩ := synchronize_some hvK3 huK3 hdK3
        hUM3 hUC3 hdSub3 hcurN3 hcurD3
      obtain ⟨hS5u, hS5d, hS5k, hS5i, hS5r, hS5ct, hS5sun, hS5next,
              hS5cur, hS5vk, hS5ck, hS5ht, hS5cel, hS5ves⟩ :=
        synchronize_post hsy hvK3 hcK3 huK3 hdK3
          hUM3 hUC3 hcurN3 hvesH3S
      obtain ⟨s7, hep⟩ := @evolveProl_some p t (resetProlongations s5)
        (by
          obtain ⟨hRvk, hRves, hRcel, hRck, hRu, hRd, hRk, hRb, hRi, hRrot,
                  hRct, hRsun, hRht⟩ := resetProlongations_char s5
          intro st hst g hg
          rw [hRb] at hst
          obtain ⟨st3, hc3, hsteq⟩ : ∃ st3,
              (evolveHistories p t (bubblePrepare p t s1)).bubble.current =
                some st3 ∧ st.vessels = st3.vessels := by
            rcases hc3 : (evolveHistories p t (bubblePrepare p t s1)).bubble.current
              with _ | st3
            · exfalso
              rw [hst, hc3] at hS5cur
              simp at hS5cur
            · rw [hst, hc3] at hS5cur
              simp only [Option.map_some'] at hS5cur
              injection hS5cur with hce
              exact ⟨st3, rfl, hce⟩
          rw [hsteq] at hg
          rw [hRvk, hS5vk, hvk3]
          rw [hbub3] at hc3
          exact (hcurFact st3 hc3 g hg).1)
      refine ⟨{ s7 with currentTime := t, planetariumRotation := rot }, ?_⟩
      unfold advanceTime
      rw [if_neg hininot, if_pos hct, hcu]
      show (match (if historyTime (bubblePrepare p t s1) + Δt < t then
          (match (if (evolveHistories p t (bubblePrepare p t s1)).unsync ≠ [] ∨
              (evolveHistories p t (bubblePrepare p t s1)).dirty ≠ [] ∨
              bubbleEmpty (evolveHistories p t (bubblePrepare p t s1)) = false then
              synchronizeNewVesselsAndCleanDirtyVessels p
                (evolveHistories p t (bubblePrepare p t s1))
            else some (evolveHistories p t (bubblePrepare p t s1))) with
            | none => none
            | some s5x => some (resetProlongations s5x))
        else some (bubblePrepare p t s1)) with
        | none => (none : Option Plugin)
        | some s6x =>
          (match evolveProlongationsAndBubble p t s6x with
            | none => none
            | some s7x =>
              some { s7x with currentTime := t, planetariumRotation := rot }))
        = some { s7 with currentTime := t, planetariumRotation := rot }
      rw [if_pos hstep', if_pos hguard, hsy]
      show (match evolveProlongationsAndBubble p t (resetProlongations s5) with
        | none => none
        | some s7x =>
          some { s7x with currentTime := t, planetariumRotation := rot })
        = some { s7 with currentTime := t, planetariumRotation := rot }
      rw [hep]
    · have hbe3 : bubbleEmpty (evolveHistories p t (bubblePrepare p t s1))
          = true := by
        have hgbc := not_or.mp (not_or.mp hguard).2
        cases hx : bubbleEmpty (evolveHistories p t (bubblePrepare p t s1))
        · exact absurd hx hgbc.2
        · rfl
      obtain ⟨s7, hep⟩ := @evolveProl_some p t
        (resetProlongations (evolveHistories p t (bubblePrepare p t s1)))
        (by
          obtain ⟨hRvk, hRves, hRcel, hRck, hRu, hRd, hRk, hRb, hRi, hRrot,
                  hRct, hRsun, hRht⟩ := resetProlongations_char
            (evolveHistories p t (bubblePrepare p t s1))
          intro st hst g hg
          exfalso
          rw [hRb] at hst
          unfold bubbleEmpty at hbe3
          rw [hst] at hbe3
          cases hbe3)
      refine ⟨{ s7 with currentTime := t, planetariumRotation := rot }, ?_⟩
      unfold advanceTime
      rw [if_neg hininot, if_pos hct, hcu]
      show (match (if historyTime (bubblePrepare p t s1) + Δt < t then
          (match (if (evolveHistories p t (bubblePrepare p t s1)).unsync ≠ [] ∨
              (evolveHistories p t (bubblePrepare p t s1)).dirty ≠ [] ∨
              bubbleEmpty (evolveHistories p t (bubblePrepare p t s1)) = false then
              synchronizeNewVesselsAndCleanDirtyVessels p
                (evolveHistories p t (bubblePrepare p t s1))
            else some (evolveHistories p t (bubblePrepare p t s1))) with
            | none => none
            | some s5x => some (resetProlongations s5x))
        else some (bubblePrepare p t s1)) with
        | none => (none : Option Plugin)
        | some s6x =>
          (match evolveProlongationsAndBubble p t s6x with
            | none => none
            | some s7x =>
              some { s7x with currentTime := t, planetariumRotation := rot }))
        = some { s7 with currentTime := t, planetariumRotation := rot }
      rw [if_pos hstep', if_neg hguard]
      show (match evolveProlongationsAndBubble p t
          (resetProlongations (evolveHistories p t (bubblePrepare p t s1))) with
        | none => none
        | some s7x =>
          some { s7x with currentTime := t, planetariumRotation := rot })
        = some { s7 with currentTime := t, planetariumRotation := rot }
      rw [hep]
  · obtain ⟨s7, hep⟩ := @evolveProl_some p t (bubblePrepare p t s1)
      (fun st hst g hg => (hcurFact st hst g hg).1)
    refine ⟨{ s7 with currentTime := t, planetariumRotation := rot }, ?_⟩
    unfold advanceTime
    rw [if_neg hininot, if_pos hct, hcu]
    show (match (if historyTime (bubblePrepare p t s1) + Δt < t then
        (match (if (evolveHistories p t (bubblePrepare p t s1)).unsync ≠ [] ∨
            (evolveHistories p t (bubblePrepare p t s1)).dirty ≠ [] ∨
            bubbleEmpty (evolveHistories p t (bubblePrepare p t s1)) = false then
            synchronizeNewVesselsAndCleanDirtyVessels p
              (evolveHistories p t (bubblePrepare p t s1))
          else some (evolveHistories p t (bubblePrepare p t s1))) with
          | none => none
          | some s5x => some (resetProlongations s5x))
      else some (bubblePrepare p t s1)) with
      | none => (none : Option Plugin)
      | some s6x =>
        (match evolveProlongationsAndBubble p t s6x with
          | none => none
          | some s7x =>
            some { s7x with currentTime := t, planetariumRotation := rot }))
      = some { s7 with currentTime := t, planetariumRotation := rot }
    rw [if_neg hstep']
    show (match evolveProlongationsAndBubble p t (bubblePrepare p t s1) with
      | none => none
      | some s7x =>
        some { s7x with currentTime := t, planetariumRotation := rot })
      = some { s7 with currentTime := t, planetariumRotation := rot }
    rw [hep]

/-! ### Concrete run for the witnesses

`wP` fixes the uninterpreted numeric parameters (identity flow, zero
rotation angle); `wS0`–`wSF` is a concrete run: a sun at index `0`, one
vessel `"v1"` inserted and given a state, then one `AdvanceTime` to
`t = 25` which performs two history steps (to `history_time() = 20`). -/

def wP : Params :=
  ⟨fun _ _ st => st, fun _ _ _ _ => dof0, fun _ _ _ _ _ => dof0,
   fun _ => 1, fun _ => 0⟩

def wS0 : Plugin := endInitialization (newPlugin 0 0 1 0)

def wS1 : Plugin := ((insertOrKeepVessel "v1" 0 wS0).getD (wS0, false)).1

def wS2 : Plugin := (setVesselStateOffset wP "v1" dof0 wS1).getD wS1

def wSF : Plugin := (advanceTime wP 25 0 wS2).getD wS0

def wCU : Plugin := (cleanUpVessels wS2).getD wS0

def wVF : Vessel := (alookup "v1" wSF.vessels).getD ⟨0, .uninit⟩

theorem wIns : insertOrKeepVessel "v1" 0 wS0 = some (wS1, true) := by
  with_unfolding_all rfl

theorem wSet : setVesselStateOffset wP "v1" dof0 wS1 = some wS2 := by
  with_unfolding_all rfl

theorem wAdv : advanceTime wP 25 0 wS2 = some wSF := by
  with_unfolding_all rfl

theorem wCUeq : cleanUpVessels wS2 = some wCU := by
  with_unfolding_all rfl

theorem wReach0 : Reachable wS0 := Reachable.endInit (Reachable.new 0 0 1 0)

theorem wReach1 : Reachable wS1 := Reachable.insertVessel "v1" 0 wReach0 wIns

theorem wReach2 : Reachable wS2 := Reachable.setOffset wP "v1" dof0 wReach1 wSet

theorem wReachF : Reachable wSF := Reachable.advance wP 25 0 wReach2 wAdv

/-! ### The claims -/

/-- **C1** (corrected).  On a reachable plugin, a successful
`AdvanceTime(t, rotation)` advances the histories — observable as a strict
increase of `history_time()` — if, and only if, `history_time() + Δt < t`
holds *strictly* (the test at plugin.cpp:429); when it fails, in particular
at exact equality `history_time() + Δt = t`, `history_time()` is unchanged.
The claim's trigger condition `history_time() + Δt ≤ t_target` is therefore
wrong at equality. -/
theorem c1_history_step_iff {p : Params} {t rot : ℚ} {s sf : Plugin}
    (hr : Reachable s) (h : advanceTime p t rot s = some sf) :
    ((historyTime s + Δt < t) ↔ historyTime s < historyTime sf) ∧
    (¬(historyTime s + Δt < t) → historyTime sf = historyTime s) := by
  have hspec := advanceTime_spec (invOfReachable hr) h
  exact ⟨hspec.2.2.2.2.2.2.2.1, hspec.2.2.2.2.2.2.2.2.2⟩

theorem c1_witness :
    ((historyTime wS2 + Δt < 25) ↔ historyTime wS2 < historyTime wSF) ∧
    (¬(historyTime wS2 + Δt < 25) → historyTime wSF = historyTime wS2) :=
  c1_history_step_iff wReach2 wAdv

/-- **C1 counterexample**: at `t_target = history_time() + Δt` exactly
(here `10 = 0 + 10`), the claim's `≤` condition holds, the call succeeds,
but no history step is performed: `history_time()` stays `0`. -/
theorem c1_cex :
    historyTime wS0 + Δt ≤ 10 ∧
    (advanceTime wP 10 0 wS0).map historyTime = some (historyTime wS0) :=
  ⟨of_decide_eq_true (by with_unfolding_all rfl),
   by with_unfolding_all rfl⟩

/-- **C4**.  After a successful `AdvanceTime(t, rotation)` on a reachable
plugin, `current_time` equals `t` and every vessel — in the physics bubble
or not — has a nonempty prolongation whose last time is the new
`current_time`. -/
theorem c4_prolongation_endpoint {p : Params} {t rot : ℚ} {s sf : Plugin}
    (hr : Reachable s) (h : advanceTime p t rot s = some sf) :
    sf.currentTime = t ∧
    ∀ gv ∈ sf.vessels, gv.2.state.prolong ≠ [] ∧
      lastTime gv.2.state.prolong = sf.currentTime := by
  have hspec := advanceTime_spec (invOfReachable hr) h
  refine ⟨hspec.2.1, fun gv hgv => ?_⟩
  have hv := hspec.2.2.2.2.2.2.1 gv hgv
  refine ⟨hv.2.1, ?_⟩
  rw [hspec.2.1]
  exact hv.2.2

theorem c4_witness :
    wSF.currentTime = 25 ∧
    ∀ gv ∈ wSF.vessels, gv.2.state.prolong ≠ [] ∧
      lastTime gv.2.state.prolong = wSF.currentTime :=
  c4_prolongation_endpoint wReach2 wAdv

/-- **C5**.  After an `AdvanceTime` call that performed a history step, the
unsynchronized and dirty sets are both empty, and every vessel is
synchronized with a nonempty history ending exactly at the new
`history_time()`, its prolongation reaching at least that far. -/
theorem c5_post_step_empty_sets {p : Params} {t rot : ℚ} {s sf : Plugin}
    (hr : Reachable s) (h : advanceTime p t rot s = some sf)
    (hstep : historyTime s + Δt < t) :
    sf.unsync = [] ∧ sf.dirty = [] ∧
    ∀ gv ∈ sf.vessels, gv.2.state.isSync = true ∧
      gv.2.state.history ≠ [] ∧
      lastTime gv.2.state.history = historyTime sf ∧
      historyTime sf ≤ lastTime gv.2.state.prolong := by
  have hspec := advanceTime_spec (invOfReachable hr) h
  have hstepped := hspec.2.2.2.2.2.2.2.2.1 hstep
  refine ⟨hstepped.1, hstepped.2.1, fun gv hgv => ?_⟩
  have hsync := hstepped.2.2 gv hgv
  have hh := hspec.1.vesH gv hgv hsync
  have hp := hspec.2.2.2.2.2.2.1 gv hgv
  refine ⟨hsync, hh.1, hh.2, ?_⟩
  rw [hp.2.2]
  have hlb := hspec.1.timeLB
  rw [hspec.2.1] at hlb
  exact hlb

theorem c5_witness :
    wSF.unsync = [] ∧ wSF.dirty = [] ∧
    ∀ gv ∈ wSF.vessels, gv.2.state.isSync = true ∧
      gv.2.state.history ≠ [] ∧
      lastTime gv.2.state.history = historyTime wSF ∧
      historyTime wSF ≤ lastTime gv.2.state.prolong :=
  c5_post_step_empty_sets wReach2 wAdv
    (of_decide_eq_true (by with_unfolding_all rfl))

/-- **C8**.  `Plugin::CleanUpVessels` on a reachable plugin removes exactly
the vessels not in `kept_vessels_` (a vessel survives, with its trajectory
state unchanged, exactly when it is kept), clears `kept_vessels_`, purges
exactly the removed vessels from the unsynchronized and dirty sets, and
leaves the celestials, the bubble and `current_time` untouched. -/
theorem c8_cleanup_frame {s s1 : Plugin} (hr : Reachable s)
    (h : cleanUpVessels s = some s1) :
    (∀ gv : GUID × Vessel, gv ∈ s1.vessels ↔ gv ∈ s.vessels ∧ gv.1 ∈ s.kept) ∧
    s1.kept = [] ∧
    (∀ g, g ∈ s1.unsync ↔
      g ∈ s.unsync ∧ (g ∉ s.vessels.map Prod.fst ∨ g ∈ s.kept)) ∧
    (∀ g, g ∈ s1.dirty ↔
      g ∈ s.dirty ∧ (g ∉ s.vessels.map Prod.fst ∨ g ∈ s.kept)) ∧
    s1.celestials = s.celestials ∧ s1.bubble = s.bubble ∧
    s1.currentTime = s.currentTime := by
  obtain ⟨hchk, hs1⟩ := cleanUpVessels_char h
  subst hs1
  refine ⟨?_, ?_, ?_, ?_, rfl, rfl, rfl⟩
  · intro gv
    simp [List.mem_filter]
  · rw [List.filter_eq_nil_iff]
    intro g hg
    simp [(invOfReachable hr).keptSub g hg]
  · intro g
    simp only [List.mem_filter, decide_eq_true_eq]
    constructor
    · rintro ⟨h1, h2⟩
      exact ⟨h1, by tauto⟩
    · rintro ⟨h1, h2⟩
      exact ⟨h1, by tauto⟩
  · intro g
    simp only [List.mem_filter, decide_eq_true_eq]
    constructor
    · rintro ⟨h1, h2⟩
      exact ⟨h1, by tauto⟩
    · rintro ⟨h1, h2⟩
      exact ⟨h1, by tauto⟩

theorem c8_witness :
    (∀ gv : GUID × Vessel, gv ∈ wCU.vessels ↔ gv ∈ wS2.vessels ∧ gv.1 ∈ wS2.kept) ∧
    wCU.kept = [] ∧
    (∀ g, g ∈ wCU.unsync ↔
      g ∈ wS2.unsync ∧ (g ∉ wS2.vessels.map Prod.fst ∨ g ∈ wS2.kept)) ∧
    (∀ g, g ∈ wCU.dirty ↔
      g ∈ wS2.dirty ∧ (g ∉ wS2.vessels.map Prod.fst ∨ g ∈ wS2.kept)) ∧
    wCU.celestials = wS2.celestials ∧ wCU.bubble = wS2.bubble ∧
    wCU.currentTime = wS2.currentTime :=
  c8_cleanup_frame wReach2 wCUeq

/-- **C3**.  On every reachable plugin state (the states between two public
calls), every initialized vessel has a prolongation reaching at least
`history_time()`, is in `unsynchronized_vessels_` exactly when it has no
history (is not synchronized), and, when synchronized, has a history ending
exactly at `history_time()`. -/
theorem c3_between_calls_invariants {s : Plugin} (hr : Reachable s) :
    ∀ gv ∈ s.vessels, gv.2.state.isInitialized = true →
      historyTime s ≤ lastTime gv.2.state.prolong ∧
      (gv.1 ∈ s.unsync ↔ gv.2.state.isSync = false) ∧
      (gv.2.state.isSync = true → lastTime gv.2.state.history = historyTime s) := by
  intro gv hgv hinit
  have hinv := invOfReachable hr
  have hp := hinv.vesP gv hgv hinit
  refine ⟨?_, ⟨?_, ?_⟩, ?_⟩
  · rw [hp.2]
    exact hinv.timeLB
  · intro hu
    obtain ⟨v, hv, _, hns⟩ := hinv.unsyncMem gv.1 hu
    have hlook := alookup_of_mem hinv.vKeys.nodup hgv
    rw [hlook] at hv
    injection hv with hv
    rw [hv]
    exact hns
  · intro hns
    exact hinv.unsyncComplete gv hgv hinit hns
  · intro hs
    exact (hinv.vesH gv hgv hs).2

theorem c3_witness :
    historyTime wSF ≤ lastTime wVF.state.prolong ∧
    ("v1" ∈ wSF.unsync ↔ wVF.state.isSync = false) ∧
    (wVF.state.isSync = true → lastTime wVF.state.history = historyTime wSF) :=
  c3_between_calls_invariants wReachF ("v1", wVF)
    (of_decide_eq_true (by with_unfolding_all rfl))
    (by with_unfolding_all rfl)

/-- **C9** (corrected).  On a reachable plugin, `AdvanceTime(t, rotation)`
aborts — the embedding of the fatal `CHECK`s, no state produced — whenever
the plugin is initializing or `t ≤ current_time`, and every successful call
ends with `current_time = t` and the stored planetarium rotation equal to
the argument.  But the claim's precondition (`t > current_time`, not
initializing) is *not* sufficient for the call to run to completion: a
vessel that was inserted but never given a state, or a bubble vessel not
marked kept, makes a later `CHECK` fail.  Completion holds under the
amended precondition that additionally every vessel is initialized and
every vessel of the bubble's `next` snapshot is kept. -/
theorem c9_advanceTime_contract {p : Params} {t rot : ℚ} {s : Plugin}
    (hr : Reachable s) :
    (s.initializing = true ∨ t ≤ s.currentTime → advanceTime p t rot s = none) ∧
    (∀ sf, advanceTime p t rot s = some sf →
      sf.currentTime = t ∧ sf.planetariumRotation = rot) ∧
    (s.initializing = false → s.currentTime < t →
      (∀ gv ∈ s.vessels, gv.2.state.isInitialized = true) →
      (∀ nx, s.bubble.next = some nx → ∀ g ∈ nx.map Prod.fst, g ∈ s.kept) →
      ∃ sf, advanceTime p t rot s = some sf) := by
  refine ⟨?_, ?_, ?_⟩
  · intro hpre
    unfold advanceTime
    by_cases hini : s.initializing = true
    · rw [if_pos hini]
    · rw [if_neg hini]
      rcases hpre with hini2 | hle
      · exact absurd hini2 hini
      · rw [if_neg (not_lt.mpr hle)]
  · intro sf hsf
    have hspec := advanceTime_spec (invOfReachable hr) hsf
    exact ⟨hspec.2.1, hspec.2.2.1⟩
  · intro hini hct hall hbub
    exact advanceTime_some (invOfReachable hr) hini hct hall hbub

theorem c9_witness :
    (wS2.initializing = true ∨ (25 : ℚ) ≤ wS2.currentTime →
      advanceTime wP 25 0 wS2 = none) ∧
    (∀ sf, advanceTime wP 25 0 wS2 = some sf →
      sf.currentTime = 25 ∧ sf.planetariumRotation = 0) ∧
    (wS2.initializing = false → wS2.currentTime < 25 →
      (∀ gv ∈ wS2.vessels, gv.2.state.isInitialized = true) →
      (∀ nx, wS2.bubble.next = some nx → ∀ g ∈ nx.map Prod.fst, g ∈ wS2.kept) →
      ∃ sf, advanceTime wP 25 0 wS2 = some sf) :=
  c9_advanceTime_contract wReach2

/-- **C9 counterexample**: a reachable, non-initializing state with
`current_time < t` on which `AdvanceTime` nevertheless aborts — the vessel
`"v1"` was inserted but never given a state, so `CheckVesselInvariants`
fails.  The claim's stated precondition is insufficient for completion. -/
theorem c9_cex :
    Reachable wS1 ∧ wS1.initializing = false ∧ wS1.currentTime < 25 ∧
    advanceTime wP 25 0 wS1 = none :=
  ⟨wReach1, by with_unfolding_all rfl,
   of_decide_eq_true (by with_unfolding_all rfl),
   by with_unfolding_all rfl⟩

/-- **C10**.  A successful `InsertOrKeepVessel(guid, parent_index)` implies
the parent celestial exists; afterwards the vessel is in `kept_vessels_`
and its parent is the celestial at `parent_index` — also when the vessel
already existed, so the call re-parents it — and the call returns `true`
if, and only if, the vessel was newly inserted. -/
theorem c10_insertOrKeepVessel_spec {g : GUID} {parentIdx : Index}
    {s s2 : Plugin} {b : Bool}
    (h : insertOrKeepVessel g parentIdx s = some (s2, b)) :
    parentIdx ∈ s.celestials.map Prod.fst ∧
    g ∈ s2.kept ∧
    (∃ v, alookup g s2.vessels = some v ∧ v.parent = parentIdx) ∧
    (b = true ↔ alookup g s.vessels = none) := by
  unfold insertOrKeepVessel at h
  by_cases hini : s.initializing = true
  · rw [if_pos hini] at h
    cases h
  · rw [if_neg hini] at h
    rcases hpc : alookup parentIdx s.celestials with _ | pc
    · rw [hpc] at h
      cases h
    · rw [hpc] at h
      have hpmem : parentIdx ∈ s.celestials.map Prod.fst :=
        alookup_some_mem_keys hpc
      rcases hgv : alookup g s.vessels with _ | v
      · rw [hgv] at h
        injection h with h
        injection h with h1 h2
        subst h1
        subst h2
        refine ⟨hpmem, mem_insSet.mpr (Or.inl rfl), ?_, by simp [hgv]⟩
        exact ⟨⟨parentIdx, .uninit⟩,
          alookup_insKey_self (alookup_eq_none.mp hgv), rfl⟩
      · rw [hgv] at h
        injection h with h
        injection h with h1 h2
        subst h1
        subst h2
        refine ⟨hpmem, mem_insSet.mpr (Or.inl rfl), ?_, by simp [hgv]⟩
        refine ⟨{ v with parent := parentIdx }, ?_, rfl⟩
        rw [alookup_aupdate_self, hgv]
        rfl

theorem c10_witness :
    (0 : Index) ∈ wS0.celestials.map Prod.fst ∧
    "v1" ∈ wS1.kept ∧
    (∃ v, alookup "v1" wS1.vessels = some v ∧ v.parent = 0) ∧
    (true = true ↔ alookup "v1" wS0.vessels = none) :=
  c10_insertOrKeepVessel_spec wIns

/-! ### C6: the AliceSun/Barycentric conversions -/

theorem vec3_add_sub_cancel (a b : Vec3) : a + b - a = b := by
  refine Vec3.eq_of _ _ ?_ ?_ ?_ <;> show _ + _ - _ = _ <;> ring

theorem dof_add_sub_cancel (a b : Dof) : a + b - a = b := by
  show Dof.mk (a.pos + b.pos - a.pos) (a.vel + b.vel - a.vel) = b
  rw [vec3_add_sub_cancel, vec3_add_sub_cancel]

/-- For a unit rotation, the outward conversion undoes the inward one. -/
theorem baryToAlice_aliceToBary (r : Rot) (h : r.c ^ 2 + r.s ^ 2 = 1)
    (d : Dof) : baryToAlice r (aliceToBary r d) = d := by
  show Dof.mk (permXZY (r.apply (r.inv.apply (permXZY d.pos))))
      (permXZY (r.apply (r.inv.apply (permXZY d.vel)))) = d
  rw [Rot.apply_inv_apply r h, Rot.apply_inv_apply r h,
    permXZY_involutive, permXZY_involutive]

/-- **C6**.  The `AliceSun → Barycentric` conversion (inverse permutation,
then inverse rotation) and the `Barycentric → AliceSun` conversion used by
`CelestialFromParent` (rotation, then permutation) are mutually inverse for
a unit rotation (`cos² + sin² = 1`): inserting a celestial with offset `d`
from its parent and then asking `CelestialFromParent` for that index —
after `EndInitialization`, which changes neither trajectories nor the
rotation, and before any time advance or rotation change — returns exactly
`d`.  `hph` states that each celestial's prolongation still coincides with
its history, as holds throughout initialization. -/
theorem celestialFromParent_eq {p : Params} {idx : Index} {s : Plugin}
    {c pc : Celestial} {parentIdx : Index}
    (hini : s.initializing = false)
    (hc : alookup idx s.celestials = some c)
    (hpar : c.parent = some parentIdx)
    (hpc : alookup parentIdx s.celestials = some pc) :
    celestialFromParent p idx s =
      some (baryToAlice (planetariumRot p s)
        (lastDof c.prolong - lastDof pc.prolong)) := by
  unfold celestialFromParent
  rw [if_neg (by rw [hini]; exact Bool.false_ne_true), hc]
  show (match c.parent with
    | none => none
    | some parentIdx2 =>
      match alookup parentIdx2 s.celestials with
      | none => none
      | some pc2 =>
        some (baryToAlice (planetariumRot p s)
          (lastDof c.prolong - lastDof pc2.prolong))) = _
  rw [hpar]
  show (match alookup parentIdx s.celestials with
    | none => none
    | some pc2 =>
      some (baryToAlice (planetariumRot p s)
        (lastDof c.prolong - lastDof pc2.prolong))) = _
  rw [hpc]

theorem c6_fromParent_inverse {p : Params}
    (htrig : ∀ θ, p.cosF θ ^ 2 + p.sinF θ ^ 2 = 1)
    {idx : Index} {μ : ℚ} {parentIdx : Index} {d : Dof} {s s2 : Plugin}
    (hph : ∀ ic ∈ s.celestials, ic.2.prolong = ic.2.history)
    (h : insertCelestial p idx μ parentIdx d s = some s2) :
    celestialFromParent p idx (endInitialization s2) = some d := by
  unfold insertCelestial at h
  split at h
  · cases h
  · split at h
    · cases h
    · rename_i pc hpc
      split at h
      · cases h
      · rename_i hidxnot
        injection h with h
        subst h
        have hpmem : parentIdx ∈ s.celestials.map Prod.fst :=
          alookup_some_mem_keys hpc
        have hne : parentIdx ≠ idx := fun he => hidxnot (he ▸ hpmem)
        have hc : alookup idx (insKey idx
            (⟨μ, some parentIdx,
              [(s.currentTime, lastDof pc.history + aliceToBary (planetariumRot p s) d)],
              [(s.currentTime, lastDof pc.history + aliceToBary (planetariumRot p s) d)]⟩ : Celestial)
            s.celestials) =
            some (⟨μ, some parentIdx,
              [(s.currentTime, lastDof pc.history + aliceToBary (planetariumRot p s) d)],
              [(s.currentTime, lastDof pc.history + aliceToBary (planetariumRot p s) d)]⟩ : Celestial) :=
          alookup_insKey_self hidxnot
        have hpc2 : alookup parentIdx (insKey idx
            (⟨μ, some parentIdx,
              [(s.currentTime, lastDof pc.history + aliceToBary (planetariumRot p s) d)],
              [(s.currentTime, lastDof pc.history + aliceToBary (planetariumRot p s) d)]⟩ : Celestial)
            s.celestials) = some pc := by
          rw [alookup_insKey_ne hne]
          exact hpc
        refine (celestialFromParent_eq rfl hc rfl hpc2).trans ?_
        show some (baryToAlice (planetariumRot p s)
          (lastDof pc.history + aliceToBary (planetariumRot p s) d -
            lastDof pc.prolong)) = some d
        have hpp : pc.prolong = pc.history := hph (parentIdx, pc) (alookup_mem hpc)
        rw [hpp, dof_add_sub_cancel,
          baryToAlice_aliceToBary _ (htrig s.planetariumRotation) d]

def wD : Dof := ⟨⟨1, 2, 3⟩, ⟨4, 5, 6⟩⟩

def wC1 : Plugin := (insertCelestial wP 1 1 0 wD (newPlugin 0 0 1 0)).getD wS0

theorem wInsCel : insertCelestial wP 1 1 0 wD (newPlugin 0 0 1 0) = some wC1 := by
  with_unfolding_all rfl

theorem c6_witness : celestialFromParent wP 1 (endInitialization wC1) = some wD :=
  c6_fromParent_inverse
    (fun θ => by show (1 : ℚ) ^ 2 + (0 : ℚ) ^ 2 = 1; norm_num)
    (of_decide_eq_true (by with_unfolding_all rfl)) wInsCel

/-! ### C7: rendered trajectories -/

/-- The twice-transformed ("apparent") trajectory materialized by
`RenderedVesselTrajectory`. -/
def apparentTraj (f1 f2 : ℚ → Dof → Dof) (hist : List TimedDof) :
    List TimedDof :=
  (hist.map (fun td => (td.1, f1 td.1 td.2))).map
    (fun td => (td.1, f2 td.1 td.2))

/-- The affine `Barycentric → World` map grounding the sun at
`sun_world_position`, as built by `RenderedVesselTrajectory`. -/
def worldMap (p : Params) (s : Plugin) (sunWorldPos : Vec3) (sun : Celestial)
    (q : Vec3) : Vec3 :=
  sunWorldPos + (planetariumRot p s).apply (q - (lastDof sun.prolong).pos)

/-- **C7**.  For an initialized, unsynchronized vessel,
`RenderedVesselTrajectory` returns the empty polygon; for a synchronized
vessel whose apparent (twice-transformed) trajectory has `n` samples it
returns exactly `n - 1` segments, the `i`-th joining the world-mapped
positions of apparent samples `i` and `i + 1`, so consecutive segments
chain (the end of each is the beginning of the next). -/
theorem c7_rendered_segments {p : Params} {f1 f2 : ℚ → Dof → Dof}
    {w : Vec3} {g : GUID} {s : Plugin} {sun : Celestial} {v : Vessel}
    (hini : s.initializing = false)
    (hsun : alookup s.sunIndex s.celestials = some sun)
    (hv : alookup g s.vessels = some v) :
    (v.state.isInitialized = true → v.state.isSync = false →
      renderedVesselTrajectory p f1 f2 w g s = some []) ∧
    (∀ hist pr, v.state = .sync hist pr →
      ∃ segs, renderedVesselTrajectory p f1 f2 w g s = some segs ∧
        segs.length = (apparentTraj f1 f2 hist).length - 1 ∧
        (∀ i a b, (apparentTraj f1 f2 hist)[i]? = some a →
          (apparentTraj f1 f2 hist)[i + 1]? = some b →
          segs[i]? = some (worldMap p s w sun a.2.pos,
            worldMap p s w sun b.2.pos)) ∧
        (∀ i x y, segs[i]? = some x → segs[i + 1]? = some y → x.2 = y.1)) := by
  obtain ⟨vp, vst⟩ := v
  have hinifalse : ¬(s.initializing = true) := by
    rw [hini]
    exact Bool.false_ne_true
  constructor
  · intro hinit hnsync
    unfold renderedVesselTrajectory
    rw [if_neg hinifalse, hsun, hv]
    rcases vst with _ | pr | ⟨hh, hp⟩
    · cases hinit
    · rfl
    · cases hnsync
  · intro hist pr hst
    have hst' : vst = .sync hist pr := hst
    subst hst'
    refine ⟨List.zipWith
      (fun a b => (worldMap p s w sun a.2.pos, worldMap p s w sun b.2.pos))
      (apparentTraj f1 f2 hist) (apparentTraj f1 f2 hist).tail, ?_, ?_, ?_, ?_⟩
    · unfold renderedVesselTrajectory
      rw [if_neg hinifalse, hsun, hv]
      rfl
    · rw [List.length_zipWith, List.length_tail]
      omega
    · intro i a b ha hb
      obtain ⟨hia, haeq⟩ := List.getElem?_eq_some_iff.mp ha
      obtain ⟨hib, hbeq⟩ := List.getElem?_eq_some_iff.mp hb
      have hlen : i < (List.zipWith
          (fun a b => (worldMap p s w sun a.2.pos, worldMap p s w sun b.2.pos))
          (apparentTraj f1 f2 hist) (apparentTraj f1 f2 hist).tail).length := by
        rw [List.length_zipWith, List.length_tail]
        omega
      rw [List.getElem?_eq_getElem hlen, List.getElem_zipWith,
        List.getElem_tail, haeq, hbeq]
    · intro i x y hx hy
      obtain ⟨hix, hxeq⟩ := List.getElem?_eq_some_iff.mp hx
      obtain ⟨hiy, hyeq⟩ := List.getElem?_eq_some_iff.mp hy
      rw [List.length_zipWith, List.length_tail] at hix hiy
      have hlen0 : i < (apparentTraj f1 f2 hist).length := by omega
      have hlen1 : i + 1 < (apparentTraj f1 f2 hist).length := by omega
      have hlen2 : i + 2 < (apparentTraj f1 f2 hist).length := by omega
      have hzlen : ∀ j, j + 1 < (apparentTraj f1 f2 hist).length →
          j < (List.zipWith
            (fun a b => (worldMap p s w sun a.2.pos, worldMap p s w sun b.2.pos))
            (apparentTraj f1 f2 hist) (apparentTraj f1 f2 hist).tail).length := by
        intro j hj
        rw [List.length_zipWith, List.length_tail]
        omega
      have h1 : (List.zipWith
          (fun a b => (worldMap p s w sun a.2.pos, worldMap p s w sun b.2.pos))
          (apparentTraj f1 f2 hist) (apparentTraj f1 f2 hist).tail)[i]? =
          some (worldMap p s w sun
              ((apparentTraj f1 f2 hist).get ⟨i, hlen0⟩).2.pos,
            worldMap p s w sun
              ((apparentTraj f1 f2 hist).get ⟨i + 1, hlen1⟩).2.pos) := by
        rw [List.getElem?_eq_getElem (hzlen i hlen1), List.getElem_zipWith,
          List.getElem_tail]
        rfl
      have h2 : (List.zipWith
          (fun a b => (worldMap p s w sun a.2.pos, worldMap p s w sun b.2.pos))
          (apparentTraj f1 f2 hist) (apparentTraj f1 f2 hist).tail)[i + 1]? =
          some (worldMap p s w sun
              ((apparentTraj f1 f2 hist).get ⟨i + 1, hlen1⟩).2.pos,
            worldMap p s w sun
              ((apparentTraj f1 f2 hist).get ⟨i + 2, hlen2⟩).2.pos) := by
        rw [List.getElem?_eq_getElem (hzlen (i + 1) hlen2), List.getElem_zipWith,
          List.getElem_tail]
        rfl
      rw [hx] at h1
      rw [hy] at h2
      injection h1 with h1
      injection h2 with h2
      rw [h1, h2]

def wSunC : Celestial := (alookup wSF.sunIndex wSF.celestials).getD ⟨1, none, [], []⟩

theorem c7_witness :
    (wVF.state.isInitialized = true → wVF.state.isSync = false →
      renderedVesselTrajectory wP (fun _ d => d) (fun _ d => d) vec0 "v1" wSF =
        some []) ∧
    (∀ hist pr, wVF.state = .sync hist pr →
      ∃ segs, renderedVesselTrajectory wP (fun _ d => d) (fun _ d => d) vec0
          "v1" wSF = some segs ∧
        segs.length = (apparentTraj (fun _ d => d) (fun _ d => d) hist).length - 1 ∧
        (∀ i a b, (apparentTraj (fun _ d => d) (fun _ d => d) hist)[i]? = some a →
          (apparentTraj (fun _ d => d) (fun _ d => d) hist)[i + 1]? = some b →
          segs[i]? = some (worldMap wP wSF vec0 wSunC a.2.pos,
            worldMap wP wSF vec0 wSunC b.2.pos)) ∧
        (∀ i x y, segs[i]? = some x → segs[i + 1]? = some y → x.2 = y.1)) :=
  c7_rendered_segments (by with_unfolding_all rfl)
    (by with_unfolding_all rfl) (by with_unfolding_all rfl)

/-! ### C2: the serialization round trip -/

theorem insKey_append_of_lt {K : Type} [LinearOrder K] {V : Type} {k : K} {v : V} :
    ∀ {l : List (K × V)}, (∀ a ∈ l.map Prod.fst, a < k) →
      insKey k v l = l ++ [(k, v)]
  | [], _ => rfl
  | p :: t, h => by
    show (if k < p.1 then (k, v) :: p :: t else p :: insKey k v t) =
      (p :: t) ++ [(k, v)]
    rw [if_neg (lt_asymm (h p.1 (by simp)))]
    rw [insKey_append_of_lt (fun a ha => h a (List.mem_cons_of_mem _ ha))]
    rfl

/-- The deserialization rebuild of a key-sorted map (fresh keys checked,
sorted insertion) reproduces the serialized association list. -/
theorem foldl_insKey_fresh {K : Type} [LinearOrder K] {V : Type} :
    ∀ (l acc : List (K × V)),
      SortedKeys (acc.map Prod.fst ++ l.map Prod.fst) →
      List.foldl (fun acc2 ic =>
        if ic.1 ∈ acc2.map Prod.fst then acc2 else insKey ic.1 ic.2 acc2) acc l =
      acc ++ l
  | [], acc, _ => by simp
  | p :: t, acc, h => by
    rw [List.foldl_cons]
    have hlt : ∀ a ∈ acc.map Prod.fst, a < p.1 := by
      intro a ha
      exact (List.pairwise_append.mp h).2.2 a ha p.1 (by simp)
    have hnot : p.1 ∉ acc.map Prod.fst := fun hmem => lt_irrefl p.1 (hlt p.1 hmem)
    rw [if_neg hnot, insKey_append_of_lt hlt]
    have hsorted : SortedKeys ((acc ++ [p]).map Prod.fst ++ t.map Prod.fst) := by
      rw [List.map_append, List.append_assoc]
      simpa using h
    rw [foldl_insKey_fresh t (acc ++ [p]) hsorted]
    simp

/-- The vessel pass of the deserialization reproduces the serialized
vessel map (for any serialized dirty bits). -/
theorem vesselsRead_of_sorted {cs : List (Index × Celestial)}
    (dirtyb : GUID × Vessel → Bool) :
    ∀ (l acc : List (GUID × Vessel)),
      SortedKeys (acc.map Prod.fst ++ l.map Prod.fst) →
      (∀ gv ∈ l, gv.2.parent ∈ cs.map Prod.fst) →
      vesselsRead cs (l.map (fun gv => ⟨gv.1, gv.2, dirtyb gv⟩)) acc =
        some (acc ++ l)
  | [], acc, _, _ => by simp [vesselsRead]
  | p :: t, acc, h, hpar => by
    show (if p.2.parent ∈ cs.map Prod.fst then
        if p.1 ∈ acc.map Prod.fst then none
        else vesselsRead cs (t.map (fun gv => ⟨gv.1, gv.2, dirtyb gv⟩))
          (insKey p.1 p.2 acc)
      else none) = some (acc ++ p :: t)
    rw [if_pos (hpar p (List.mem_cons_self p t))]
    have hlt : ∀ a ∈ acc.map Prod.fst, a < p.1 := by
      intro a ha
      exact (List.pairwise_append.mp h).2.2 a ha p.1 (by simp)
    rw [if_neg (fun hmem => lt_irrefl p.1 (hlt p.1 hmem))]
    rw [insKey_append_of_lt hlt]
    have hsorted : SortedKeys ((acc ++ [p]).map Prod.fst ++ t.map Prod.fst) := by
      rw [List.map_append, List.append_assoc]
      simpa using h
    rw [vesselsRead_of_sorted dirtyb t (acc ++ [p]) hsorted
      (fun gv hgv => hpar gv (List.mem_cons_of_mem p hgv))]
    simp

theorem filter_of_map {α β : Type} (f : α → β) (q : β → Bool) (l : List α) :
    (l.map f).filter q = (l.filter (fun a => q (f a))).map f := by
  rw [List.filter_map]
  rfl

theorem mem_map_fst_filter {α β : Type} {q : α × β → Bool} {l : List (α × β)}
    {a : α} :
    a ∈ (l.filter q).map Prod.fst ↔ ∃ b, (a, b) ∈ l ∧ q (a, b) = true := by
  constructor
  · intro h
    obtain ⟨p, hp, hfst⟩ := List.mem_map.mp h
    obtain ⟨hmem, hq⟩ := List.mem_filter.mp hp
    refine ⟨p.2, ?_, ?_⟩
    · rw [← hfst]
      exact hmem
    · rw [← hfst]
      exact hq
  · rintro ⟨b, hmem, hq⟩
    exact List.mem_map.mpr ⟨(a, b), List.mem_filter.mpr ⟨hmem, hq⟩, rfl⟩

theorem sortedKeys_filter {α β : Type} [LinearOrder α] {q : α × β → Bool}
    {l : List (α × β)} (h : SortedKeys (l.map Prod.fst)) :
    SortedKeys ((l.filter q).map Prod.fst) :=
  List.Pairwise.sublist ((List.filter_sublist l).map Prod.fst) h

/-- **C2** (corrected).  On a reachable, non-initializing plugin whose
vessels are all initialized (otherwise `WriteToMessage` aborts) and whose
parent references resolve, the round trip
`ReadFromMessage(WriteToMessage(s))` restores every serialized component —
vessels with their parents, celestials with their parents and trajectories,
the recomputed unsynchronized and dirty sets, the bubble,
`planetarium_rotation`, `current_time` and the sun's index — but *not*
`kept_vessels_`, which is not serialized and is left empty by the
deserialization constructor.  The restored state is exactly
`{ s with kept := [] }`, so the claim's "observationally equivalent" is
wrong for any state with a nonempty `kept_vessels_` (see the
counterexample, where the same subsequent call diverges on the two
states). -/
theorem c2_roundtrip {s : Plugin} (hr : Reachable s)
    (hini : s.initializing = false)
    (hall : ∀ gv ∈ s.vessels, gv.2.state.isInitialized = true)
    (hcpar : ∀ ic ∈ s.celestials,
      Option.all (fun pi => decide (pi ∈ s.celestials.map Prod.fst))
        ic.2.parent = true)
    (hvpar : ∀ gv ∈ s.vessels, gv.2.parent ∈ s.celestials.map Prod.fst) :
    (writeToMessage s).bind readFromMessage = some { s with kept := [] } := by
  have hinv := invOfReachable hr
  have hw : writeToMessage s = some ⟨s.celestials,
      s.vessels.map (fun gv => ⟨gv.1, gv.2, decide (gv.1 ∈ s.dirty)⟩),
      s.bubble, s.planetariumRotation, s.currentTime, s.sunIndex⟩ := by
    unfold writeToMessage
    rw [if_neg (by rw [hini]; exact Bool.false_ne_true),
      if_pos (List.all_eq_true.mpr hall)]
  rw [hw, Option.some_bind]
  simp only [readFromMessage]
  have hfold : List.foldl (fun acc ic =>
      if ic.1 ∈ acc.map Prod.fst then acc else insKey ic.1 ic.2 acc)
      ([] : List (Index × Celestial)) s.celestials = s.celestials :=
    (foldl_insKey_fresh s.celestials [] (by simpa using hinv.cKeys)).trans
      (List.nil_append s.celestials)
  rw [hfold]
  have hvr : vesselsRead s.celestials
      (s.vessels.map (fun gv =>
        (⟨gv.1, gv.2, decide (gv.1 ∈ s.dirty)⟩ : VesselMsg))) [] =
      some s.vessels :=
    (vesselsRead_of_sorted (fun gv => decide (gv.1 ∈ s.dirty)) s.vessels []
      (by simpa using hinv.vKeys) hvpar).trans (by rw [List.nil_append])
  have hbubB : bubbleGuidsOk s.bubble s.vessels = true := by
    unfold bubbleGuidsOk
    rw [Bool.and_eq_true]
    constructor
    · rcases hcur : s.bubble.current with _ | st
      · rfl
      · show st.vessels.all (fun gp => decide (gp.1 ∈ s.vessels.map Prod.fst)) = true
        rw [List.all_eq_true]
        intro gp hgp
        exact decide_eq_true
          (hinv.curInv st hcur gp.1 (List.mem_map_of_mem Prod.fst hgp))
    · rcases hnx : s.bubble.next with _ | nx
      · rfl
      · show nx.all (fun gp => decide (gp.1 ∈ s.vessels.map Prod.fst)) = true
        rw [List.all_eq_true]
        intro gp hgp
        exact decide_eq_true (hinv.dirtySub gp.1
          ((hinv.nextInv nx hnx).2 gp.1 (List.mem_map_of_mem Prod.fst hgp)))
  have hu : (s.vessels.filter (fun gv => !gv.2.state.isSync)).map Prod.fst =
      s.unsync := by
    refine sortedKeys_ext (sortedKeys_filter hinv.vKeys) hinv.uKeys ?_
    intro g
    rw [mem_map_fst_filter]
    constructor
    · rintro ⟨v, hmem, hq⟩
      rw [Bool.not_eq_true'] at hq
      exact hinv.unsyncComplete (g, v) hmem (hall (g, v) hmem) hq
    · intro hg
      obtain ⟨v, hv, hinit2, hns⟩ := hinv.unsyncMem g hg
      refine ⟨v, alookup_mem hv, ?_⟩
      show (!v.state.isSync) = true
      rw [hns]
      rfl
  have hd : ((s.vessels.map (fun gv =>
      (⟨gv.1, gv.2, decide (gv.1 ∈ s.dirty)⟩ : VesselMsg))).filter
        (fun vm => vm.dirty)).map (fun vm => vm.guid) = s.dirty := by
    rw [filter_of_map, List.map_map]
    refine sortedKeys_ext ?_ hinv.dKeys ?_
    · exact sortedKeys_filter hinv.vKeys
    · intro g
      show g ∈ (s.vessels.filter
        (fun gv => decide (gv.1 ∈ s.dirty))).map Prod.fst ↔ g ∈ s.dirty
      rw [mem_map_fst_filter]
      constructor
      · rintro ⟨v, hmem, hq⟩
        exact of_decide_eq_true hq
      · intro hg
        obtain ⟨gv, hmem, hfst⟩ := List.mem_map.mp (hinv.dirtySub g hg)
        refine ⟨gv.2, ?_, decide_eq_true hg⟩
        rw [← hfst]
        exact hmem
  split
  · rw [hvr]
    show (if bubbleGuidsOk s.bubble s.vessels = true then
        match alookup s.sunIndex s.celestials with
        | none => none
        | some _ =>
          some { vessels := s.vessels
                 celestials := s.celestials
                 unsync := (s.vessels.filter
                   (fun gv => !gv.2.state.isSync)).map Prod.fst
                 dirty := ((s.vessels.map (fun gv =>
                   (⟨gv.1, gv.2, decide (gv.1 ∈ s.dirty)⟩ : VesselMsg))).filter
                     (fun vm => vm.dirty)).map (fun vm => vm.guid)
                 kept := []
                 bubble := s.bubble
                 initializing := false
                 planetariumRotation := s.planetariumRotation
                 currentTime := s.currentTime
                 sunIndex := s.sunIndex }
      else none) = some { s with kept := [] }
    rw [if_pos hbubB]
    obtain ⟨sunc, hsunc⟩ :=
      Option.isSome_iff_exists.mp (alookup_isSome.mpr hinv.sunMem)
    rw [hsunc]
    show some { vessels := s.vessels
                celestials := s.celestials
                unsync := (s.vessels.filter
                  (fun gv => !gv.2.state.isSync)).map Prod.fst
                dirty := ((s.vessels.map (fun gv =>
                  (⟨gv.1, gv.2, decide (gv.1 ∈ s.dirty)⟩ : VesselMsg))).filter
                    (fun vm => vm.dirty)).map (fun vm => vm.guid)
                kept := []
                bubble := s.bubble
                initializing := false
                planetariumRotation := s.planetariumRotation
                currentTime := s.currentTime
                sunIndex := s.sunIndex } = some { s with kept := [] }
    rw [hu, hd, ← hini]
  · rename_i hcond
    exfalso
    apply hcond
    rw [List.all_eq_true]
    intro ic hic
    have hop := hcpar ic hic
    rcases hp : ic.2.parent with _ | pi
    · exact rfl
    · rw [hp] at hop
      exact hop

def wR2 : Plugin := ((writeToMessage wS2).bind readFromMessage).getD wS0

/-- **C2 counterexample**: the round trip is *not* observationally
equivalent.  `wS2` has `kept_vessels_ = ["v1"]`; its restored copy has
`kept_vessels_ = []`, and the very same subsequent call
`AdvanceTime(25, 0)` keeps the vessel on the original but removes it on
the restored state. -/
theorem c2_cex :
    (writeToMessage wS2).bind readFromMessage = some wR2 ∧
    wS2.kept = ["v1"] ∧ wR2.kept = [] ∧
    (advanceTime wP 25 0 wS2).map (fun sx => sx.vessels.map Prod.fst) =
      some ["v1"] ∧
    (advanceTime wP 25 0 wR2).map (fun sx => sx.vessels.map Prod.fst) =
      some [] :=
  ⟨by with_unfolding_all rfl, by with_unfolding_all rfl,
   by with_unfolding_all rfl, by with_unfolding_all rfl,
   by with_unfolding_all rfl⟩

theorem c2_witness :
    (writeToMessage wSF).bind readFromMessage = some { wSF with kept := [] } :=
  c2_roundtrip wReachF (by with_unfolding_all rfl)
    (of_decide_eq_true (by with_unfolding_all rfl))
    (of_decide_eq_true (by with_unfolding_all rfl))
    (of_decide_eq_true (by with_unfolding_all rfl))

end Principia
